import Mathlib

/-!
Lemon script runtime: opcode translator, opcode executors, standard library.

A shallow embedding of

* `lemon/runtime/provider/DefaultOpcodeProvider.cpp` (class `OpcodeExec` and
  `DefaultOpcodeProvider::buildRuntimeOpcodeStatic`), and
* `lemon/runtime/StandardLibrary.cpp` (namespace `functions`),

followed by theorems about the embedded definitions.

Conventions of the embedding.

* A C++ integer value is a mathematical integer (`Int`) lying in the range of its
  type; conversions between integer types are written `castTo T`.
* A pointer into the value stack or the local variable buffer is the index of the
  cell it points to; the buffers are total maps from cell index to cell content.
* The arithmetic of the machine is two's complement: `+`, `-`, `*`, unary `-` and
  `<<` wrap modulo `2 ^ bits` of the type they are computed in, `>>` on a signed
  type is an arithmetic shift, and the integer division instruction faults both
  on a zero divisor and on the one quotient that is not representable.
-/

deriving instance DecidableEq for Except

namespace lemon

/-! ## Integer types -/

/-- The eight integer types the opcode handlers are instantiated with. -/
inductive IntType where
  | int8 | int16 | int32 | int64
  | uint8 | uint16 | uint32 | uint64
  deriving DecidableEq, Repr

namespace IntType

/-- Width in bits, `sizeof(T) * 8`. -/
def bits : IntType → Nat
  | int8 | uint8 => 8
  | int16 | uint16 => 16
  | int32 | uint32 => 32
  | int64 | uint64 => 64

/-- Signedness of the type. -/
def isSigned : IntType → Bool
  | int8 | int16 | int32 | int64 => true
  | uint8 | uint16 | uint32 | uint64 => false

/-- Smallest value of the type. -/
def minValue (T : IntType) : Int :=
  if T.isSigned then -(2 ^ (T.bits - 1)) else 0

/-- Largest value of the type. -/
def maxValue (T : IntType) : Int :=
  if T.isSigned then 2 ^ (T.bits - 1) - 1 else 2 ^ T.bits - 1

/-- The value `v` is representable in the type. -/
def InRange (T : IntType) (v : Int) : Prop :=
  T.minValue ≤ v ∧ v ≤ T.maxValue

instance (T : IntType) (v : Int) : Decidable (T.InRange v) := by
  unfold InRange; infer_instance

/-- C++ integral promotion: every operand type narrower than `int` is promoted to
`int` (32 bits, signed) before an arithmetic operator is applied; `int`,
`unsigned int` and the 64-bit types are kept. -/
def promoted : IntType → IntType
  | int8 | int16 | uint8 | uint16 => int32
  | T => T

end IntType

/-- Integer conversion `(T)v`: the value of type `T` congruent to `v` modulo
`2 ^ bits(T)`. -/
def castTo (T : IntType) (v : Int) : Int :=
  let m := v % 2 ^ T.bits
  if T.isSigned && decide (2 ^ (T.bits - 1) ≤ m) then m - 2 ^ T.bits else m

/-- The object representation of a value as an unsigned number of `w` bits. -/
def toBits (w : Nat) (v : Int) : Nat :=
  (v % 2 ^ w).toNat

/-- Assignment of a value of any integer type to a 64-bit `int64` stack cell. -/
def toCell (v : Int) : Int :=
  castTo IntType.int64 v

/-- Reading a stack cell as `uint64`, as done for memory addresses. -/
def cellAsUInt64 (v : Int) : Nat :=
  toBits 64 v

/-! ## Machine arithmetic on promoted operands -/

/-- Faults an opcode handler can raise. -/
inductive ExecError where
  | divideByZero
  | divideOverflow
  | invalidMemset
  | unhandledOpcode
  deriving DecidableEq, Repr

/-- Bitwise operator applied to two values of the type `P`, through their object
representation. -/
def bitwiseOp (f : Nat → Nat → Nat) (P : IntType) (a b : Int) : Int :=
  castTo P (f (toBits P.bits a) (toBits P.bits b))

/-- Operator `a + b` evaluated in the type `P`. -/
def machineAdd (P : IntType) (a b : Int) : Int := castTo P (a + b)

/-- Operator `a - b` evaluated in the type `P`. -/
def machineSub (P : IntType) (a b : Int) : Int := castTo P (a - b)

/-- Operator `a * b` evaluated in the type `P`. -/
def machineMul (P : IntType) (a b : Int) : Int := castTo P (a * b)

/-- Operator `a / b` evaluated in the type `P`: truncating division, faulting on a
zero divisor and on `minValue / -1`. -/
def machineDiv (P : IntType) (a b : Int) : Except ExecError Int :=
  if b = 0 then .error .divideByZero
  else if P.isSigned && decide (a = P.minValue) && decide (b = -1) then .error .divideOverflow
  else .ok (Int.tdiv a b)

/-- Operator `a % b` evaluated in the type `P`: remainder of the truncating
division, faulting where the division does. -/
def machineMod (P : IntType) (a b : Int) : Except ExecError Int :=
  if b = 0 then .error .divideByZero
  else if P.isSigned && decide (a = P.minValue) && decide (b = -1) then .error .divideOverflow
  else .ok (Int.tmod a b)

/-- Operator `a << n` evaluated in the type `P`, for a count `n` below the width. -/
def machineShl (P : IntType) (a : Int) (n : Nat) : Int := castTo P (a * 2 ^ n)

/-- Operator `a >> n` evaluated in the type `P`, for a count `n` below the width:
arithmetic on a signed type, logical on an unsigned one; both are the floor of
`a / 2 ^ n` on the value. -/
def machineShr (_P : IntType) (a : Int) (n : Nat) : Int := a / 2 ^ n

/-- The shift count `(T)s & (sizeof(T) * 8 - 1)`: the `T`-typed count is converted
to `size_t` and masked. -/
def shiftCount (T : IntType) (s : Int) : Nat :=
  toBits 64 (castTo T s) &&& (T.bits - 1)

/-! ## Control flow state -/

/-- Host memory as seen through the memory access handler: address to byte. -/
abbrev HostMemory := Nat → Nat

/-- The memory access handler supplied by the embedder, reached through
`OpcodeExecUtils::readMemory<T>` and `OpcodeExecUtils::writeMemory<T>`. It owns
the byte order and the address mapping. -/
structure MemoryAccessHandler where
  read : HostMemory → IntType → Nat → Int
  write : HostMemory → IntType → Nat → Int → HostMemory

/-- Per-thread execution state reached through `context.mControlFlow`.

* `mValueStackBuffer` / `mValueStackPtr`: the value stack; the pointer is the
  index of the cell one past the top.
* `mLocalVariablesBuffer` / `mLocalVariablesSize`: the local variable stack.
* `mCurrentLocalVariables`: index of the first local variable of the current
  frame in the local variable buffer.
* `mUserVariables`: values of the program's user-defined global variables, by
  variable id.
* `mHostBytes`: the storage that the pointers of global and external variables
  point into, byte by byte.
* `mMemory`: the host memory behind the memory access handler. -/
structure ControlFlow where
  mValueStackBuffer : Int → Int
  mValueStackPtr : Int
  mLocalVariablesBuffer : Int → Int
  mLocalVariablesSize : Int
  mCurrentLocalVariables : Int
  mUserVariables : Nat → Int
  mHostBytes : Nat → Nat
  mMemory : HostMemory

/-- Store `v` into cell `i` of a buffer. -/
def setCell (buffer : Int → Int) (i : Int) (v : Int) : Int → Int :=
  fun j => if j = i then v else buffer j

namespace ControlFlow

/-- The statement `*(mValueStackPtr + offset) = v`. -/
def writeStack (cf : ControlFlow) (offset : Int) (v : Int) : ControlFlow :=
  { cf with mValueStackBuffer := setCell cf.mValueStackBuffer (cf.mValueStackPtr + offset) (toCell v) }

/-- The expression `*(mValueStackPtr + offset)`. -/
def readStack (cf : ControlFlow) (offset : Int) : Int :=
  cf.mValueStackBuffer (cf.mValueStackPtr + offset)

/-- The statement `mValueStackPtr += n`. -/
def moveStackPtr (cf : ControlFlow) (n : Int) : ControlFlow :=
  { cf with mValueStackPtr := cf.mValueStackPtr + n }

/-- The cell on top of the value stack, `*(mValueStackPtr - 1)`. -/
def top (cf : ControlFlow) : Int :=
  cf.readStack (-1)

end ControlFlow

/-- Modelled from the spec: `RuntimeOpcodeContext` (declared in
`RuntimeOpcodeContext.h`) gives a handler the control flow and the inline
parameter word of the runtime opcode being executed. -/
structure RuntimeOpcodeContext where
  mControlFlow : ControlFlow
  mParameter : Int

namespace RuntimeOpcodeContext

/-- Modelled from the spec: `getParameter<T>()` reads the inline parameter word
as a `T`, which keeps its low `bits(T)` bits. -/
def getParameter (context : RuntimeOpcodeContext) (T : IntType) : Int :=
  castTo T context.mParameter

/-- Modelled from the spec: `getParameter<T*>()` reads the parameter word as a
pointer to host storage. -/
def getParameterPointer (context : RuntimeOpcodeContext) : Nat :=
  toBits 64 context.mParameter

/-- Modelled from the spec: `readLocalVariable<int64>(id)` reads the local
variable with index `id` of the current frame. -/
def readLocalVariable (context : RuntimeOpcodeContext) (variableId : Int) : Int :=
  context.mControlFlow.mLocalVariablesBuffer (context.mControlFlow.mCurrentLocalVariables + variableId)

/-- Modelled from the spec: `writeLocalVariable<int64>(id, v)` stores into the
local variable with index `id` of the current frame. -/
def writeLocalVariable (context : RuntimeOpcodeContext) (variableId : Int) (v : Int) : ControlFlow :=
  { context.mControlFlow with
    mLocalVariablesBuffer :=
      setCell context.mControlFlow.mLocalVariablesBuffer
        (context.mControlFlow.mCurrentLocalVariables + variableId) (toCell v) }

end RuntimeOpcodeContext

/-- Little-endian read of `n` bytes of host storage starting at `p`. -/
def readBytes (bytes : Nat → Nat) (p : Nat) : Nat → Nat
  | 0 => 0
  | n + 1 => bytes p % 256 + 256 * readBytes bytes (p + 1) n

/-- Little-endian write of the low `n` bytes of `v` to host storage at `p`. -/
def writeBytes (bytes : Nat → Nat) (p : Nat) : Nat → Nat → Nat → Nat
  | 0, _ => bytes
  | n + 1, v => fun q => if q = p then v % 256 else writeBytes bytes (p + 1) n (v / 256) q

/-! ## Opcode handlers (class `OpcodeExec`) -/

/-- The loop `for (i = 0; i < count; ++i) buffer[start + i] = 0`. -/
def zeroCells (buffer : Int → Int) (start : Int) : Nat → Int → Int
  | 0 => buffer
  | n + 1 => zeroCells (setCell buffer start 0) (start + 1) n

namespace OpcodeExec

open IntType

def exec_NOP (context : RuntimeOpcodeContext) : ControlFlow :=
  context.mControlFlow

def exec_MOVE_STACK_positive (context : RuntimeOpcodeContext) : ControlFlow :=
  let count : Int := context.getParameter int16
  let cf := context.mControlFlow
  { cf with
    mValueStackBuffer := zeroCells cf.mValueStackBuffer cf.mValueStackPtr count.toNat
    mValueStackPtr := cf.mValueStackPtr + count }

def exec_MOVE_STACK_negative (context : RuntimeOpcodeContext) : ControlFlow :=
  context.mControlFlow.moveStackPtr (context.getParameter int16)

def exec_MOVE_STACK_m1 (context : RuntimeOpcodeContext) : ControlFlow :=
  context.mControlFlow.moveStackPtr (-1)

/-- The `memset` of `count * sizeof(int64)` bytes has a size of type `size_t`; a
negative `count` makes it larger than any buffer, which is reported as a fault. -/
def exec_MOVE_VAR_STACK_positive (context : RuntimeOpcodeContext) : Except ExecError ControlFlow :=
  let count : Int := context.getParameter int16
  let cf := context.mControlFlow
  if count < 0 then .error .invalidMemset
  else .ok
    { cf with
      mLocalVariablesBuffer := zeroCells cf.mLocalVariablesBuffer cf.mLocalVariablesSize count.toNat
      mLocalVariablesSize := cf.mLocalVariablesSize + count }

def exec_MOVE_VAR_STACK_negative (context : RuntimeOpcodeContext) : ControlFlow :=
  let count : Int := context.getParameter int16
  let cf := context.mControlFlow
  { cf with mLocalVariablesSize := cf.mLocalVariablesSize + count }

def exec_PUSH_CONSTANT (context : RuntimeOpcodeContext) : ControlFlow :=
  (context.mControlFlow.writeStack 0 (context.getParameter int64)).moveStackPtr 1

def exec_DUPLICATE (context : RuntimeOpcodeContext) : ControlFlow :=
  let cf := context.mControlFlow
  (cf.writeStack 0 (cf.readStack (-1))).moveStackPtr 1

def exec_EXCHANGE (context : RuntimeOpcodeContext) : ControlFlow :=
  let cf := context.mControlFlow
  let value1 := castTo uint64 (cf.readStack (-1))
  let value2 := castTo uint64 (cf.readStack (-2))
  (cf.writeStack (-1) value2).writeStack (-2) value1

def exec_GET_VARIABLE_VALUE_LOCAL (context : RuntimeOpcodeContext) : ControlFlow :=
  let variableId := context.getParameter uint32
  (context.mControlFlow.writeStack 0 (context.readLocalVariable variableId)).moveStackPtr 1

def exec_GET_VARIABLE_VALUE_USER (context : RuntimeOpcodeContext) : ControlFlow :=
  let variableId := context.getParameter uint32
  let cf := context.mControlFlow
  (cf.writeStack 0 (cf.mUserVariables variableId.toNat)).moveStackPtr 1

def exec_GET_VARIABLE_VALUE_EXTERNAL (T : IntType) (context : RuntimeOpcodeContext) : ControlFlow :=
  let cf := context.mControlFlow
  let value := castTo T (readBytes cf.mHostBytes context.getParameterPointer (T.bits / 8))
  (cf.writeStack 0 value).moveStackPtr 1

def exec_SET_VARIABLE_VALUE_LOCAL (context : RuntimeOpcodeContext) : ControlFlow :=
  let value := context.mControlFlow.readStack (-1)
  let variableId := context.getParameter uint32
  context.writeLocalVariable variableId value

def exec_SET_VARIABLE_VALUE_USER (context : RuntimeOpcodeContext) : ControlFlow :=
  let cf := context.mControlFlow
  let value := cf.readStack (-1)
  let variableId := context.getParameter uint32
  { cf with mUserVariables := fun id => if id = variableId.toNat then value else cf.mUserVariables id }

def exec_SET_VARIABLE_VALUE_EXTERNAL (T : IntType) (context : RuntimeOpcodeContext) : ControlFlow :=
  let cf := context.mControlFlow
  let value := cf.readStack (-1)
  { cf with
    mHostBytes :=
      writeBytes cf.mHostBytes context.getParameterPointer (T.bits / 8) (toBits T.bits (castTo T value)) }

def exec_READ_MEMORY (h : MemoryAccessHandler) (T : IntType) (context : RuntimeOpcodeContext) : ControlFlow :=
  let cf := context.mControlFlow
  let address := cellAsUInt64 (cf.readStack (-1))
  cf.writeStack (-1) (castTo T (h.read cf.mMemory T address))

def exec_READ_MEMORY_NOCONSUME (h : MemoryAccessHandler) (T : IntType) (context : RuntimeOpcodeContext) :
    ControlFlow :=
  let cf := context.mControlFlow
  let address := cellAsUInt64 (cf.readStack (-1))
  (cf.writeStack 0 (castTo T (h.read cf.mMemory T address))).moveStackPtr 1

def exec_WRITE_MEMORY (h : MemoryAccessHandler) (T : IntType) (context : RuntimeOpcodeContext) : ControlFlow :=
  let cf := context.mControlFlow.moveStackPtr (-1)
  let address := cellAsUInt64 (cf.readStack 0)
  { cf with mMemory := h.write cf.mMemory T address (castTo T (cf.readStack (-1))) }

def exec_WRITE_MEMORY_EXCHANGED (h : MemoryAccessHandler) (T : IntType) (context : RuntimeOpcodeContext) :
    ControlFlow :=
  let cf := context.mControlFlow.moveStackPtr (-1)
  let address := cellAsUInt64 (cf.readStack (-1))
  let value := castTo T (cf.readStack 0)
  let cf1 := { cf with mMemory := h.write cf.mMemory T address value }
  cf1.writeStack (-1) value

def exec_CAST_VALUE (T : IntType) (context : RuntimeOpcodeContext) : ControlFlow :=
  let cf := context.mControlFlow
  let value := cf.readStack (-1)
  cf.writeStack (-1) (castTo T value)

def exec_MAKE_BOOL (context : RuntimeOpcodeContext) : ControlFlow :=
  let cf := context.mControlFlow
  cf.writeStack (-1) (if cf.readStack (-1) ≠ 0 then 1 else 0)

def exec_ARITHM_BINARY_ADD (T : IntType) (context : RuntimeOpcodeContext) : ControlFlow :=
  let cf := context.mControlFlow.moveStackPtr (-1)
  cf.writeStack (-1) (machineAdd T.promoted (castTo T (cf.readStack (-1))) (castTo T (cf.readStack 0)))

def exec_ARITHM_BINARY_SUB (T : IntType) (context : RuntimeOpcodeContext) : ControlFlow :=
  let cf := context.mControlFlow.moveStackPtr (-1)
  cf.writeStack (-1) (machineSub T.promoted (castTo T (cf.readStack (-1))) (castTo T (cf.readStack 0)))

def exec_ARITHM_BINARY_MUL (T : IntType) (context : RuntimeOpcodeContext) : ControlFlow :=
  let cf := context.mControlFlow.moveStackPtr (-1)
  cf.writeStack (-1) (machineMul T.promoted (castTo T (cf.readStack (-1))) (castTo T (cf.readStack 0)))

def exec_ARITHM_BINARY_DIV (T : IntType) (context : RuntimeOpcodeContext) : Except ExecError ControlFlow :=
  let cf := context.mControlFlow.moveStackPtr (-1)
  if castTo T (cf.readStack 0) = 0 then .ok (cf.writeStack (-1) 0)
  else
    match machineDiv T.promoted (castTo T (cf.readStack (-1))) (castTo T (cf.readStack 0)) with
    | .ok q => .ok (cf.writeStack (-1) q)
    | .error e => .error e

def exec_ARITHM_BINARY_MOD (T : IntType) (context : RuntimeOpcodeContext) : Except ExecError ControlFlow :=
  let cf := context.mControlFlow.moveStackPtr (-1)
  if castTo T (cf.readStack 0) = 0 then .ok (cf.writeStack (-1) 0)
  else
    match machineMod T.promoted (castTo T (cf.readStack (-1))) (castTo T (cf.readStack 0)) with
    | .ok r => .ok (cf.writeStack (-1) r)
    | .error e => .error e

def exec_ARITHM_BINARY_AND (T : IntType) (context : RuntimeOpcodeContext) : ControlFlow :=
  let cf := context.mControlFlow.moveStackPtr (-1)
  cf.writeStack (-1)
    (bitwiseOp (· &&& ·) T.promoted (castTo T (cf.readStack (-1))) (castTo T (cf.readStack 0)))

def exec_ARITHM_BINARY_OR (T : IntType) (context : RuntimeOpcodeContext) : ControlFlow :=
  let cf := context.mControlFlow.moveStackPtr (-1)
  cf.writeStack (-1)
    (bitwiseOp (· ||| ·) T.promoted (castTo T (cf.readStack (-1))) (castTo T (cf.readStack 0)))

def exec_ARITHM_BINARY_XOR (T : IntType) (context : RuntimeOpcodeContext) : ControlFlow :=
  let cf := context.mControlFlow.moveStackPtr (-1)
  cf.writeStack (-1)
    (bitwiseOp (· ^^^ ·) T.promoted (castTo T (cf.readStack (-1))) (castTo T (cf.readStack 0)))

def exec_ARITHM_BINARY_SHL (T : IntType) (context : RuntimeOpcodeContext) : ControlFlow :=
  let cf := context.mControlFlow.moveStackPtr (-1)
  cf.writeStack (-1)
    (machineShl T.promoted (castTo T (cf.readStack (-1))) (shiftCount T (cf.readStack 0)))

def exec_ARITHM_BINARY_SHR (T : IntType) (context : RuntimeOpcodeContext) : ControlFlow :=
  let cf := context.mControlFlow.moveStackPtr (-1)
  cf.writeStack (-1)
    (machineShr T.promoted (castTo T (cf.readStack (-1))) (shiftCount T (cf.readStack 0)))

def exec_ARITHM_BINARY_CMP_EQ (T : IntType) (context : RuntimeOpcodeContext) : ControlFlow :=
  let cf := context.mControlFlow.moveStackPtr (-1)
  cf.writeStack (-1) (if castTo T (cf.readStack (-1)) = castTo T (cf.readStack 0) then 1 else 0)

def exec_ARITHM_BINARY_CMP_NEQ (T : IntType) (context : RuntimeOpcodeContext) : ControlFlow :=
  let cf := context.mControlFlow.moveStackPtr (-1)
  cf.writeStack (-1) (if castTo T (cf.readStack (-1)) ≠ castTo T (cf.readStack 0) then 1 else 0)

def exec_ARITHM_BINARY_CMP_LT (T : IntType) (context : RuntimeOpcodeContext) : ControlFlow :=
  let cf := context.mControlFlow.moveStackPtr (-1)
  cf.writeStack (-1) (if castTo T (cf.readStack (-1)) < castTo T (cf.readStack 0) then 1 else 0)

def exec_ARITHM_BINARY_CMP_LE (T : IntType) (context : RuntimeOpcodeContext) : ControlFlow :=
  let cf := context.mControlFlow.moveStackPtr (-1)
  cf.writeStack (-1) (if castTo T (cf.readStack (-1)) ≤ castTo T (cf.readStack 0) then 1 else 0)

def exec_ARITHM_BINARY_CMP_GT (T : IntType) (context : RuntimeOpcodeContext) : ControlFlow :=
  let cf := context.mControlFlow.moveStackPtr (-1)
  cf.writeStack (-1) (if castTo T (cf.readStack (-1)) > castTo T (cf.readStack 0) then 1 else 0)

def exec_ARITHM_BINARY_CMP_GE (T : IntType) (context : RuntimeOpcodeContext) : ControlFlow :=
  let cf := context.mControlFlow.moveStackPtr (-1)
  cf.writeStack (-1) (if castTo T (cf.readStack (-1)) ≥ castTo T (cf.readStack 0) then 1 else 0)

def exec_ARITHM_UNARY_NEG (T : IntType) (context : RuntimeOpcodeContext) : ControlFlow :=
  let cf := context.mControlFlow
  cf.writeStack (-1) (castTo T.promoted (-(castTo T (cf.readStack (-1)))))

def exec_ARITHM_UNARY_NOT (T : IntType) (context : RuntimeOpcodeContext) : ControlFlow :=
  let cf := context.mControlFlow
  cf.writeStack (-1) (if castTo T (cf.readStack (-1)) = 0 then 1 else 0)

/-- The complement `~a` of a promoted operand is `-a - 1` in two's complement. -/
def exec_ARITHM_UNARY_BITNOT (T : IntType) (context : RuntimeOpcodeContext) : ControlFlow :=
  let cf := context.mControlFlow
  cf.writeStack (-1) (castTo T (castTo T.promoted (-(castTo T (cf.readStack (-1))) - 1)))

def exec_NOT_HANDLED (_context : RuntimeOpcodeContext) : Except ExecError ControlFlow :=
  .error .unhandledOpcode

end OpcodeExec

/-! ## Static opcodes, runtime opcodes and the translator -/

/-- Code of a base data type (`BaseType`, an enumeration over `uint8`). -/
abbrev BaseType := Nat

namespace BaseType

/-- Modelled from the spec: the enumerators of `BaseType` (declared in a header
outside these sources), laid out by the bit convention the spec states: OR-ing
`0x08` into the code of an unsigned type gives its signed counterpart; the low
two bits give the width. -/
def UINT_8 : BaseType := 0x10
def UINT_16 : BaseType := 0x11
def UINT_32 : BaseType := 0x12
def UINT_64 : BaseType := 0x13
def INT_8 : BaseType := 0x18
def INT_16 : BaseType := 0x19
def INT_32 : BaseType := 0x1a
def INT_64 : BaseType := 0x1b
def INT_CONST : BaseType := 0x1f

end BaseType

/-- The opcode types: the ones `buildRuntimeOpcodeStatic` has a case for, and
`OTHER code` for any further value of `Opcode::Type`. -/
inductive OpcodeType where
  | NOP | MOVE_STACK | MOVE_VAR_STACK | PUSH_CONSTANT | DUPLICATE | EXCHANGE
  | GET_VARIABLE_VALUE | SET_VARIABLE_VALUE | READ_MEMORY | WRITE_MEMORY
  | CAST_VALUE | MAKE_BOOL
  | ARITHM_ADD | ARITHM_SUB | ARITHM_MUL | ARITHM_DIV | ARITHM_MOD
  | ARITHM_AND | ARITHM_OR | ARITHM_XOR | ARITHM_SHL | ARITHM_SHR
  | COMPARE_EQ | COMPARE_NEQ | COMPARE_LT | COMPARE_LE | COMPARE_GT | COMPARE_GE
  | ARITHM_NEG | ARITHM_NOT | ARITHM_BITNOT
  | JUMP | JUMP_CONDITIONAL | CALL | RETURN | EXTERNAL_CALL | EXTERNAL_JUMP
  | OTHER (code : Nat)
  deriving DecidableEq, Repr

/-- A static opcode as produced by the compiler. -/
structure Opcode where
  mType : OpcodeType
  mDataType : BaseType
  mParameter : Int
  deriving DecidableEq, Repr

/-- The handler a runtime opcode is bound to: one value per function of class
`OpcodeExec`, template instances included. -/
inductive ExecFunc where
  | exec_NOP | exec_MOVE_STACK_positive | exec_MOVE_STACK_negative | exec_MOVE_STACK_m1
  | exec_MOVE_VAR_STACK_positive | exec_MOVE_VAR_STACK_negative
  | exec_PUSH_CONSTANT | exec_DUPLICATE | exec_EXCHANGE
  | exec_GET_VARIABLE_VALUE_LOCAL | exec_GET_VARIABLE_VALUE_USER
  | exec_GET_VARIABLE_VALUE_EXTERNAL (T : IntType)
  | exec_SET_VARIABLE_VALUE_LOCAL | exec_SET_VARIABLE_VALUE_USER
  | exec_SET_VARIABLE_VALUE_EXTERNAL (T : IntType)
  | exec_READ_MEMORY (T : IntType) | exec_READ_MEMORY_NOCONSUME (T : IntType)
  | exec_WRITE_MEMORY (T : IntType) | exec_WRITE_MEMORY_EXCHANGED (T : IntType)
  | exec_CAST_VALUE (T : IntType) | exec_MAKE_BOOL
  | exec_ARITHM_BINARY_ADD (T : IntType) | exec_ARITHM_BINARY_SUB (T : IntType)
  | exec_ARITHM_BINARY_MUL (T : IntType) | exec_ARITHM_BINARY_DIV (T : IntType)
  | exec_ARITHM_BINARY_MOD (T : IntType) | exec_ARITHM_BINARY_AND (T : IntType)
  | exec_ARITHM_BINARY_OR (T : IntType) | exec_ARITHM_BINARY_XOR (T : IntType)
  | exec_ARITHM_BINARY_SHL (T : IntType) | exec_ARITHM_BINARY_SHR (T : IntType)
  | exec_ARITHM_BINARY_CMP_EQ (T : IntType) | exec_ARITHM_BINARY_CMP_NEQ (T : IntType)
  | exec_ARITHM_BINARY_CMP_LT (T : IntType) | exec_ARITHM_BINARY_CMP_LE (T : IntType)
  | exec_ARITHM_BINARY_CMP_GT (T : IntType) | exec_ARITHM_BINARY_CMP_GE (T : IntType)
  | exec_ARITHM_UNARY_NEG (T : IntType) | exec_ARITHM_UNARY_NOT (T : IntType)
  | exec_ARITHM_UNARY_BITNOT (T : IntType)
  | exec_NOT_HANDLED
  deriving DecidableEq, Repr

/-- The dispatch-ready opcode. -/
structure RuntimeOpcode where
  mExecFunc : ExecFunc
  mParameter : Int
  mFlags : Nat
  mOpcodeType : OpcodeType
  mSuccessiveHandledOpcodes : Nat
  deriving DecidableEq, Repr

/-- Modelled from the spec: the flag bit `RuntimeOpcode::FLAG_CALL_IS_BASE_CALL`
(declared in a header outside these sources); the spec names the flag, the bit
chosen here is the lowest one. -/
def RuntimeOpcode.FLAG_CALL_IS_BASE_CALL : Nat := 0x01

/-- The indirect call `(*mExecFunc)(context)` of a runtime opcode's handler. -/
def ExecFunc.call (h : MemoryAccessHandler) (f : ExecFunc) (context : RuntimeOpcodeContext) :
    Except ExecError ControlFlow :=
  match f with
  | .exec_NOP => .ok (OpcodeExec.exec_NOP context)
  | .exec_MOVE_STACK_positive => .ok (OpcodeExec.exec_MOVE_STACK_positive context)
  | .exec_MOVE_STACK_negative => .ok (OpcodeExec.exec_MOVE_STACK_negative context)
  | .exec_MOVE_STACK_m1 => .ok (OpcodeExec.exec_MOVE_STACK_m1 context)
  | .exec_MOVE_VAR_STACK_positive => OpcodeExec.exec_MOVE_VAR_STACK_positive context
  | .exec_MOVE_VAR_STACK_negative => .ok (OpcodeExec.exec_MOVE_VAR_STACK_negative context)
  | .exec_PUSH_CONSTANT => .ok (OpcodeExec.exec_PUSH_CONSTANT context)
  | .exec_DUPLICATE => .ok (OpcodeExec.exec_DUPLICATE context)
  | .exec_EXCHANGE => .ok (OpcodeExec.exec_EXCHANGE context)
  | .exec_GET_VARIABLE_VALUE_LOCAL => .ok (OpcodeExec.exec_GET_VARIABLE_VALUE_LOCAL context)
  | .exec_GET_VARIABLE_VALUE_USER => .ok (OpcodeExec.exec_GET_VARIABLE_VALUE_USER context)
  | .exec_GET_VARIABLE_VALUE_EXTERNAL T => .ok (OpcodeExec.exec_GET_VARIABLE_VALUE_EXTERNAL T context)
  | .exec_SET_VARIABLE_VALUE_LOCAL => .ok (OpcodeExec.exec_SET_VARIABLE_VALUE_LOCAL context)
  | .exec_SET_VARIABLE_VALUE_USER => .ok (OpcodeExec.exec_SET_VARIABLE_VALUE_USER context)
  | .exec_SET_VARIABLE_VALUE_EXTERNAL T => .ok (OpcodeExec.exec_SET_VARIABLE_VALUE_EXTERNAL T context)
  | .exec_READ_MEMORY T => .ok (OpcodeExec.exec_READ_MEMORY h T context)
  | .exec_READ_MEMORY_NOCONSUME T => .ok (OpcodeExec.exec_READ_MEMORY_NOCONSUME h T context)
  | .exec_WRITE_MEMORY T => .ok (OpcodeExec.exec_WRITE_MEMORY h T context)
  | .exec_WRITE_MEMORY_EXCHANGED T => .ok (OpcodeExec.exec_WRITE_MEMORY_EXCHANGED h T context)
  | .exec_CAST_VALUE T => .ok (OpcodeExec.exec_CAST_VALUE T context)
  | .exec_MAKE_BOOL => .ok (OpcodeExec.exec_MAKE_BOOL context)
  | .exec_ARITHM_BINARY_ADD T => .ok (OpcodeExec.exec_ARITHM_BINARY_ADD T context)
  | .exec_ARITHM_BINARY_SUB T => .ok (OpcodeExec.exec_ARITHM_BINARY_SUB T context)
  | .exec_ARITHM_BINARY_MUL T => .ok (OpcodeExec.exec_ARITHM_BINARY_MUL T context)
  | .exec_ARITHM_BINARY_DIV T => OpcodeExec.exec_ARITHM_BINARY_DIV T context
  | .exec_ARITHM_BINARY_MOD T => OpcodeExec.exec_ARITHM_BINARY_MOD T context
  | .exec_ARITHM_BINARY_AND T => .ok (OpcodeExec.exec_ARITHM_BINARY_AND T context)
  | .exec_ARITHM_BINARY_OR T => .ok (OpcodeExec.exec_ARITHM_BINARY_OR T context)
  | .exec_ARITHM_BINARY_XOR T => .ok (OpcodeExec.exec_ARITHM_BINARY_XOR T context)
  | .exec_ARITHM_BINARY_SHL T => .ok (OpcodeExec.exec_ARITHM_BINARY_SHL T context)
  | .exec_ARITHM_BINARY_SHR T => .ok (OpcodeExec.exec_ARITHM_BINARY_SHR T context)
  | .exec_ARITHM_BINARY_CMP_EQ T => .ok (OpcodeExec.exec_ARITHM_BINARY_CMP_EQ T context)
  | .exec_ARITHM_BINARY_CMP_NEQ T => .ok (OpcodeExec.exec_ARITHM_BINARY_CMP_NEQ T context)
  | .exec_ARITHM_BINARY_CMP_LT T => .ok (OpcodeExec.exec_ARITHM_BINARY_CMP_LT T context)
  | .exec_ARITHM_BINARY_CMP_LE T => .ok (OpcodeExec.exec_ARITHM_BINARY_CMP_LE T context)
  | .exec_ARITHM_BINARY_CMP_GT T => .ok (OpcodeExec.exec_ARITHM_BINARY_CMP_GT T context)
  | .exec_ARITHM_BINARY_CMP_GE T => .ok (OpcodeExec.exec_ARITHM_BINARY_CMP_GE T context)
  | .exec_ARITHM_UNARY_NEG T => .ok (OpcodeExec.exec_ARITHM_UNARY_NEG T context)
  | .exec_ARITHM_UNARY_NOT T => .ok (OpcodeExec.exec_ARITHM_UNARY_NOT T context)
  | .exec_ARITHM_UNARY_BITNOT T => .ok (OpcodeExec.exec_ARITHM_UNARY_BITNOT T context)
  | .exec_NOT_HANDLED => OpcodeExec.exec_NOT_HANDLED context

/-- Errors thrown by the translator. -/
inductive TranslateError where
  | invalidOpcodeDataType
  | unrecognizedCastType
  deriving DecidableEq, Repr

/-- What the translator consumes from the runtime, the program and the helper
classes `DataTypeHelper` and `OpcodeHelper`, none of which is part of these
sources:

* `accessGlobalVariableValue id`: the stable pointer to the `int64` storage of
  the global variable `id`;
* `externalPointer id`, `externalBytes id`: pointer and declared byte width of
  the external variable `id`;
* `getSizeOfBaseType`: byte width of a base type;
* `getCastExecType`: the cast-exec-type the compiler stored for a cast opcode. -/
structure Runtime where
  accessGlobalVariableValue : Nat → Nat
  externalPointer : Nat → Nat
  externalBytes : Nat → Nat
  getSizeOfBaseType : BaseType → Nat
  getCastExecType : Opcode → BaseType

/-- Modelled from the spec: the classes of `Variable::Type` (declared in a header
outside these sources), numbered in the order the spec lists them; the class is
the top nibble of the variable id. -/
def VariableType.LOCAL : Nat := 0
def VariableType.USER : Nat := 1
def VariableType.GLOBAL : Nat := 2
def VariableType.EXTERNAL : Nat := 3

/-- The macro `SELECT_EXEC_FUNC_BY_DATATYPE`. -/
def SELECT_EXEC_FUNC_BY_DATATYPE (function : IntType → ExecFunc) (mDataType : BaseType) :
    Except TranslateError ExecFunc :=
  if mDataType = BaseType.INT_8 then .ok (function .int8)
  else if mDataType = BaseType.INT_16 then .ok (function .int16)
  else if mDataType = BaseType.INT_32 then .ok (function .int32)
  else if mDataType = BaseType.INT_64 then .ok (function .int64)
  else if mDataType = BaseType.UINT_8 then .ok (function .uint8)
  else if mDataType = BaseType.UINT_16 then .ok (function .uint16)
  else if mDataType = BaseType.UINT_32 then .ok (function .uint32)
  else if mDataType = BaseType.UINT_64 then .ok (function .uint64)
  else if mDataType = BaseType.INT_CONST then .ok (function .uint64)
  else .error .invalidOpcodeDataType

/-- The macro `SELECT_EXEC_FUNC_BY_DATATYPE_SIGNED`. -/
def SELECT_EXEC_FUNC_BY_DATATYPE_SIGNED (function : IntType → ExecFunc) (mDataType : BaseType) :
    Except TranslateError ExecFunc :=
  let baseType : BaseType := mDataType ||| 0x08
  if baseType = BaseType.INT_8 then .ok (function .int8)
  else if baseType = BaseType.INT_16 then .ok (function .int16)
  else if baseType = BaseType.INT_32 then .ok (function .int32)
  else if baseType = BaseType.INT_64 then .ok (function .int64)
  else if baseType = BaseType.INT_CONST then .ok (function .int64)
  else .error .invalidOpcodeDataType

/-- The inner `switch` on a byte width that selects the getter or setter of a
global or external variable; it has no default case, so any other width keeps
the handler bound before. -/
def selectBySize (function : IntType → ExecFunc) (size : Nat) (current : ExecFunc) : ExecFunc :=
  if size = 1 then function .uint8
  else if size = 2 then function .uint16
  else if size = 4 then function .uint32
  else if size = 8 then function .uint64
  else current

/-- The common tail of `buildRuntimeOpcodeStatic`, reached by every case that
leaves the `switch` through `break`: the successive-handled count is 0 for the
not-handled sentinel and 1 otherwise, and one static opcode was consumed. -/
def finishRuntimeOpcode (runtimeOpcode : RuntimeOpcode) : RuntimeOpcode × Nat :=
  ({ runtimeOpcode with
      mSuccessiveHandledOpcodes := if runtimeOpcode.mExecFunc = .exec_NOT_HANDLED then 0 else 1 }, 1)

/-- A case of the `switch` that binds a handler picked by one of the selection
macros, which may throw instead. -/
def bindSelected (runtimeOpcode : RuntimeOpcode) (selected : Except TranslateError ExecFunc) :
    Except TranslateError (RuntimeOpcode × Nat) :=
  match selected with
  | .ok f => .ok (finishRuntimeOpcode { runtimeOpcode with mExecFunc := f })
  | .error e => .error e

/-- The cases `GET_VARIABLE_VALUE` and `SET_VARIABLE_VALUE`, which differ only in
the handlers they bind. -/
def bindVariableAccess (runtime : Runtime) (runtimeOpcode : RuntimeOpcode) (opcode : Opcode)
    (localFunc userFunc : ExecFunc) (externalFunc : IntType → ExecFunc) : RuntimeOpcode :=
  let variableId : Nat := (castTo .uint32 opcode.mParameter).toNat
  let type : Nat := variableId >>> 28
  if type = VariableType.LOCAL then { runtimeOpcode with mExecFunc := localFunc }
  else if type = VariableType.USER then { runtimeOpcode with mExecFunc := userFunc }
  else if type = VariableType.GLOBAL then
    { runtimeOpcode with
      mParameter := runtime.accessGlobalVariableValue variableId
      mExecFunc :=
        selectBySize externalFunc (runtime.getSizeOfBaseType opcode.mDataType) runtimeOpcode.mExecFunc }
  else if type = VariableType.EXTERNAL then
    { runtimeOpcode with
      mParameter := runtime.externalPointer variableId
      mExecFunc := selectBySize externalFunc (runtime.externalBytes variableId) runtimeOpcode.mExecFunc }
  else runtimeOpcode

/-- The translator `DefaultOpcodeProvider::buildRuntimeOpcodeStatic`, applied to
the static opcode `opcodes[0]`. `fresh` is the runtime opcode that
`buffer.addOpcode(8)` hands out; the result is the runtime opcode as it is left
in the buffer, paired with `outNumOpcodesConsumed`; a `throw` is an `error`. -/
def buildRuntimeOpcodeStatic (runtime : Runtime) (fresh : RuntimeOpcode) (opcode : Opcode) :
    Except TranslateError (RuntimeOpcode × Nat) :=
  let runtimeOpcode : RuntimeOpcode :=
    { fresh with
      mParameter := opcode.mParameter
      mExecFunc := .exec_NOT_HANDLED
      mOpcodeType := opcode.mType }
  let bind (f : ExecFunc) : Except TranslateError (RuntimeOpcode × Nat) :=
    .ok (finishRuntimeOpcode { runtimeOpcode with mExecFunc := f })
  let select (function : IntType → ExecFunc) : Except TranslateError (RuntimeOpcode × Nat) :=
    bindSelected runtimeOpcode (SELECT_EXEC_FUNC_BY_DATATYPE function opcode.mDataType)
  match opcode.mType with
  | .NOP => bind .exec_NOP
  | .MOVE_STACK =>
    bind (if opcode.mParameter ≥ 0 then .exec_MOVE_STACK_positive
      else if opcode.mParameter = -1 then .exec_MOVE_STACK_m1 else .exec_MOVE_STACK_negative)
  | .MOVE_VAR_STACK =>
    bind (if opcode.mParameter ≥ 0 then .exec_MOVE_VAR_STACK_positive else .exec_MOVE_VAR_STACK_negative)
  | .PUSH_CONSTANT => bind .exec_PUSH_CONSTANT
  | .DUPLICATE => bind .exec_DUPLICATE
  | .EXCHANGE => bind .exec_EXCHANGE
  | .GET_VARIABLE_VALUE =>
    .ok (finishRuntimeOpcode
      (bindVariableAccess runtime runtimeOpcode opcode .exec_GET_VARIABLE_VALUE_LOCAL
        .exec_GET_VARIABLE_VALUE_USER .exec_GET_VARIABLE_VALUE_EXTERNAL))
  | .SET_VARIABLE_VALUE =>
    .ok (finishRuntimeOpcode
      (bindVariableAccess runtime runtimeOpcode opcode .exec_SET_VARIABLE_VALUE_LOCAL
        .exec_SET_VARIABLE_VALUE_USER .exec_SET_VARIABLE_VALUE_EXTERNAL))
  | .READ_MEMORY =>
    if opcode.mParameter = 0 then select .exec_READ_MEMORY
    else select .exec_READ_MEMORY_NOCONSUME
  | .WRITE_MEMORY =>
    if opcode.mParameter = 0 then select .exec_WRITE_MEMORY
    else select .exec_WRITE_MEMORY_EXCHANGED
  | .CAST_VALUE =>
    let execType : BaseType := runtime.getCastExecType opcode
    if execType = BaseType.INT_8 then bind (.exec_CAST_VALUE .int8)
    else if execType = BaseType.INT_16 then bind (.exec_CAST_VALUE .int16)
    else if execType = BaseType.INT_32 then bind (.exec_CAST_VALUE .int32)
    else if execType = BaseType.UINT_8 then bind (.exec_CAST_VALUE .uint8)
    else if execType = BaseType.UINT_16 then bind (.exec_CAST_VALUE .uint16)
    else if execType = BaseType.UINT_32 then bind (.exec_CAST_VALUE .uint32)
    else .error .unrecognizedCastType
  | .MAKE_BOOL => bind .exec_MAKE_BOOL
  | .ARITHM_ADD => select .exec_ARITHM_BINARY_ADD
  | .ARITHM_SUB => select .exec_ARITHM_BINARY_SUB
  | .ARITHM_MUL => select .exec_ARITHM_BINARY_MUL
  | .ARITHM_DIV => select .exec_ARITHM_BINARY_DIV
  | .ARITHM_MOD => select .exec_ARITHM_BINARY_MOD
  | .ARITHM_AND => select .exec_ARITHM_BINARY_AND
  | .ARITHM_OR => select .exec_ARITHM_BINARY_OR
  | .ARITHM_XOR => select .exec_ARITHM_BINARY_XOR
  | .ARITHM_SHL => select .exec_ARITHM_BINARY_SHL
  | .ARITHM_SHR => select .exec_ARITHM_BINARY_SHR
  | .COMPARE_EQ => select .exec_ARITHM_BINARY_CMP_EQ
  | .COMPARE_NEQ => select .exec_ARITHM_BINARY_CMP_NEQ
  | .COMPARE_LT => select .exec_ARITHM_BINARY_CMP_LT
  | .COMPARE_LE => select .exec_ARITHM_BINARY_CMP_LE
  | .COMPARE_GT => select .exec_ARITHM_BINARY_CMP_GT
  | .COMPARE_GE => select .exec_ARITHM_BINARY_CMP_GE
  | .ARITHM_NEG =>
    bindSelected runtimeOpcode
      (SELECT_EXEC_FUNC_BY_DATATYPE_SIGNED .exec_ARITHM_UNARY_NEG opcode.mDataType)
  | .ARITHM_NOT => select .exec_ARITHM_UNARY_NOT
  | .ARITHM_BITNOT => select .exec_ARITHM_UNARY_BITNOT
  | .JUMP | .JUMP_CONDITIONAL | .CALL | .RETURN | .EXTERNAL_CALL | .EXTERNAL_JUMP =>
    let flagged : RuntimeOpcode :=
      if castTo .uint32 opcode.mDataType ≠ 0 then
        { runtimeOpcode with mFlags := runtimeOpcode.mFlags ||| RuntimeOpcode.FLAG_CALL_IS_BASE_CALL }
      else runtimeOpcode
    .ok ({ flagged with mSuccessiveHandledOpcodes := 0 }, 1)
  | .OTHER _ => .ok (finishRuntimeOpcode runtimeOpcode)

/-- The entry point `DefaultOpcodeProvider::buildRuntimeOpcode`: it forwards to
`buildRuntimeOpcodeStatic` and reports success. -/
def buildRuntimeOpcode (runtime : Runtime) (fresh : RuntimeOpcode) (opcode : Opcode) :
    Except TranslateError (Bool × RuntimeOpcode × Nat) :=
  match buildRuntimeOpcodeStatic runtime fresh opcode with
  | .ok r => .ok (true, r)
  | .error e => .error e

/-! ## Translating and running -/

/-- Failure of translating or of executing an opcode. -/
inductive Failure where
  | translate (e : TranslateError)
  | exec (e : ExecError)
  deriving DecidableEq, Repr

/-- Execute a runtime opcode on a control flow: its handler is called with the
context made of the control flow and the opcode's parameter. -/
def RuntimeOpcode.execute (h : MemoryAccessHandler) (runtimeOpcode : RuntimeOpcode) (cf : ControlFlow) :
    Except ExecError ControlFlow :=
  runtimeOpcode.mExecFunc.call h { mControlFlow := cf, mParameter := runtimeOpcode.mParameter }

/-- Translate one static opcode and execute the resulting runtime opcode. -/
def translateAndExecute (runtime : Runtime) (h : MemoryAccessHandler) (fresh : RuntimeOpcode)
    (opcode : Opcode) (cf : ControlFlow) : Except Failure ControlFlow :=
  match buildRuntimeOpcodeStatic runtime fresh opcode with
  | .error e => .error (.translate e)
  | .ok (runtimeOpcode, _) =>
    match runtimeOpcode.execute h cf with
    | .error e => .error (.exec e)
    | .ok cf1 => .ok cf1

/-- Translate and execute a straight-line sequence of static opcodes. -/
def runOpcodes (runtime : Runtime) (h : MemoryAccessHandler) (fresh : RuntimeOpcode) :
    List Opcode → ControlFlow → Except Failure ControlFlow
  | [], cf => .ok cf
  | opcode :: rest, cf =>
    match translateAndExecute runtime h fresh opcode cf with
    | .error e => .error e
    | .ok cf1 => runOpcodes runtime h fresh rest cf1

/-! ## Standard library (namespace `functions`) -/

/-- Modelled from the spec: a `StringRef` (declared in a header outside these
sources) is valid iff it resolves to an entry of the runtime's string table; it
is represented by the resolved characters, `none` being the invalid reference
`StringRef()`. -/
abbrev StringRef := Option (List Char)

/-- Modelled from the spec: the number formatters of `detail::FastStringStream`
(declared in `FastStringStream.h`, outside these sources). Each gives the
characters that the call appends for a 64-bit argument and a minimum digit
count. -/
structure FastStringStream where
  addDecimal : Nat → Int → List Char
  addBinary : Nat → Int → List Char
  addHex : Nat → Int → List Char

/-- Ways in which a run of `stringformat` can leave its buffers. -/
inductive FormatFault where
  | formatOverread
  | argumentOverread
  | outOfFuel
  deriving DecidableEq, Repr

/-- C++ exceptions of the standard library raised inside the string functions. -/
inductive StdException where
  | out_of_range
  deriving DecidableEq, Repr

/-- Ways in which a string function can leave the characters of its string. -/
inductive StringFault where
  | readOutsideString
  deriving DecidableEq, Repr

namespace functions

/-- The read `fmtPtr[k]`, where `fmt` is the range `[fmtPtr, fmtEnd)`; a read at
or past `fmtEnd` is a fault. -/
def peek (fmt : List Char) (k : Nat) : Except FormatFault Char :=
  match fmt[k]? with
  | some c => .ok c
  | none => .error .formatOverread

/-- The read `args[0]`, where `args` is what is left of the argument array. -/
def firstArg (args : List Nat) : Except FormatFault Nat :=
  match args with
  | a :: _ => .ok a
  | [] => .error .argumentOverread

/-- The test `c == 'd' || c == 'b' || c == 'x'`. -/
def isNumberCharacter (c : Char) : Bool :=
  c = 'd' || c = 'b' || c = 'x'

/-- The condition `remaining >= 4 && fmtPtr[1] == '0' && (fmtPtr[2] >= '1' &&
fmtPtr[2] <= '9') && (fmtPtr[3] == 'd' || fmtPtr[3] == 'b' || fmtPtr[3] == 'x')`,
evaluated left to right with short circuit. -/
def isWidth1Directive (fmt : List Char) (remaining : Nat) : Except FormatFault Bool :=
  if 4 ≤ remaining then
    match peek fmt 1 with
    | .error e => .error e
    | .ok c1 =>
      if c1 = '0' then
        match peek fmt 2 with
        | .error e => .error e
        | .ok c2 =>
          if '1' ≤ c2 ∧ c2 ≤ '9' then
            match peek fmt 3 with
            | .error e => .error e
            | .ok c3 => .ok (isNumberCharacter c3)
          else .ok false
      else .ok false
  else .ok false

/-- The condition `remaining >= 5 && fmtPtr[1] == '0' && (fmtPtr[2] >= '1' &&
fmtPtr[2] <= '9') && (fmtPtr[3] >= '0' && fmtPtr[3] <= '9') && (fmtPtr[4] == 'd'
|| fmtPtr[4] == 'b' || fmtPtr[4] == 'x')`, evaluated left to right with short
circuit. -/
def isWidth2Directive (fmt : List Char) (remaining : Nat) : Except FormatFault Bool :=
  if 5 ≤ remaining then
    match peek fmt 1 with
    | .error e => .error e
    | .ok c1 =>
      if c1 = '0' then
        match peek fmt 2 with
        | .error e => .error e
        | .ok c2 =>
          if '1' ≤ c2 ∧ c2 ≤ '9' then
            match peek fmt 3 with
            | .error e => .error e
            | .ok c3 =>
              if '0' ≤ c3 ∧ c3 ≤ '9' then
                match peek fmt 4 with
                | .error e => .error e
                | .ok c4 => .ok (isNumberCharacter c4)
              else .ok false
          else .ok false
      else .ok false
  else .ok false

/-- The digit value `(int)(c - '0')`. -/
def digitValue (c : Char) : Int :=
  (c.toNat : Int) - ('0'.toNat : Int)

/-- The characters appended for a `%s` argument: the string the key resolves to
in the runtime's string table, or `"<?>"` when `resolveStringByKey` returns
`nullptr`. -/
def stringArgumentText (resolveStringByKey : Nat → Option (List Char)) (key : Nat) : List Char :=
  match resolveStringByKey key with
  | none => ['<', '?', '>']
  | some stored => stored

/-- The local variables of one pass through the body of the `if (remaining >= 2)`
block, together with the buffers it updates. `numberOutputCharacter = none` is
the initial value 0. -/
structure DirectiveState where
  result : List Char
  argv : Int
  args : List Nat
  numberOutputCharacter : Option Char
  minDigits : Int
  charsRead : Nat

/-- The chain of `if` / `else if` that recognises the directive at `fmtPtr`, which
points to a `'%'` with `remaining >= 2`. -/
def recogniseDirective (resolveStringByKey : Nat → Option (List Char)) (fmt : List Char)
    (remaining : Nat) (result : List Char) (argv : Int) (args : List Nat) :
    Except FormatFault DirectiveState :=
  match peek fmt 1 with
  | .error e => .error e
  | .ok c1 =>
    if c1 = '%' then
      .ok { result := result ++ ['%'], argv := argv, args := args,
            numberOutputCharacter := none, minDigits := 0, charsRead := 1 }
    else if c1 = 's' then
      match firstArg args with
      | .error e => .error e
      | .ok key =>
        .ok { result := result ++ stringArgumentText resolveStringByKey key,
              argv := argv - 1, args := args.tail,
              numberOutputCharacter := none, minDigits := 0, charsRead := 1 }
    else if isNumberCharacter c1 then
      .ok { result := result, argv := argv, args := args,
            numberOutputCharacter := some c1, minDigits := 0, charsRead := 1 }
    else
      match isWidth1Directive fmt remaining with
      | .error e => .error e
      | .ok true =>
        match peek fmt 2, peek fmt 3 with
        | .ok c2, .ok c3 =>
          .ok { result := result, argv := argv, args := args,
                numberOutputCharacter := some c3, minDigits := digitValue c2, charsRead := 3 }
        | _, _ => .error .formatOverread
      | .ok false =>
        match isWidth2Directive fmt remaining with
        | .error e => .error e
        | .ok true =>
          match peek fmt 2, peek fmt 3, peek fmt 4 with
          | .ok c2, .ok c3, .ok c4 =>
            .ok { result := result, argv := argv, args := args,
                  numberOutputCharacter := some c4,
                  minDigits := digitValue c2 * 10 + digitValue c3, charsRead := 4 }
          | _, _, _ => .error .formatOverread
        | .ok false =>
          .ok { result := result ++ ['%'], argv := argv, args := args,
                numberOutputCharacter := none, minDigits := 0, charsRead := 0 }

/-- The characters appended by the chain `if (numberOutputCharacter == 'd')
result.addDecimal(...) else if (... == 'b') result.addBinary(...) else if (... ==
'x') result.addHex(...)`. -/
def numberText (stream : FastStringStream) (c : Char) (value : Nat) (minDigits : Int) : List Char :=
  if c = 'd' then stream.addDecimal value minDigits
  else if c = 'b' then stream.addBinary value minDigits
  else if c = 'x' then stream.addHex value minDigits
  else []

/-- The block `if (numberOutputCharacter != 0) { ... ++args; --argv; }`. -/
def outputNumber (stream : FastStringStream) (d : DirectiveState) : Except FormatFault DirectiveState :=
  match d.numberOutputCharacter with
  | none => .ok d
  | some c =>
    match firstArg d.args with
    | .error e => .error e
    | .ok value =>
      .ok { d with
            result := d.result ++ numberText stream c value d.minDigits
            args := d.args.tail
            argv := d.argv - 1 }

/-- The pointer move `fmtPtr += n`; moving past `fmtEnd` is a fault. -/
def advance (fmt : List Char) (n : Nat) : Except FormatFault (List Char) :=
  if n ≤ fmt.length then .ok (fmt.drop n) else .error .formatOverread

/-- The `for` loop of `stringformat`. `fmt` is the range `[fmtPtr, fmtEnd)` at the
loop test, `args` what is left of the argument array, `result` the contents of
the output stream. Each pass moves `fmtPtr` forward, so a fuel above the length
of `fmt` is never used up. -/
def stringformatLoop (resolveStringByKey : Nat → Option (List Char)) (stream : FastStringStream) :
    Nat → List Char → Int → List Nat → List Char → Except FormatFault (List Char)
  | 0, _, _, _, _ => .error .outOfFuel
  | fuel + 1, fmt, argv, args, result =>
    if fmt = [] then .ok result
    else if argv ≤ 0 then .ok (result ++ fmt)
    else
      let result1 := result ++ fmt.takeWhile (fun c => c ≠ '%')
      let fmt1 := fmt.dropWhile (fun c => c ≠ '%')
      if fmt1 = [] then .ok result1
      else
        let remaining := fmt1.length
        if 2 ≤ remaining then
          match recogniseDirective resolveStringByKey fmt1 remaining result1 argv args with
          | .error e => .error e
          | .ok d =>
            match outputNumber stream d with
            | .error e => .error e
            | .ok d1 =>
              match advance fmt1 (d1.charsRead + 1) with
              | .error e => .error e
              | .ok fmt2 => stringformatLoop resolveStringByKey stream fuel fmt2 d1.argv d1.args d1.result
        else
          match advance fmt1 1 with
          | .error e => .error e
          | .ok fmt2 =>
            stringformatLoop resolveStringByKey stream fuel fmt2 argv args (result1 ++ ['%'])

/-- The function `stringformat(format, argv, args)`, with an active runtime whose
string table resolves keys by `resolveStringByKey`. The result is the string
that is interned and returned; an invalid format gives the invalid reference. -/
def stringformat (resolveStringByKey : Nat → Option (List Char)) (stream : FastStringStream)
    (format : StringRef) (argv : Int) (args : List Nat) : Except FormatFault StringRef :=
  match format with
  | none => .ok none
  | some formatString =>
    match stringformatLoop resolveStringByKey stream (formatString.length + 1) formatString argv args [] with
    | .ok result => .ok (some result)
    | .error e => .error e

/-- The wrapper `stringformat1`. -/
def stringformat1 (resolveStringByKey : Nat → Option (List Char)) (stream : FastStringStream)
    (format : StringRef) (arg1 : Nat) : Except FormatFault StringRef :=
  stringformat resolveStringByKey stream format 1 [arg1]

/-- The wrapper `stringformat2`. -/
def stringformat2 (resolveStringByKey : Nat → Option (List Char)) (stream : FastStringStream)
    (format : StringRef) (arg1 arg2 : Nat) : Except FormatFault StringRef :=
  stringformat resolveStringByKey stream format 2 [arg1, arg2]

/-- The function template `minimum<T>`, on values of type `T`. -/
def minimum (_T : IntType) (a b : Int) : Int :=
  min a b

/-- The function template `maximum<T>`, on values of type `T`. -/
def maximum (_T : IntType) (a b : Int) : Int :=
  max a b

/-- The function template `clamp<T>`: `std::min(std::max(a, b), c)`. -/
def clamp (_T : IntType) (a b c : Int) : Int :=
  min (max a b) c

/-- The call `std::abs(a)` on an operand of the type `P`: the absolute value,
computed in `P`, so that the minimum of a signed `P` wraps to itself. -/
def stdAbs (P : IntType) (a : Int) : Int :=
  castTo P (a.natAbs : Int)

/-- The function template `absolute<R, T>`: the argument of type `T` is promoted,
`std::abs` is applied, and the result is converted to the return type `R`. -/
def absolute (R T : IntType) (a : Int) : Int :=
  castTo R (stdAbs T.promoted a)

/-- The function `string_length`. -/
def string_length (str : StringRef) : Nat :=
  match str with
  | none => 0
  | some s => castTo .uint32 s.length |>.toNat

/-- The read `getString()[index]` of one character of a string; an index at or
past the length is a read outside the string, which is a fault. -/
def characterAt (s : List Char) (index : Nat) : Except StringFault Char :=
  match s[index]? with
  | some c => .ok c
  | none => .error .readOutsideString

/-- The function `string_getCharacter`; the result is the byte as `uint8`. -/
def string_getCharacter (string : StringRef) (index : Nat) : Except StringFault Nat :=
  match string with
  | none => .ok 0
  | some s =>
    if index ≥ s.length then .ok 0
    else
      match characterAt s index with
      | .error e => .error e
      | .ok c => .ok (c.toNat % 256)

/-- The member `std::string_view::substr(pos, n)`: it throws `std::out_of_range`
when `pos > size()`, and otherwise gives the `min(n, size() - pos)` characters
from `pos` on. -/
def string_view_substr (s : List Char) (pos n : Nat) : Except StdException (List Char) :=
  if s.length < pos then .error .out_of_range
  else .ok ((s.drop pos).take (min n (s.length - pos)))

/-- The function `string_getSubString`, with an active runtime. -/
def string_getSubString (string : StringRef) (index length : Nat) : Except StdException StringRef :=
  match string with
  | none => .ok none
  | some s =>
    match string_view_substr s index length with
    | .error e => .error e
    | .ok part => .ok (some part)

/-- The function `getStringFromHash`. -/
def getStringFromHash (resolveStringByKey : Nat → Option (List Char)) (hash : Nat) : StringRef :=
  resolveStringByKey hash

end functions

/-- Digits of `value` in `base`, left-padded with `'0'` to `minDigits` digits. -/
def paddedDigits (base : Nat) (value : Nat) (minDigits : Int) : List Char :=
  let digits := Nat.toDigits base value
  List.replicate (minDigits.toNat - digits.length) '0' ++ digits

/-- Modelled from the spec: a number formatter as the spec describes it, unsigned
decimal, binary and lowercase hexadecimal, each padded with leading `'0'` to the
minimum digit count. -/
def FastStringStream.padded : FastStringStream :=
  { addDecimal := paddedDigits 10
    addBinary := paddedDigits 2
    addHex := paddedDigits 16 }

/-! ## Data model of the specification -/

/-- The nine base data types of a static opcode. -/
inductive DataType where
  | i8 | i16 | i32 | i64 | u8 | u16 | u32 | u64 | int_const
  deriving DecidableEq, Repr

namespace DataType

/-- The `BaseType` code that stands for the data type in a static opcode. -/
def code : DataType → BaseType
  | i8 => BaseType.INT_8
  | i16 => BaseType.INT_16
  | i32 => BaseType.INT_32
  | i64 => BaseType.INT_64
  | u8 => BaseType.UINT_8
  | u16 => BaseType.UINT_16
  | u32 => BaseType.UINT_32
  | u64 => BaseType.UINT_64
  | int_const => BaseType.INT_CONST

/-- The integer type a typed operation on the data type works in, with
`int_const` read as `u64`. -/
def intType : DataType → IntType
  | i8 => .int8
  | i16 => .int16
  | i32 => .int32
  | i64 => .int64
  | u8 => .uint8
  | u16 => .uint16
  | u32 => .uint32
  | u64 => .uint64
  | int_const => .uint64

end DataType

/-- The binary arithmetic opcodes `ADD, SUB, MUL, AND, OR, XOR, DIV, MOD`. -/
def binaryArithmeticOpcodes : List OpcodeType :=
  [.ARITHM_ADD, .ARITHM_SUB, .ARITHM_MUL, .ARITHM_AND, .ARITHM_OR, .ARITHM_XOR,
    .ARITHM_DIV, .ARITHM_MOD]

/-- The result `op_T(x, y)` of a binary arithmetic opcode computed in the type
`T`, as the specification words it: the exact result reduced to a value of
type `T` (for the bitwise operators, the operator applied to the operands'
representation in `T`). -/
def opT (op : OpcodeType) (T : IntType) (x y : Int) : Int :=
  match op with
  | .ARITHM_ADD => castTo T (x + y)
  | .ARITHM_SUB => castTo T (x - y)
  | .ARITHM_MUL => castTo T (x * y)
  | .ARITHM_DIV => castTo T (Int.tdiv x y)
  | .ARITHM_MOD => castTo T (Int.tmod x y)
  | .ARITHM_AND => bitwiseOp (· &&& ·) T x y
  | .ARITHM_OR => bitwiseOp (· ||| ·) T x y
  | .ARITHM_XOR => bitwiseOp (· ^^^ ·) T x y
  | _ => 0

/-- A control flow whose value stack holds `cells` (bottom first) and whose
other parts are zeroed. -/
def ControlFlow.ofStack (cells : List Int) : ControlFlow :=
  { mValueStackBuffer := fun i => if 0 ≤ i then cells.getD i.toNat 0 else 0
    mValueStackPtr := cells.length
    mLocalVariablesBuffer := fun _ => 0
    mLocalVariablesSize := 0
    mCurrentLocalVariables := 0
    mUserVariables := fun _ => 0
    mHostBytes := fun _ => 0
    mMemory := fun _ => 0 }

/-- A runtime with no global or external variables, whose helpers follow the
bit layout of the base type codes. -/
def Runtime.plain : Runtime :=
  { accessGlobalVariableValue := fun _ => 0
    externalPointer := fun _ => 0
    externalBytes := fun _ => 0
    getSizeOfBaseType := fun b => 2 ^ (b % 4)
    getCastExecType := fun o => o.mDataType }

/-- A memory access handler that stores integers little-endian at the address. -/
def MemoryAccessHandler.littleEndian : MemoryAccessHandler :=
  { read := fun m T a => castTo T (readBytes m a (T.bits / 8))
    write := fun m T a v => writeBytes m a (T.bits / 8) (toBits T.bits v) }

/-- A runtime opcode as handed out by the buffer: not bound, flags clear. -/
def RuntimeOpcode.blank : RuntimeOpcode :=
  { mExecFunc := .exec_NOT_HANDLED
    mParameter := 0
    mFlags := 0
    mOpcodeType := .NOP
    mSuccessiveHandledOpcodes := 0 }

/-- The control-transfer opcode types, which the translator marks but does not
bind a handler for. -/
def controlTransferOpcodes : List OpcodeType :=
  [.JUMP, .JUMP_CONDITIONAL, .CALL, .RETURN, .EXTERNAL_CALL, .EXTERNAL_JUMP]

/-- The cast targets `i8, i16, i32, u8, u16, u32` of `CAST_VALUE`. -/
def castTargets : List DataType :=
  [.i8, .i16, .i32, .u8, .u16, .u32]

/-- The flag `CALL_IS_BASE_CALL` is set in a runtime opcode. -/
def RuntimeOpcode.isBaseCall (runtimeOpcode : RuntimeOpcode) : Prop :=
  runtimeOpcode.mFlags &&& RuntimeOpcode.FLAG_CALL_IS_BASE_CALL ≠ 0

/-- The grammar of the specification: the characters `tl` that follow a `'%'`
start one of the recognised directives `%%`, `%s`, `%d`, `%b`, `%x`, `%0W` +
`d|b|x` with `W` in `1..9`, `%0WV` + `d|b|x` with `W` in `1..9` and `V` in
`0..9`. -/
def startsRecognisedDirective (tl : List Char) : Bool :=
  match tl with
  | [] => false
  | c1 :: rest =>
    c1 = '%' || c1 = 's' || c1 = 'd' || c1 = 'b' || c1 = 'x' ||
    (c1 = '0' &&
      match rest with
      | w :: c :: more =>
        (decide ('1' ≤ w) && decide (w ≤ '9')) &&
          ((c = 'd' || c = 'b' || c = 'x') ||
            ((decide ('0' ≤ c) && decide (c ≤ '9')) &&
              match more with
              | k :: _ => k = 'd' || k = 'b' || k = 'x'
              | [] => false))
      | _ => false)

/-- The count a translated opcode carries agrees with its handler. -/
def CountMatchesHandler (runtimeOpcode : RuntimeOpcode) : Prop :=
  (runtimeOpcode.mExecFunc = .exec_NOT_HANDLED → runtimeOpcode.mSuccessiveHandledOpcodes = 0) ∧
  (runtimeOpcode.mExecFunc ≠ .exec_NOT_HANDLED → runtimeOpcode.mSuccessiveHandledOpcodes = 1)

/-- The instances of `absolute<R, T>` that `registerBindings` registers under the
name `abs`, as pairs of return type and argument type. -/
def absBindings : List (IntType × IntType) :=
  [(.uint8, .int8), (.uint16, .int16), (.uint32, .int32)]

/-- The opcode types whose handler is selected by the data type of the static
opcode with the macro `SELECT_EXEC_FUNC_BY_DATATYPE`. -/
def dataTypeKeyedOpcodes : List OpcodeType :=
  [.READ_MEMORY, .WRITE_MEMORY,
    .ARITHM_ADD, .ARITHM_SUB, .ARITHM_MUL, .ARITHM_DIV, .ARITHM_MOD,
    .ARITHM_AND, .ARITHM_OR, .ARITHM_XOR, .ARITHM_SHL, .ARITHM_SHR,
    .COMPARE_EQ, .COMPARE_NEQ, .COMPARE_LT, .COMPARE_LE, .COMPARE_GT, .COMPARE_GE,
    .ARITHM_NOT, .ARITHM_BITNOT]

/-- The signed integer type of the width of a data type, with `int_const` read as
`i64`. -/
def DataType.signedType : DataType → IntType
  | .i8 | .u8 => .int8
  | .i16 | .u16 => .int16
  | .i32 | .u32 => .int32
  | .i64 | .u64 => .int64
  | .int_const => .int64

/-- The unsigned integer type of a byte width. -/
def unsignedOfWidth : Nat → Option IntType
  | 1 => some .uint8
  | 2 => some .uint16
  | 4 => some .uint32
  | 8 => some .uint64
  | _ => none

/-- The number of stack cells a handler of the arithmetic family takes: 2 for the
binary arithmetic and comparison handlers, 1 for the unary handlers, for
`CAST_VALUE` and for `MAKE_BOOL`; `none` for every other handler. -/
def ExecFunc.operandCount : ExecFunc → Option Nat
  | .exec_ARITHM_BINARY_ADD _ | .exec_ARITHM_BINARY_SUB _ | .exec_ARITHM_BINARY_MUL _
  | .exec_ARITHM_BINARY_DIV _ | .exec_ARITHM_BINARY_MOD _ | .exec_ARITHM_BINARY_AND _
  | .exec_ARITHM_BINARY_OR _ | .exec_ARITHM_BINARY_XOR _ | .exec_ARITHM_BINARY_SHL _
  | .exec_ARITHM_BINARY_SHR _
  | .exec_ARITHM_BINARY_CMP_EQ _ | .exec_ARITHM_BINARY_CMP_NEQ _ | .exec_ARITHM_BINARY_CMP_LT _
  | .exec_ARITHM_BINARY_CMP_LE _ | .exec_ARITHM_BINARY_CMP_GT _ | .exec_ARITHM_BINARY_CMP_GE _ =>
    some 2
  | .exec_ARITHM_UNARY_NEG _ | .exec_ARITHM_UNARY_NOT _ | .exec_ARITHM_UNARY_BITNOT _
  | .exec_CAST_VALUE _ | .exec_MAKE_BOOL => some 1
  | _ => none

/-- The handlers whose result is a truth value: the comparisons and `ARITHM_NOT`. -/
def ExecFunc.isTruthValued : ExecFunc → Bool
  | .exec_ARITHM_BINARY_CMP_EQ _ | .exec_ARITHM_BINARY_CMP_NEQ _ | .exec_ARITHM_BINARY_CMP_LT _
  | .exec_ARITHM_BINARY_CMP_LE _ | .exec_ARITHM_BINARY_CMP_GT _ | .exec_ARITHM_BINARY_CMP_GE _
  | .exec_ARITHM_UNARY_NOT _ => true
  | _ => false

/-- A handler taking `count` cells left everything but the stack pointer and the
result cell as it was: the stack pointer is `count - 1` cells lower, every
value-stack cell other than the new top is unchanged, and so are the local
variables, the user variables, the host storage and the host memory. -/
def OnlyResultCellChanged (count : Nat) (before after : ControlFlow) : Prop :=
  after.mValueStackPtr = before.mValueStackPtr - ((count : Int) - 1) ∧
  (∀ i, i ≠ after.mValueStackPtr - 1 → after.mValueStackBuffer i = before.mValueStackBuffer i) ∧
  after.mLocalVariablesBuffer = before.mLocalVariablesBuffer ∧
  after.mLocalVariablesSize = before.mLocalVariablesSize ∧
  after.mCurrentLocalVariables = before.mCurrentLocalVariables ∧
  after.mUserVariables = before.mUserVariables ∧
  after.mHostBytes = before.mHostBytes ∧
  after.mMemory = before.mMemory

/-! # Theorems -/

open IntType functions

/-! ## Lemmas on integer conversion -/

theorem castTo_inRange (T : IntType) (v : Int) : T.InRange (castTo T v) := by
  cases T <;>
    simp [castTo, IntType.InRange, IntType.minValue, IntType.maxValue, IntType.bits,
      IntType.isSigned] <;> omega

theorem castTo_of_inRange (T : IntType) (v : Int) (h : T.InRange v) : castTo T v = v := by
  cases T <;>
    simp [castTo, IntType.InRange, IntType.minValue, IntType.maxValue, IntType.bits,
      IntType.isSigned] at h ⊢ <;> omega

theorem castTo_toCell (T : IntType) (v : Int) : castTo T (toCell v) = castTo T v := by
  cases T <;> simp [castTo, toCell, IntType.bits, IntType.isSigned] <;> omega

theorem castTo_promoted (T : IntType) (v : Int) : castTo T (castTo T.promoted v) = castTo T v := by
  cases T <;> simp [castTo, IntType.promoted, IntType.bits, IntType.isSigned] <;> omega

theorem toCell_toCell (v : Int) : toCell (toCell v) = toCell v :=
  castTo_toCell .int64 v

theorem setCell_same (b : Int → Int) (i v : Int) : setCell b i v i = v := by
  simp [setCell]

theorem setCell_other (b : Int → Int) (i j v : Int) (h : j ≠ i) : setCell b i v j = b j := by
  simp [setCell, h]

theorem select_code (f : IntType → ExecFunc) (D : DataType) :
    SELECT_EXEC_FUNC_BY_DATATYPE f D.code = .ok (f D.intType) := by
  cases D <;> rfl

/-- Every binary handler has the shape: pop one cell, combine the new top with the
popped cell, store the result on the new top. -/
theorem binary_shape (cf : ControlFlow) (g : Int → Int → Int) :
    ((cf.moveStackPtr (-1)).writeStack (-1)
        (g ((cf.moveStackPtr (-1)).readStack (-1)) ((cf.moveStackPtr (-1)).readStack 0))).top =
      toCell (g (cf.mValueStackBuffer (cf.mValueStackPtr - 2)) (cf.mValueStackBuffer (cf.mValueStackPtr - 1))) := by
  have e1 : cf.mValueStackPtr + -1 + -1 = cf.mValueStackPtr - 2 := by omega
  have e2 : cf.mValueStackPtr + -1 + 0 = cf.mValueStackPtr - 1 := by omega
  simp [ControlFlow.top, ControlFlow.writeStack, ControlFlow.readStack, ControlFlow.moveStackPtr,
    setCell, e1, e2]

theorem tdiv_inRange (P : IntType) (a b : Int) (ha : P.InRange a) (hb : P.InRange b)
    (hov : ¬ (P.isSigned = true ∧ a = P.minValue ∧ b = -1)) : P.InRange (Int.tdiv a b) := by
  by_cases hb1 : b = 1
  · subst hb1; simpa using ha
  by_cases hbm : b = -1
  · subst hbm
    have hq : Int.tdiv a (-1) = -a := by
      rw [Int.tdiv_neg, Int.tdiv_one]
    rw [hq]
    cases P <;>
      simp [IntType.InRange, IntType.minValue, IntType.maxValue, IntType.bits, IntType.isSigned]
        at ha hb hov ⊢ <;> omega
  · have h1 : (Int.tdiv a b).natAbs = a.natAbs / b.natAbs := by
      rw [Int.natAbs_tdiv]; rfl
    have h2 : a.natAbs / b.natAbs ≤ a.natAbs / 2 ∨ b = 0 := by
      by_cases hb0 : b = 0
      · exact Or.inr hb0
      · left
        apply Nat.div_le_div_left
        · omega
        · decide
    have h3 : 0 ≤ a → 0 ≤ b → 0 ≤ Int.tdiv a b := fun h h' => Int.tdiv_nonneg h h'
    have h4 : b = 0 → Int.tdiv a b = 0 := by
      intro h; subst h; simp
    generalize Int.tdiv a b = q at *
    generalize hA : a.natAbs / b.natAbs = Q at *
    cases P <;>
      simp [IntType.InRange, IntType.minValue, IntType.maxValue, IntType.bits, IntType.isSigned]
        at ha hb hov ⊢ <;> omega

theorem tmod_inRange (P : IntType) (a b : Int) (ha : P.InRange a) : P.InRange (Int.tmod a b) := by
  have h1 : 0 ≤ a → 0 ≤ Int.tmod a b ∧ Int.tmod a b ≤ a := by
    intro h
    refine ⟨Int.tmod_nonneg b h, ?_⟩
    rcases a with m | m
    · rcases b with n | n
      · show ((m % n : Nat) : Int) ≤ (m : Int)
        exact_mod_cast Nat.mod_le m n
      · show ((m % (n + 1) : Nat) : Int) ≤ (m : Int)
        exact_mod_cast Nat.mod_le m (n + 1)
    · exact absurd h (by simp [Int.negSucc_lt_zero])
  have h2 : a < 0 → Int.tmod a b ≤ 0 ∧ a ≤ Int.tmod a b := by
    intro h
    rcases a with m | m
    · exact absurd h (by simp)
    · rcases b with n | n
      · show -((((m + 1) % n : Nat)) : Int) ≤ 0 ∧ Int.negSucc m ≤ -((((m + 1) % n : Nat)) : Int)
        have := Nat.mod_le (m + 1) n
        have e := Int.negSucc_eq m
        omega
      · show -((((m + 1) % (n + 1) : Nat)) : Int) ≤ 0 ∧ Int.negSucc m ≤ -((((m + 1) % (n + 1) : Nat)) : Int)
        have := Nat.mod_le (m + 1) (n + 1)
        have e := Int.negSucc_eq m
        omega
  generalize Int.tmod a b = r at *
  cases P <;>
    simp [IntType.InRange, IntType.minValue, IntType.maxValue, IntType.bits, IntType.isSigned]
      at ha ⊢ <;> omega

theorem and_mod_two_pow (a b w : Nat) : (a &&& b) % 2 ^ w = (a % 2 ^ w) &&& (b % 2 ^ w) := by
  apply Nat.eq_of_testBit_eq
  intro i
  simp only [Nat.testBit_mod_two_pow, Nat.testBit_and]
  cases decide (i < w) <;> simp

theorem or_mod_two_pow (a b w : Nat) : (a ||| b) % 2 ^ w = (a % 2 ^ w) ||| (b % 2 ^ w) := by
  apply Nat.eq_of_testBit_eq
  intro i
  simp only [Nat.testBit_mod_two_pow, Nat.testBit_or]
  cases decide (i < w) <;> simp

theorem xor_mod_two_pow (a b w : Nat) : (a ^^^ b) % 2 ^ w = (a % 2 ^ w) ^^^ (b % 2 ^ w) := by
  apply Nat.eq_of_testBit_eq
  intro i
  simp only [Nat.testBit_mod_two_pow, Nat.testBit_xor]
  cases decide (i < w) <;> simp

/-- The conversion to `T` only depends on the low `bits(T)` bits. -/
theorem castTo_natMod (T : IntType) (n : Nat) : castTo T ((n % 2 ^ T.bits : Nat) : Int) = castTo T (n : Int) := by
  cases T <;> simp [castTo, IntType.bits, IntType.isSigned]

theorem toBits_promoted_mod (T : IntType) (v : Int) :
    toBits T.promoted.bits v % 2 ^ T.bits = toBits T.bits v := by
  cases T <;> simp [toBits, IntType.promoted, IntType.bits] <;> omega

/-- Reducing a bitwise result of the promoted type to `T` gives the bitwise result
in `T`, for any operator that acts bit by bit. -/
theorem castTo_bitwiseOp (f : Nat → Nat → Nat)
    (hf : ∀ a b w, f a b % 2 ^ w = f (a % 2 ^ w) (b % 2 ^ w)) (T : IntType) (x y : Int) :
    castTo T (bitwiseOp f T.promoted x y) = bitwiseOp f T x y := by
  unfold bitwiseOp
  rw [castTo_promoted, ← castTo_natMod, hf, toBits_promoted_mod, toBits_promoted_mod]

theorem binary_shape_ptr (cf : ControlFlow) (v : Int) :
    ((cf.moveStackPtr (-1)).writeStack (-1) v).mValueStackPtr = cf.mValueStackPtr - 1 := by
  simp [ControlFlow.writeStack, ControlFlow.moveStackPtr]; omega

theorem inRange_promoted (T : IntType) (v : Int) (h : T.InRange v) : T.promoted.InRange v := by
  cases T <;>
    simp [IntType.InRange, IntType.minValue, IntType.maxValue, IntType.bits, IntType.isSigned,
      IntType.promoted] at h ⊢ <;> omega

theorem run_one (rt : Runtime) (h : MemoryAccessHandler) (fresh : RuntimeOpcode) (opcode : Opcode)
    (cf : ControlFlow) :
    runOpcodes rt h fresh [opcode] cf = translateAndExecute rt h fresh opcode cf := by
  simp only [runOpcodes]
  cases translateAndExecute rt h fresh opcode cf <;> rfl

theorem run_binaryArithmetic (rt : Runtime) (h : MemoryAccessHandler) (fresh : RuntimeOpcode)
    (cf : ControlFlow) (op : OpcodeType) (hop : op ∈ binaryArithmeticOpcodes) (D : DataType) (p : Int)
    (hy0 : castTo D.intType (cf.mValueStackBuffer (cf.mValueStackPtr - 1)) ≠ 0)
    (hq : (op = .ARITHM_DIV ∨ op = .ARITHM_MOD) →
      ¬ (D.intType.promoted.isSigned = true ∧
          castTo D.intType (cf.mValueStackBuffer (cf.mValueStackPtr - 2)) = D.intType.promoted.minValue ∧
          castTo D.intType (cf.mValueStackBuffer (cf.mValueStackPtr - 1)) = -1)) :
    ∃ cf1, runOpcodes rt h fresh [⟨op, D.code, p⟩] cf = .ok cf1 ∧
      cf1.mValueStackPtr = cf.mValueStackPtr - 1 ∧
      cf1.top = toCell (opT op D.intType.promoted
        (castTo D.intType (cf.mValueStackBuffer (cf.mValueStackPtr - 2)))
        (castTo D.intType (cf.mValueStackBuffer (cf.mValueStackPtr - 1)))) := by
  simp only [binaryArithmeticOpcodes, List.mem_cons, List.mem_singleton, List.not_mem_nil, or_false] at hop
  have r0 : (cf.moveStackPtr (-1)).readStack 0 = cf.mValueStackBuffer (cf.mValueStackPtr - 1) := by
    simp [ControlFlow.readStack, ControlFlow.moveStackPtr]; rfl
  have r1 : (cf.moveStackPtr (-1)).readStack (-1) = cf.mValueStackBuffer (cf.mValueStackPtr - 2) := by
    have e : cf.mValueStackPtr + -1 + -1 = cf.mValueStackPtr - 2 := by omega
    simp [ControlFlow.readStack, ControlFlow.moveStackPtr, e]
  have top_write : ∀ v, ((cf.moveStackPtr (-1)).writeStack (-1) v).top = toCell v := by
    intro v
    simp [ControlFlow.top, ControlFlow.writeStack, ControlFlow.readStack, ControlFlow.moveStackPtr,
      setCell]
  rcases hop with rfl | rfl | rfl | rfl | rfl | rfl | rfl | rfl
  · simp only [run_one, translateAndExecute, buildRuntimeOpcodeStatic, bindSelected, select_code,
      finishRuntimeOpcode, RuntimeOpcode.execute, ExecFunc.call]
    exact ⟨_, rfl, binary_shape_ptr _ _, by
      simp only [OpcodeExec.exec_ARITHM_BINARY_ADD, top_write, r0, r1]; rfl⟩
  · simp only [run_one, translateAndExecute, buildRuntimeOpcodeStatic, bindSelected, select_code,
      finishRuntimeOpcode, RuntimeOpcode.execute, ExecFunc.call]
    exact ⟨_, rfl, binary_shape_ptr _ _, by
      simp only [OpcodeExec.exec_ARITHM_BINARY_SUB, top_write, r0, r1]; rfl⟩
  · simp only [run_one, translateAndExecute, buildRuntimeOpcodeStatic, bindSelected, select_code,
      finishRuntimeOpcode, RuntimeOpcode.execute, ExecFunc.call]
    exact ⟨_, rfl, binary_shape_ptr _ _, by
      simp only [OpcodeExec.exec_ARITHM_BINARY_MUL, top_write, r0, r1]; rfl⟩
  · simp only [run_one, translateAndExecute, buildRuntimeOpcodeStatic, bindSelected, select_code,
      finishRuntimeOpcode, RuntimeOpcode.execute, ExecFunc.call]
    exact ⟨_, rfl, binary_shape_ptr _ _, by
      simp only [OpcodeExec.exec_ARITHM_BINARY_AND, top_write, r0, r1]; rfl⟩
  · simp only [run_one, translateAndExecute, buildRuntimeOpcodeStatic, bindSelected, select_code,
      finishRuntimeOpcode, RuntimeOpcode.execute, ExecFunc.call]
    exact ⟨_, rfl, binary_shape_ptr _ _, by
      simp only [OpcodeExec.exec_ARITHM_BINARY_OR, top_write, r0, r1]; rfl⟩
  · simp only [run_one, translateAndExecute, buildRuntimeOpcodeStatic, bindSelected, select_code,
      finishRuntimeOpcode, RuntimeOpcode.execute, ExecFunc.call]
    exact ⟨_, rfl, binary_shape_ptr _ _, by
      simp only [OpcodeExec.exec_ARITHM_BINARY_XOR, top_write, r0, r1]; rfl⟩
  · have hov := hq (Or.inl rfl)
    have hin := tdiv_inRange D.intType.promoted _ _
      (inRange_promoted D.intType _ (castTo_inRange D.intType (cf.mValueStackBuffer (cf.mValueStackPtr - 2))))
      (inRange_promoted D.intType _ (castTo_inRange D.intType (cf.mValueStackBuffer (cf.mValueStackPtr - 1))))
      hov
    simp only [run_one, translateAndExecute, buildRuntimeOpcodeStatic, bindSelected, select_code,
      finishRuntimeOpcode, RuntimeOpcode.execute, ExecFunc.call, OpcodeExec.exec_ARITHM_BINARY_DIV,
      r0, r1, hy0, if_false, machineDiv]
    simp only [Bool.and_eq_true, decide_eq_true_eq] at *
    rw [if_neg (by tauto)]
    exact ⟨_, rfl, binary_shape_ptr _ _, by
      rw [top_write]; simp only [opT]; rw [castTo_of_inRange _ _ hin]⟩
  · have hov := hq (Or.inr rfl)
    have hin := tmod_inRange D.intType.promoted
      (castTo D.intType (cf.mValueStackBuffer (cf.mValueStackPtr - 2)))
      (castTo D.intType (cf.mValueStackBuffer (cf.mValueStackPtr - 1)))
      (inRange_promoted D.intType _ (castTo_inRange D.intType (cf.mValueStackBuffer (cf.mValueStackPtr - 2))))
    simp only [run_one, translateAndExecute, buildRuntimeOpcodeStatic, bindSelected, select_code,
      finishRuntimeOpcode, RuntimeOpcode.execute, ExecFunc.call, OpcodeExec.exec_ARITHM_BINARY_MOD,
      r0, r1, hy0, if_false, machineMod]
    simp only [Bool.and_eq_true, decide_eq_true_eq] at *
    rw [if_neg (by tauto)]
    exact ⟨_, rfl, binary_shape_ptr _ _, by
      rw [top_write]; simp only [opT]; rw [castTo_of_inRange _ _ hin]⟩

theorem castTo_zero (T : IntType) : castTo T 0 = 0 := by
  cases T <;> decide

theorem castTo_opT_promoted (op : OpcodeType) (T : IntType) (x y : Int) :
    castTo T (opT op T.promoted x y) = opT op T x y := by
  cases op
  case ARITHM_AND => exact castTo_bitwiseOp _ and_mod_two_pow T x y
  case ARITHM_OR => exact castTo_bitwiseOp _ or_mod_two_pow T x y
  case ARITHM_XOR => exact castTo_bitwiseOp _ xor_mod_two_pow T x y
  all_goals simp only [opT, castTo_promoted, castTo_zero]

theorem promoted_of_wide (T : IntType) (h : 32 ≤ T.bits) : T.promoted = T := by
  cases T <;> simp [IntType.bits] at h <;> rfl

theorem run_append (rt : Runtime) (h : MemoryAccessHandler) (fresh : RuntimeOpcode)
    (xs ys : List Opcode) (cf cf1 : ControlFlow) (hx : runOpcodes rt h fresh xs cf = .ok cf1) :
    runOpcodes rt h fresh (xs ++ ys) cf = runOpcodes rt h fresh ys cf1 := by
  induction xs generalizing cf with
  | nil => simp only [runOpcodes] at hx; cases hx; rfl
  | cons o os ih =>
    simp only [runOpcodes, List.cons_append] at hx ⊢
    cases hstep : translateAndExecute rt h fresh o cf with
    | error e => rw [hstep] at hx; cases hx
    | ok c => rw [hstep] at hx; simp only; exact ih c hx

theorem castTo_castTo (T : IntType) (v : Int) : castTo T (castTo T v) = castTo T v :=
  castTo_of_inRange T _ (castTo_inRange T v)

theorem run_push_push (rt : Runtime) (h : MemoryAccessHandler) (fresh : RuntimeOpcode) (cf : ControlFlow)
    (dx dy : BaseType) (x y : Int) :
    ∃ cf2, runOpcodes rt h fresh [⟨.PUSH_CONSTANT, dx, toCell x⟩, ⟨.PUSH_CONSTANT, dy, toCell y⟩] cf = .ok cf2 ∧
      cf2.mValueStackPtr = cf.mValueStackPtr + 2 ∧
      cf2.mValueStackBuffer (cf2.mValueStackPtr - 2) = toCell x ∧
      cf2.mValueStackBuffer (cf2.mValueStackPtr - 1) = toCell y := by
  refine ⟨{ cf with
      mValueStackBuffer :=
        setCell (setCell cf.mValueStackBuffer cf.mValueStackPtr (toCell x)) (cf.mValueStackPtr + 1) (toCell y)
      mValueStackPtr := cf.mValueStackPtr + 1 + 1 }, ?_, ?_, ?_, ?_⟩
  · simp only [runOpcodes, translateAndExecute, buildRuntimeOpcodeStatic, finishRuntimeOpcode,
      RuntimeOpcode.execute, ExecFunc.call, OpcodeExec.exec_PUSH_CONSTANT, ControlFlow.writeStack,
      ControlFlow.moveStackPtr, RuntimeOpcodeContext.getParameter, toCell, castTo_castTo, add_zero]
  · show (cf.mValueStackPtr + 1 + 1 : Int) = cf.mValueStackPtr + 2
    omega
  · show setCell (setCell _ _ _) _ _ (cf.mValueStackPtr + 1 + 1 - 2) = _
    have e : cf.mValueStackPtr + 1 + 1 - 2 = cf.mValueStackPtr := by omega
    rw [e, setCell_other _ _ _ _ (by omega), setCell_same]
  · show setCell (setCell _ _ _) _ _ (cf.mValueStackPtr + 1 + 1 - 1) = _
    have e : cf.mValueStackPtr + 1 + 1 - 1 = cf.mValueStackPtr + 1 := by omega
    rw [e, setCell_same]

/-- Full statement for `PUSH_CONSTANT x; PUSH_CONSTANT y; OP`. -/
theorem run_push_push_binary (rt : Runtime) (h : MemoryAccessHandler) (fresh : RuntimeOpcode)
    (cf : ControlFlow) (op : OpcodeType) (hop : op ∈ binaryArithmeticOpcodes) (D : DataType)
    (x y p : Int) (hx : D.intType.InRange x) (hy : D.intType.InRange y) (hy0 : y ≠ 0)
    (hq : (op = .ARITHM_DIV ∨ op = .ARITHM_MOD) → ¬ (x = D.intType.promoted.minValue ∧ y = -1)) :
    ∃ cf2 cf3,
      runOpcodes rt h fresh
        [⟨.PUSH_CONSTANT, D.code, toCell x⟩, ⟨.PUSH_CONSTANT, D.code, toCell y⟩] cf = .ok cf2 ∧
      runOpcodes rt h fresh [⟨op, D.code, p⟩] cf2 = .ok cf3 ∧
      runOpcodes rt h fresh
        [⟨.PUSH_CONSTANT, D.code, toCell x⟩, ⟨.PUSH_CONSTANT, D.code, toCell y⟩, ⟨op, D.code, p⟩] cf
        = .ok cf3 ∧
      cf2.mValueStackPtr = cf.mValueStackPtr + 2 ∧
      cf3.mValueStackPtr = cf2.mValueStackPtr - 1 ∧
      cf3.top = toCell (opT op D.intType.promoted x y) ∧
      castTo D.intType cf3.top = opT op D.intType x y ∧
      (D.intType.InRange (opT op D.intType.promoted x y) → cf3.top = toCell (opT op D.intType x y)) ∧
      (32 ≤ D.intType.bits → cf3.top = toCell (opT op D.intType x y)) := by
  obtain ⟨cf2, hrun2, hptr2, hcx, hcy⟩ := run_push_push rt h fresh cf D.code D.code x y
  have ex : castTo D.intType (cf2.mValueStackBuffer (cf2.mValueStackPtr - 2)) = x := by
    rw [hcx, castTo_toCell, castTo_of_inRange _ _ hx]
  have ey : castTo D.intType (cf2.mValueStackBuffer (cf2.mValueStackPtr - 1)) = y := by
    rw [hcy, castTo_toCell, castTo_of_inRange _ _ hy]
  obtain ⟨cf3, hrun3, hptr, htop⟩ := run_binaryArithmetic rt h fresh cf2 op hop D p
    (by rw [ey]; exact hy0)
    (by rw [ex, ey]; intro hdm hc; exact hq hdm ⟨hc.2.1, hc.2.2⟩)
  rw [ex, ey] at htop
  refine ⟨cf2, cf3, hrun2, hrun3, ?_, hptr2, hptr, htop, ?_, ?_, ?_⟩
  · have := run_append rt h fresh _ [⟨op, D.code, p⟩] cf cf2 hrun2
    simpa [hrun3] using this
  · rw [htop, castTo_toCell, castTo_opT_promoted]
  · intro hr
    rw [htop, ← castTo_opT_promoted op D.intType x y, castTo_of_inRange _ _ hr]
  · intro hw
    rw [htop, promoted_of_wide _ hw]

/-- C1 (amended). For every binary arithmetic opcode `op` among ADD, SUB, MUL, AND,
OR, XOR, DIV, MOD, every data type `D` and all operands `x`, `y` of its integer
type `T` with `y ≠ 0` (and, for DIV and MOD, not the overflowing pair
`x = min, y = -1`): running `PUSH_CONSTANT x; PUSH_CONSTANT y; op` through the
translator succeeds; the handler of `op` moves the stack pointer by -1; the top
cell holds `op` computed in the promoted type of `T` (`int32` for the 8- and
16-bit types, `T` itself otherwise). Reduced to `T` this is `op_T(x, y)`, and
the cell is `op_T(x, y)` itself whenever the promoted result is representable
in `T`, in particular for every 32- and 64-bit `T`. -/
theorem arithm_binary_computes_in_promoted_type (rt : Runtime) (h : MemoryAccessHandler)
    (fresh : RuntimeOpcode) (cf : ControlFlow) (op : OpcodeType)
    (hop : op ∈ binaryArithmeticOpcodes) (D : DataType) (x y p : Int)
    (hx : D.intType.InRange x) (hy : D.intType.InRange y) (hy0 : y ≠ 0)
    (hq : (op = .ARITHM_DIV ∨ op = .ARITHM_MOD) → ¬ (x = D.intType.promoted.minValue ∧ y = -1)) :
    ∃ cf2 cf3,
      runOpcodes rt h fresh
        [⟨.PUSH_CONSTANT, D.code, toCell x⟩, ⟨.PUSH_CONSTANT, D.code, toCell y⟩] cf = .ok cf2 ∧
      runOpcodes rt h fresh [⟨op, D.code, p⟩] cf2 = .ok cf3 ∧
      runOpcodes rt h fresh
        [⟨.PUSH_CONSTANT, D.code, toCell x⟩, ⟨.PUSH_CONSTANT, D.code, toCell y⟩, ⟨op, D.code, p⟩] cf
        = .ok cf3 ∧
      cf2.mValueStackPtr = cf.mValueStackPtr + 2 ∧
      cf3.mValueStackPtr = cf2.mValueStackPtr - 1 ∧
      cf3.top = toCell (opT op D.intType.promoted x y) ∧
      castTo D.intType cf3.top = opT op D.intType x y ∧
      (D.intType.InRange (opT op D.intType.promoted x y) → cf3.top = toCell (opT op D.intType x y)) ∧
      (32 ≤ D.intType.bits → cf3.top = toCell (opT op D.intType x y)) :=
  run_push_push_binary rt h fresh cf op hop D x y p hx hy hy0 hq

/-- Witness for C1: `7, 3, ARITHM_SUB<i32>` leaves 4 on top, one cell above the
initial stack pointer. -/
theorem arithm_binary_computes_in_promoted_type_witness :
    ∃ cf3,
      runOpcodes Runtime.plain MemoryAccessHandler.littleEndian RuntimeOpcode.blank
        [⟨.PUSH_CONSTANT, BaseType.INT_32, 7⟩, ⟨.PUSH_CONSTANT, BaseType.INT_32, 3⟩,
          ⟨.ARITHM_SUB, BaseType.INT_32, 0⟩] (ControlFlow.ofStack []) = .ok cf3 ∧
      cf3.top = 4 ∧ cf3.mValueStackPtr = 1 := by
  obtain ⟨cf2, cf3, _, _, hrun, hp2, hp3, htop, _⟩ :=
    arithm_binary_computes_in_promoted_type Runtime.plain MemoryAccessHandler.littleEndian
      RuntimeOpcode.blank (ControlFlow.ofStack []) .ARITHM_SUB (by decide) .i32 7 3 0
      (by decide) (by decide) (by decide) (by decide)
  refine ⟨cf3, hrun, ?_, ?_⟩
  · rw [htop]; decide
  · rw [hp3, hp2]; rfl

/-- C1 (counterexample). `PUSH_CONSTANT 255; PUSH_CONSTANT 1; ARITHM_ADD<u8>` leaves
256 on top: not `op_u8(255, 1) = 0`, and not a value of type `u8` at all. -/
theorem arithm_add_u8_leaves_unreduced_sum :
    ∃ cf3,
      runOpcodes Runtime.plain MemoryAccessHandler.littleEndian RuntimeOpcode.blank
        [⟨.PUSH_CONSTANT, BaseType.UINT_8, 255⟩, ⟨.PUSH_CONSTANT, BaseType.UINT_8, 1⟩,
          ⟨.ARITHM_ADD, BaseType.UINT_8, 0⟩] (ControlFlow.ofStack []) = .ok cf3 ∧
      cf3.top = 256 ∧ opT .ARITHM_ADD .uint8 255 1 = 0 ∧
      cf3.top ≠ toCell (opT .ARITHM_ADD .uint8 255 1) ∧ ¬ IntType.uint8.InRange cf3.top := by
  obtain ⟨cf2, cf3, _, _, hrun, _, _, htop, _⟩ :=
    run_push_push_binary Runtime.plain MemoryAccessHandler.littleEndian
      RuntimeOpcode.blank (ControlFlow.ofStack []) .ARITHM_ADD (by decide) .u8 255 1 0
      (by decide) (by decide) (by decide) (by decide)
  have ht : cf3.top = 256 := by rw [htop]; decide
  refine ⟨cf3, hrun, ht, by decide, ?_, ?_⟩
  · rw [ht]; decide
  · rw [ht]; decide

/-! ## Division and modulo by zero -/

theorem machineDiv_ne_divideByZero (P : IntType) (a b : Int) (hb : b ≠ 0) :
    machineDiv P a b ≠ .error .divideByZero := by
  unfold machineDiv
  rw [if_neg hb]
  split <;> simp

theorem machineMod_ne_divideByZero (P : IntType) (a b : Int) (hb : b ≠ 0) :
    machineMod P a b ≠ .error .divideByZero := by
  unfold machineMod
  rw [if_neg hb]
  split <;> simp

theorem exec_DIV_ne_divideByZero (T : IntType) (context : RuntimeOpcodeContext) :
    OpcodeExec.exec_ARITHM_BINARY_DIV T context ≠ .error .divideByZero := by
  unfold OpcodeExec.exec_ARITHM_BINARY_DIV
  simp only
  split
  · simp
  · rename_i hb
    have := machineDiv_ne_divideByZero T.promoted
      (castTo T ((context.mControlFlow.moveStackPtr (-1)).readStack (-1))) _ hb
    split
    · simp
    · rename_i e he
      intro hc
      cases hc
      exact this he

theorem exec_MOD_ne_divideByZero (T : IntType) (context : RuntimeOpcodeContext) :
    OpcodeExec.exec_ARITHM_BINARY_MOD T context ≠ .error .divideByZero := by
  unfold OpcodeExec.exec_ARITHM_BINARY_MOD
  simp only
  split
  · simp
  · rename_i hb
    have := machineMod_ne_divideByZero T.promoted
      (castTo T ((context.mControlFlow.moveStackPtr (-1)).readStack (-1))) _ hb
    split
    · simp
    · rename_i e he
      intro hc
      cases hc
      exact this he

theorem toCell_zero : toCell 0 = 0 := by decide

/-- C2. For every data type (all eight integer types, and `int_const`) and every
control flow whose top cell, viewed as `T`, is 0: the translated `ARITHM_DIV` and
`ARITHM_MOD` succeed, leave 0 on top and move the stack pointer by -1, whatever
the left operand is. Moreover no control flow at all makes either handler
evaluate the machine division or remainder with a zero divisor. -/
theorem arithm_div_mod_by_zero_yields_zero (rt : Runtime) (h : MemoryAccessHandler)
    (fresh : RuntimeOpcode) (cf : ControlFlow) (D : DataType) (p : Int)
    (hzero : castTo D.intType cf.top = 0) :
    (∃ cf1, runOpcodes rt h fresh [⟨.ARITHM_DIV, D.code, p⟩] cf = .ok cf1 ∧
      cf1.top = 0 ∧ cf1.mValueStackPtr = cf.mValueStackPtr - 1) ∧
    (∃ cf1, runOpcodes rt h fresh [⟨.ARITHM_MOD, D.code, p⟩] cf = .ok cf1 ∧
      cf1.top = 0 ∧ cf1.mValueStackPtr = cf.mValueStackPtr - 1) ∧
    (∀ cf0 : ControlFlow,
      runOpcodes rt h fresh [⟨.ARITHM_DIV, D.code, p⟩] cf0 ≠ .error (.exec .divideByZero) ∧
      runOpcodes rt h fresh [⟨.ARITHM_MOD, D.code, p⟩] cf0 ≠ .error (.exec .divideByZero)) := by
  have r0 : (cf.moveStackPtr (-1)).readStack 0 = cf.top := by
    simp [ControlFlow.readStack, ControlFlow.moveStackPtr, ControlFlow.top]
  have top_write : ∀ v, ((cf.moveStackPtr (-1)).writeStack (-1) v).top = toCell v := by
    intro v
    simp [ControlFlow.top, ControlFlow.writeStack, ControlFlow.readStack, ControlFlow.moveStackPtr,
      setCell]
  refine ⟨?_, ?_, ?_⟩
  · simp only [run_one, translateAndExecute, buildRuntimeOpcodeStatic, bindSelected, select_code,
      finishRuntimeOpcode, RuntimeOpcode.execute, ExecFunc.call, OpcodeExec.exec_ARITHM_BINARY_DIV,
      r0, hzero, if_true]
    exact ⟨_, rfl, by rw [top_write, toCell_zero], binary_shape_ptr _ _⟩
  · simp only [run_one, translateAndExecute, buildRuntimeOpcodeStatic, bindSelected, select_code,
      finishRuntimeOpcode, RuntimeOpcode.execute, ExecFunc.call, OpcodeExec.exec_ARITHM_BINARY_MOD,
      r0, hzero, if_true]
    exact ⟨_, rfl, by rw [top_write, toCell_zero], binary_shape_ptr _ _⟩
  · intro cf0
    constructor
    · simp only [run_one, translateAndExecute, buildRuntimeOpcodeStatic, bindSelected, select_code,
        finishRuntimeOpcode, RuntimeOpcode.execute, ExecFunc.call]
      have := exec_DIV_ne_divideByZero D.intType { mControlFlow := cf0, mParameter := p }
      cases hres : OpcodeExec.exec_ARITHM_BINARY_DIV D.intType { mControlFlow := cf0, mParameter := p } with
      | ok c => simp
      | error e =>
        rw [hres] at this
        simp only [ne_eq, Except.error.injEq, Failure.exec.injEq]
        intro he; exact this (by rw [he])
    · simp only [run_one, translateAndExecute, buildRuntimeOpcodeStatic, bindSelected, select_code,
        finishRuntimeOpcode, RuntimeOpcode.execute, ExecFunc.call]
      have := exec_MOD_ne_divideByZero D.intType { mControlFlow := cf0, mParameter := p }
      cases hres : OpcodeExec.exec_ARITHM_BINARY_MOD D.intType { mControlFlow := cf0, mParameter := p } with
      | ok c => simp
      | error e =>
        rw [hres] at this
        simp only [ne_eq, Except.error.injEq, Failure.exec.injEq]
        intro he; exact this (by rw [he])

/-- The one pair the division instruction cannot divide: on the stack
`-2147483648, -1` the translated `ARITHM_DIV<i32>` faults, the quotient `2^31`
not being an `int32`. -/
theorem arithm_div_i32_min_by_minus_one_faults :
    runOpcodes Runtime.plain MemoryAccessHandler.littleEndian RuntimeOpcode.blank
      [⟨.ARITHM_DIV, BaseType.INT_32, 0⟩] (ControlFlow.ofStack [-2147483648, -1])
      = .error (.exec .divideOverflow) := by
  rfl

/-- Witness for C2: on the stack `10, 0` (10 pushed first), `ARITHM_DIV<i32>`
leaves 0 on top of a stack of one cell. -/
theorem arithm_div_mod_by_zero_yields_zero_witness :
    castTo IntType.int32 (ControlFlow.ofStack [10, 0]).top = 0 ∧
    ∃ cf1,
      runOpcodes Runtime.plain MemoryAccessHandler.littleEndian RuntimeOpcode.blank
        [⟨.ARITHM_DIV, BaseType.INT_32, 0⟩] (ControlFlow.ofStack [10, 0]) = .ok cf1 ∧
      cf1.top = 0 ∧ cf1.mValueStackPtr = 1 :=
  ⟨by decide,
    (arithm_div_mod_by_zero_yields_zero Runtime.plain MemoryAccessHandler.littleEndian
      RuntimeOpcode.blank (ControlFlow.ofStack [10, 0]) .i32 0 (by decide)).1⟩

/-! ## Shift counts -/

/-- The masked count only depends on the low bits of the count cell. -/
theorem shiftCount_eq_mask (T : IntType) (s : Int) :
    shiftCount T s = toBits 64 s &&& (T.bits - 1) := by
  unfold shiftCount
  cases T
  case int8 | uint8 =>
    show _ &&& (2 ^ 3 - 1) = _ &&& (2 ^ 3 - 1)
    rw [Nat.and_pow_two_sub_one_eq_mod, Nat.and_pow_two_sub_one_eq_mod]
    simp [toBits, castTo, IntType.bits, IntType.isSigned]
    omega
  case int16 | uint16 =>
    show _ &&& (2 ^ 4 - 1) = _ &&& (2 ^ 4 - 1)
    rw [Nat.and_pow_two_sub_one_eq_mod, Nat.and_pow_two_sub_one_eq_mod]
    simp [toBits, castTo, IntType.bits, IntType.isSigned]
    omega
  case int32 | uint32 =>
    show _ &&& (2 ^ 5 - 1) = _ &&& (2 ^ 5 - 1)
    rw [Nat.and_pow_two_sub_one_eq_mod, Nat.and_pow_two_sub_one_eq_mod]
    simp [toBits, castTo, IntType.bits, IntType.isSigned]
    omega
  case int64 =>
    show _ &&& (2 ^ 6 - 1) = _ &&& (2 ^ 6 - 1)
    rw [Nat.and_pow_two_sub_one_eq_mod, Nat.and_pow_two_sub_one_eq_mod]
    simp [toBits, castTo, IntType.bits, IntType.isSigned]
    omega
  case uint64 =>
    show _ &&& (2 ^ 6 - 1) = _ &&& (2 ^ 6 - 1)
    rw [Nat.and_pow_two_sub_one_eq_mod, Nat.and_pow_two_sub_one_eq_mod]
    simp [toBits, castTo, IntType.bits, IntType.isSigned]

theorem mask_lt_bits (T : IntType) (n : Nat) : n &&& (T.bits - 1) < T.bits := by
  have h := @Nat.and_le_right n (T.bits - 1)
  cases T <;> simp [IntType.bits] at h ⊢ <;> omega

/-- A count that is already masked is left alone by the handler. -/
theorem shiftCount_masked (T : IntType) (s : Int) :
    shiftCount T (toCell ((toBits 64 s &&& (T.bits - 1) : Nat) : Int)) = toBits 64 s &&& (T.bits - 1) := by
  have hlt := mask_lt_bits T (toBits 64 s)
  have hc : ∀ c : Nat, c < T.bits → toBits 64 (toCell (c : Int)) = c := by
    intro c hc
    have : c < 2 ^ 63 := by
      have : T.bits ≤ 64 := by cases T <;> simp [IntType.bits]
      omega
    simp [toBits, toCell, castTo, IntType.bits, IntType.isSigned]
    omega
  rw [shiftCount_eq_mask, hc _ hlt, Nat.and_assoc, Nat.and_self]

theorem run_shift (rt : Runtime) (h : MemoryAccessHandler) (fresh : RuntimeOpcode)
    (cf : ControlFlow) (D : DataType) (p : Int) :
    (∃ cf1, runOpcodes rt h fresh [⟨.ARITHM_SHL, D.code, p⟩] cf = .ok cf1 ∧
      cf1.mValueStackPtr = cf.mValueStackPtr - 1 ∧
      cf1.top = toCell (castTo D.intType.promoted
        (castTo D.intType (cf.mValueStackBuffer (cf.mValueStackPtr - 2)) *
          2 ^ (toBits 64 (cf.mValueStackBuffer (cf.mValueStackPtr - 1)) &&& (D.intType.bits - 1))))) ∧
    (∃ cf1, runOpcodes rt h fresh [⟨.ARITHM_SHR, D.code, p⟩] cf = .ok cf1 ∧
      cf1.mValueStackPtr = cf.mValueStackPtr - 1 ∧
      cf1.top = toCell
        (castTo D.intType (cf.mValueStackBuffer (cf.mValueStackPtr - 2)) /
          2 ^ (toBits 64 (cf.mValueStackBuffer (cf.mValueStackPtr - 1)) &&& (D.intType.bits - 1)))) := by
  have r0 : (cf.moveStackPtr (-1)).readStack 0 = cf.mValueStackBuffer (cf.mValueStackPtr - 1) := by
    simp [ControlFlow.readStack, ControlFlow.moveStackPtr]; rfl
  have r1 : (cf.moveStackPtr (-1)).readStack (-1) = cf.mValueStackBuffer (cf.mValueStackPtr - 2) := by
    have e : cf.mValueStackPtr + -1 + -1 = cf.mValueStackPtr - 2 := by omega
    simp [ControlFlow.readStack, ControlFlow.moveStackPtr, e]
  have top_write : ∀ v, ((cf.moveStackPtr (-1)).writeStack (-1) v).top = toCell v := by
    intro v
    simp [ControlFlow.top, ControlFlow.writeStack, ControlFlow.readStack, ControlFlow.moveStackPtr,
      setCell]
  constructor
  · simp only [run_one, translateAndExecute, buildRuntimeOpcodeStatic, bindSelected, select_code,
      finishRuntimeOpcode, RuntimeOpcode.execute, ExecFunc.call]
    exact ⟨_, rfl, binary_shape_ptr _ _, by
      simp only [OpcodeExec.exec_ARITHM_BINARY_SHL, top_write, r0, r1, shiftCount_eq_mask, machineShl]⟩
  · simp only [run_one, translateAndExecute, buildRuntimeOpcodeStatic, bindSelected, select_code,
      finishRuntimeOpcode, RuntimeOpcode.execute, ExecFunc.call]
    exact ⟨_, rfl, binary_shape_ptr _ _, by
      simp only [OpcodeExec.exec_ARITHM_BINARY_SHR, top_write, r0, r1, shiftCount_eq_mask, machineShr]⟩

/-- Replacing the top cell does not move the stack pointer nor the cell below. -/
theorem writeStack_top_frame (cf : ControlFlow) (v : Int) :
    (cf.writeStack (-1) v).mValueStackPtr = cf.mValueStackPtr ∧
    (cf.writeStack (-1) v).mValueStackBuffer (cf.mValueStackPtr - 1) = toCell v ∧
    (cf.writeStack (-1) v).mValueStackBuffer (cf.mValueStackPtr - 2) =
      cf.mValueStackBuffer (cf.mValueStackPtr - 2) := by
  refine ⟨rfl, ?_, ?_⟩
  · show setCell _ (cf.mValueStackPtr + -1) _ (cf.mValueStackPtr - 1) = _
    have e : cf.mValueStackPtr + -1 = cf.mValueStackPtr - 1 := by omega
    rw [e, setCell_same]
  · show setCell _ (cf.mValueStackPtr + -1) _ (cf.mValueStackPtr - 2) = _
    rw [setCell_other _ _ _ _ (by omega)]

/-- C3. For every data type, every left operand and every count cell `s` (any
64-bit value): the translated `ARITHM_SHL` and `ARITHM_SHR` shift by
`c = s & (bits(T) - 1)`, which is below `bits(T)`. The top cell is `x << c`
respectively `x >> c` of the `T`-typed left operand `x` (computed in the promoted
type), and it is the same cell that the handler leaves when the count cell holds
`c` itself; the stack pointer moves by -1. -/
theorem arithm_shift_count_is_masked (rt : Runtime) (h : MemoryAccessHandler)
    (fresh : RuntimeOpcode) (cf : ControlFlow) (D : DataType) (p : Int) :
    let T := D.intType
    let x := castTo T (cf.mValueStackBuffer (cf.mValueStackPtr - 2))
    let s := cf.mValueStackBuffer (cf.mValueStackPtr - 1)
    let c := toBits 64 s &&& (T.bits - 1)
    c < T.bits ∧
    (∃ cf1 cf2,
      runOpcodes rt h fresh [⟨.ARITHM_SHL, D.code, p⟩] cf = .ok cf1 ∧
      runOpcodes rt h fresh [⟨.ARITHM_SHL, D.code, p⟩] (cf.writeStack (-1) c) = .ok cf2 ∧
      cf1.top = cf2.top ∧
      cf1.top = toCell (castTo T.promoted (x * 2 ^ c)) ∧
      cf1.mValueStackPtr = cf.mValueStackPtr - 1 ∧ cf2.mValueStackPtr = cf.mValueStackPtr - 1) ∧
    (∃ cf1 cf2,
      runOpcodes rt h fresh [⟨.ARITHM_SHR, D.code, p⟩] cf = .ok cf1 ∧
      runOpcodes rt h fresh [⟨.ARITHM_SHR, D.code, p⟩] (cf.writeStack (-1) c) = .ok cf2 ∧
      cf1.top = cf2.top ∧
      cf1.top = toCell (x / 2 ^ c) ∧
      cf1.mValueStackPtr = cf.mValueStackPtr - 1 ∧ cf2.mValueStackPtr = cf.mValueStackPtr - 1) := by
  intro T x s c
  obtain ⟨hp, hc, hb⟩ := writeStack_top_frame cf (c : Int)
  have hmask : toBits 64 (toCell (c : Int)) &&& (T.bits - 1) = c := by
    have := shiftCount_masked T s
    rwa [shiftCount_eq_mask] at this
  obtain ⟨⟨a1, ha1, hpa, hta⟩, ⟨b1, hb1, hpb, htb⟩⟩ := run_shift rt h fresh cf D p
  obtain ⟨⟨a2, ha2, hpa2, hta2⟩, ⟨b2, hb2, hpb2, htb2⟩⟩ :=
    run_shift rt h fresh (cf.writeStack (-1) c) D p
  rw [hp, hc, hb, hmask] at hta2 htb2
  rw [hp] at hpa2 hpb2
  exact ⟨mask_lt_bits T _, ⟨a1, a2, ha1, ha2, by rw [hta, hta2], hta, hpa, hpa2⟩,
    ⟨b1, b2, hb1, hb2, by rw [htb, htb2], htb, hpb, hpb2⟩⟩

/-- The scenario of C3: `push 5; push 35; ARITHM_SHL<u32>` leaves `5 << 3 = 40`. -/
theorem arithm_shl_u32_by_35 :
    ∃ cf1,
      runOpcodes Runtime.plain MemoryAccessHandler.littleEndian RuntimeOpcode.blank
        [⟨.ARITHM_SHL, BaseType.UINT_32, 0⟩] (ControlFlow.ofStack [5, 35]) = .ok cf1 ∧
      cf1.top = 40 ∧ cf1.mValueStackPtr = 1 := by
  obtain ⟨_, ⟨cf1, _, hrun, _, _, htop, hptr, _⟩, _⟩ :=
    arithm_shift_count_is_masked Runtime.plain MemoryAccessHandler.littleEndian
      RuntimeOpcode.blank (ControlFlow.ofStack [5, 35]) .u32 0
  refine ⟨cf1, hrun, ?_, hptr⟩
  rw [htop]; decide

/-! ## Memory access -/

theorem run_write_memory (rt : Runtime) (h : MemoryAccessHandler) (fresh : RuntimeOpcode)
    (cf : ControlFlow) (D : DataType) :
    ∃ cf1, runOpcodes rt h fresh [⟨.WRITE_MEMORY, D.code, 0⟩] cf = .ok cf1 ∧
      cf1.mValueStackPtr = cf.mValueStackPtr - 1 ∧
      cf1.mMemory = h.write cf.mMemory D.intType
        (cellAsUInt64 (cf.mValueStackBuffer (cf.mValueStackPtr - 1)))
        (castTo D.intType (cf.mValueStackBuffer (cf.mValueStackPtr - 2))) ∧
      cf1.mValueStackBuffer = cf.mValueStackBuffer ∧
      cf1.top = cf.mValueStackBuffer (cf.mValueStackPtr - 2) := by
  have r0 : (cf.moveStackPtr (-1)).readStack 0 = cf.mValueStackBuffer (cf.mValueStackPtr - 1) := by
    simp [ControlFlow.readStack, ControlFlow.moveStackPtr]; rfl
  have r1 : (cf.moveStackPtr (-1)).readStack (-1) = cf.mValueStackBuffer (cf.mValueStackPtr - 2) := by
    have e : cf.mValueStackPtr + -1 + -1 = cf.mValueStackPtr - 2 := by omega
    simp [ControlFlow.readStack, ControlFlow.moveStackPtr, e]
  simp only [run_one, translateAndExecute, buildRuntimeOpcodeStatic, bindSelected, select_code,
    finishRuntimeOpcode, RuntimeOpcode.execute, ExecFunc.call, if_true,
    OpcodeExec.exec_WRITE_MEMORY, r0, r1]
  refine ⟨_, rfl, ?_, rfl, rfl, ?_⟩
  · show cf.mValueStackPtr + -1 = cf.mValueStackPtr - 1
    omega
  · exact r1

/-- C4 (amended). The translated `WRITE_MEMORY` with static parameter 0 pops the
address only: for every data type and every stack with the value below the
address on top, the handler succeeds, the stack pointer ends exactly 1 cell
lower, no stack cell is changed, so the value is the new top, and host memory
is the old one with the value, truncated to `T`, written at the address. -/
theorem write_memory_pops_the_address_only (rt : Runtime) (h : MemoryAccessHandler)
    (fresh : RuntimeOpcode) (cf : ControlFlow) (D : DataType) :
    ∃ cf1, runOpcodes rt h fresh [⟨.WRITE_MEMORY, D.code, 0⟩] cf = .ok cf1 ∧
      cf1.mValueStackPtr = cf.mValueStackPtr - 1 ∧
      cf1.mMemory = h.write cf.mMemory D.intType
        (cellAsUInt64 (cf.mValueStackBuffer (cf.mValueStackPtr - 1)))
        (castTo D.intType (cf.mValueStackBuffer (cf.mValueStackPtr - 2))) ∧
      cf1.mValueStackBuffer = cf.mValueStackBuffer ∧
      cf1.top = cf.mValueStackBuffer (cf.mValueStackPtr - 2) :=
  run_write_memory rt h fresh cf D

/-- C4 (counterexample). On the stack `0x1234, 0x10` (value below, address on top)
the translated `WRITE_MEMORY<u8>` with parameter 0 ends with the stack pointer at
1, not at `2 - 2 = 0`; the value `0x1234` is still on top and the byte `0x34` is
in host memory at address `0x10`. -/
theorem write_memory_u8_net_stack_delta :
    ∃ cf1,
      runOpcodes Runtime.plain MemoryAccessHandler.littleEndian RuntimeOpcode.blank
        [⟨.WRITE_MEMORY, BaseType.UINT_8, 0⟩] (ControlFlow.ofStack [0x1234, 0x10]) = .ok cf1 ∧
      cf1.mValueStackPtr = 1 ∧
      cf1.mValueStackPtr ≠ (ControlFlow.ofStack [0x1234, 0x10]).mValueStackPtr - 2 ∧
      cf1.top = 0x1234 ∧ cf1.mMemory 0x10 = 0x34 := by
  obtain ⟨cf1, hrun, hptr, hmem, _, htop⟩ :=
    run_write_memory Runtime.plain MemoryAccessHandler.littleEndian RuntimeOpcode.blank
      (ControlFlow.ofStack [0x1234, 0x10]) .u8
  refine ⟨cf1, hrun, hptr, ?_, htop, ?_⟩
  · rw [hptr]; decide
  · rw [hmem]; decide

/-- C5. The translated `WRITE_MEMORY` with a nonzero static parameter (the
exchanged variant): for every data type and every stack with the value on top
and the address in the cell below it, the handler succeeds, writes the value
truncated to `T` to host memory at that address, moves the stack pointer by -1,
and the new top cell (the former address cell) holds the written value; no
other stack cell changes. -/
theorem write_memory_exchanged_keeps_value (rt : Runtime) (h : MemoryAccessHandler)
    (fresh : RuntimeOpcode) (cf : ControlFlow) (D : DataType) (p : Int) (hp : p ≠ 0) :
    ∃ cf1, runOpcodes rt h fresh [⟨.WRITE_MEMORY, D.code, p⟩] cf = .ok cf1 ∧
      cf1.mValueStackPtr = cf.mValueStackPtr - 1 ∧
      cf1.mMemory = h.write cf.mMemory D.intType
        (cellAsUInt64 (cf.mValueStackBuffer (cf.mValueStackPtr - 2)))
        (castTo D.intType (cf.mValueStackBuffer (cf.mValueStackPtr - 1))) ∧
      cf1.top = toCell (castTo D.intType (cf.mValueStackBuffer (cf.mValueStackPtr - 1))) ∧
      (∀ i, i ≠ cf.mValueStackPtr - 2 → cf1.mValueStackBuffer i = cf.mValueStackBuffer i) := by
  have r0 : (cf.moveStackPtr (-1)).readStack 0 = cf.mValueStackBuffer (cf.mValueStackPtr - 1) := by
    simp [ControlFlow.readStack, ControlFlow.moveStackPtr]; rfl
  have r1 : (cf.moveStackPtr (-1)).readStack (-1) = cf.mValueStackBuffer (cf.mValueStackPtr - 2) := by
    have e : cf.mValueStackPtr + -1 + -1 = cf.mValueStackPtr - 2 := by omega
    simp [ControlFlow.readStack, ControlFlow.moveStackPtr, e]
  simp only [run_one, translateAndExecute, buildRuntimeOpcodeStatic, bindSelected, select_code,
    finishRuntimeOpcode, RuntimeOpcode.execute, ExecFunc.call, if_neg hp,
    OpcodeExec.exec_WRITE_MEMORY_EXCHANGED, r0, r1]
  have e2 : cf.mValueStackPtr + -1 + -1 = cf.mValueStackPtr - 2 := by omega
  refine ⟨_, rfl, ?_, rfl, ?_, ?_⟩
  · show cf.mValueStackPtr + -1 = cf.mValueStackPtr - 1
    omega
  · simp [ControlFlow.top, ControlFlow.writeStack, ControlFlow.readStack, ControlFlow.moveStackPtr,
      setCell]
  · intro i hi
    simp only [ControlFlow.writeStack, ControlFlow.moveStackPtr, e2]
    exact setCell_other _ _ _ _ hi

/-- Witness for C5: on the stack `0x10, 0x1234` (address below, value on top) the
exchanged `WRITE_MEMORY<u8>` leaves the written byte `0x34` on top of a stack of
one cell and in host memory at `0x10`. -/
theorem write_memory_exchanged_keeps_value_witness :
    ∃ cf1,
      runOpcodes Runtime.plain MemoryAccessHandler.littleEndian RuntimeOpcode.blank
        [⟨.WRITE_MEMORY, BaseType.UINT_8, 1⟩] (ControlFlow.ofStack [0x10, 0x1234]) = .ok cf1 ∧
      cf1.mValueStackPtr = 1 ∧ cf1.top = 0x34 ∧ cf1.mMemory 0x10 = 0x34 := by
  obtain ⟨cf1, hrun, hptr, hmem, htop, _⟩ :=
    write_memory_exchanged_keeps_value Runtime.plain MemoryAccessHandler.littleEndian
      RuntimeOpcode.blank (ControlFlow.ofStack [0x10, 0x1234]) .u8 1 (by decide)
  refine ⟨cf1, hrun, hptr, ?_, ?_⟩
  · rw [htop]; decide
  · rw [hmem]; decide

/-- C6. For every data type `T` (`int_const` read as `u64`): the translated
`READ_MEMORY` with parameter 0 replaces the top cell, the address `a`, by the
`T`-typed value read from host memory at `a`, widened to 64 bits, and keeps the
stack pointer; with parameter 1 it leaves the address cell where it is, writes
the value read at the stack pointer and moves the stack pointer by +1. In both
cases host memory and every other stack cell are unchanged. -/
theorem read_memory_consuming_and_not (rt : Runtime) (h : MemoryAccessHandler)
    (fresh : RuntimeOpcode) (cf : ControlFlow) (D : DataType) :
    (∃ cf1, runOpcodes rt h fresh [⟨.READ_MEMORY, D.code, 0⟩] cf = .ok cf1 ∧
      cf1.mValueStackPtr = cf.mValueStackPtr ∧
      cf1.top = toCell (castTo D.intType (h.read cf.mMemory D.intType (cellAsUInt64 cf.top))) ∧
      (∀ i, i ≠ cf.mValueStackPtr - 1 → cf1.mValueStackBuffer i = cf.mValueStackBuffer i) ∧
      cf1.mMemory = cf.mMemory) ∧
    (∃ cf1, runOpcodes rt h fresh [⟨.READ_MEMORY, D.code, 1⟩] cf = .ok cf1 ∧
      cf1.mValueStackPtr = cf.mValueStackPtr + 1 ∧
      cf1.top = toCell (castTo D.intType (h.read cf.mMemory D.intType (cellAsUInt64 cf.top))) ∧
      cf1.mValueStackBuffer (cf.mValueStackPtr) = cf1.top ∧
      cf1.mValueStackBuffer (cf.mValueStackPtr - 1) = cf.top ∧
      (∀ i, i ≠ cf.mValueStackPtr → cf1.mValueStackBuffer i = cf.mValueStackBuffer i) ∧
      cf1.mMemory = cf.mMemory) := by
  have e1 : cf.mValueStackPtr + -1 = cf.mValueStackPtr - 1 := by omega
  constructor
  · simp only [run_one, translateAndExecute, buildRuntimeOpcodeStatic, bindSelected, select_code,
      finishRuntimeOpcode, RuntimeOpcode.execute, ExecFunc.call, if_true,
      OpcodeExec.exec_READ_MEMORY]
    refine ⟨_, rfl, rfl, ?_, ?_, rfl⟩
    · simp [ControlFlow.top, ControlFlow.writeStack, ControlFlow.readStack, setCell]
    · intro i hi
      simp only [ControlFlow.writeStack, e1]
      exact setCell_other _ _ _ _ hi
  · simp only [run_one, translateAndExecute, buildRuntimeOpcodeStatic, bindSelected, select_code,
      finishRuntimeOpcode, RuntimeOpcode.execute, ExecFunc.call,
      if_neg (show (1 : Int) ≠ 0 by decide), OpcodeExec.exec_READ_MEMORY_NOCONSUME]
    refine ⟨_, rfl, rfl, ?_, ?_, ?_, ?_, rfl⟩
    · simp [ControlFlow.top, ControlFlow.writeStack, ControlFlow.readStack, ControlFlow.moveStackPtr,
        setCell]
    · simp [ControlFlow.top, ControlFlow.writeStack, ControlFlow.readStack, ControlFlow.moveStackPtr,
        setCell]
    · simp [ControlFlow.top, ControlFlow.writeStack, ControlFlow.readStack, ControlFlow.moveStackPtr,
        setCell]
      rw [e1]
    · intro i hi
      simp only [ControlFlow.writeStack, ControlFlow.moveStackPtr, add_zero]
      exact setCell_other _ _ _ _ hi

/-! ## The format interpreter -/

theorem loop_exhausted (resolve : Nat → Option (List Char)) (stream : FastStringStream)
    (fuel : Nat) (fmt : List Char) (argv : Int) (args : List Nat) (result : List Char)
    (h : argv ≤ 0) :
    stringformatLoop resolve stream (fuel + 1) fmt argv args result = .ok (result ++ fmt) := by
  unfold stringformatLoop
  by_cases hf : fmt = []
  · simp [hf]
  · simp [hf, h]

theorem takeWhile_literal (pre tl : List Char) (hpre : ∀ ch ∈ pre, ch ≠ '%') :
    (pre ++ '%' :: tl).takeWhile (fun c => c ≠ '%') = pre := by
  induction pre with
  | nil => simp [List.takeWhile]
  | cons x xs ih =>
    have hx : x ≠ '%' := hpre x (List.mem_cons_self _ _)
    have := ih (fun ch hch => hpre ch (List.mem_cons_of_mem _ hch))
    show List.takeWhile _ (x :: (xs ++ '%' :: tl)) = x :: xs
    rw [List.takeWhile_cons, if_pos (by simpa using hx), this]

theorem dropWhile_literal (pre tl : List Char) (hpre : ∀ ch ∈ pre, ch ≠ '%') :
    (pre ++ '%' :: tl).dropWhile (fun c => c ≠ '%') = '%' :: tl := by
  induction pre with
  | nil => simp [List.dropWhile]
  | cons x xs ih =>
    have hx : x ≠ '%' := hpre x (List.mem_cons_self _ _)
    have := ih (fun ch hch => hpre ch (List.mem_cons_of_mem _ hch))
    show List.dropWhile _ (x :: (xs ++ '%' :: tl)) = '%' :: tl
    rw [List.dropWhile_cons, if_pos (by simpa using hx), this]

/-- One pass of the loop that meets a `'%'` followed by at least one more
character, after a run `pre` of other characters. -/
theorem loop_at_directive (resolve : Nat → Option (List Char)) (stream : FastStringStream)
    (fuel : Nat) (pre : List Char) (c1 : Char) (tl : List Char) (hpre : ∀ ch ∈ pre, ch ≠ '%')
    (argv : Int) (hargv : 0 < argv) (args : List Nat) (result : List Char) :
    stringformatLoop resolve stream (fuel + 1) (pre ++ '%' :: c1 :: tl) argv args result =
      match recogniseDirective resolve ('%' :: c1 :: tl) (tl.length + 2) (result ++ pre) argv args with
      | .error e => .error e
      | .ok d =>
        match outputNumber stream d with
        | .error e => .error e
        | .ok d1 =>
          match advance ('%' :: c1 :: tl) (d1.charsRead + 1) with
          | .error e => .error e
          | .ok fmt2 => stringformatLoop resolve stream fuel fmt2 d1.argv d1.args d1.result := by
  rw [stringformatLoop]
  have h1 : ¬ (pre ++ '%' :: c1 :: tl = []) := by simp
  have h2 : ¬ argv ≤ 0 := by omega
  simp only [h1, h2, if_false, takeWhile_literal pre (c1 :: tl) hpre,
    dropWhile_literal pre (c1 :: tl) hpre]
  simp

theorem isNumberCharacter_of (c : Char) (hc : c = 'd' ∨ c = 'b' ∨ c = 'x') :
    isNumberCharacter c = true ∧ c ≠ '%' ∧ c ≠ 's' := by
  rcases hc with rfl | rfl | rfl <;> decide

theorem digitValue_bounds (w : Char) (lo : Char) (h1 : lo ≤ w) (h2 : w ≤ '9') :
    (lo.toNat : Int) - 48 ≤ digitValue w ∧ digitValue w ≤ 9 := by
  unfold digitValue
  have a1 : lo.toNat ≤ w.toNat := h1
  have a2 : w.toNat ≤ '9'.toNat := h2
  have e0 : '0'.toNat = 48 := by decide
  have e9 : '9'.toNat = 57 := by decide
  omega

theorem loop_plain_number (resolve : Nat → Option (List Char)) (stream : FastStringStream)
    (fuel : Nat) (pre rest : List Char) (hpre : ∀ ch ∈ pre, ch ≠ '%') (c : Char)
    (hc : c = 'd' ∨ c = 'b' ∨ c = 'x') (argv : Int) (hargv : 0 < argv) (a : Nat)
    (args : List Nat) (result : List Char) :
    stringformatLoop resolve stream (fuel + 1) (pre ++ '%' :: c :: rest) argv (a :: args) result =
      stringformatLoop resolve stream fuel rest (argv - 1) args
        (result ++ pre ++ numberText stream c a 0) := by
  obtain ⟨hn, hp, hs⟩ := isNumberCharacter_of c hc
  rw [loop_at_directive resolve stream fuel pre c rest hpre argv hargv]
  simp [recogniseDirective, peek, hn, hp, hs, outputNumber, firstArg, advance]

theorem loop_string (resolve : Nat → Option (List Char)) (stream : FastStringStream)
    (fuel : Nat) (pre rest : List Char) (hpre : ∀ ch ∈ pre, ch ≠ '%') (argv : Int)
    (hargv : 0 < argv) (a : Nat) (args : List Nat) (result : List Char) :
    stringformatLoop resolve stream (fuel + 1) (pre ++ '%' :: 's' :: rest) argv (a :: args) result =
      stringformatLoop resolve stream fuel rest (argv - 1) args
        (result ++ pre ++ stringArgumentText resolve a) := by
  rw [loop_at_directive resolve stream fuel pre 's' rest hpre argv hargv]
  have z1 : ('s' : Char) ≠ '%' := by decide
  simp [recogniseDirective, peek, z1, outputNumber, firstArg, advance]

theorem stringformat_eq_loop (resolve : Nat → Option (List Char)) (stream : FastStringStream)
    (fmt : List Char) (argv : Int) (args : List Nat) (out : List Char)
    (h : stringformatLoop resolve stream (fmt.length + 1) fmt argv args [] = .ok out) :
    stringformat resolve stream (some fmt) argv args = .ok (some out) := by
  simp only [stringformat, h]

/-- C7. As soon as no argument remains, the loop of `stringformat` appends the
whole unprocessed rest of the format verbatim and stops: at the loop head with
`argv <= 0` the result is the output so far followed by the rest, character for
character, so that `stringformat` with no argument returns the format
unchanged; and when a directive (`%d`, `%b`, `%x`, `%s`) consumes the last
argument, everything after that directive is copied verbatim, whatever `'%'`
directives or `%%` escapes it contains. -/
theorem stringformat_rest_verbatim_when_no_argument_remains
    (resolve : Nat → Option (List Char)) (stream : FastStringStream) (fmt : List Char)
    (argv : Int) (args : List Nat) (hargv : argv ≤ 0) :
    (∀ fuel result,
      stringformatLoop resolve stream (fuel + 1) fmt argv args result = .ok (result ++ fmt)) ∧
    stringformat resolve stream (some fmt) argv args = .ok (some fmt) ∧
    (∀ (pre : List Char) (c : Char) (a : Nat) (fuel : Nat) (result : List Char),
      (∀ ch ∈ pre, ch ≠ '%') → (c = 'd' ∨ c = 'b' ∨ c = 'x') →
      stringformatLoop resolve stream (fuel + 2) (pre ++ '%' :: c :: fmt) 1 (a :: args) result =
        .ok (result ++ pre ++ numberText stream c a 0 ++ fmt)) ∧
    (∀ (pre : List Char) (a : Nat) (fuel : Nat) (result : List Char),
      (∀ ch ∈ pre, ch ≠ '%') →
      stringformatLoop resolve stream (fuel + 2) (pre ++ '%' :: 's' :: fmt) 1 (a :: args) result =
        .ok (result ++ pre ++ stringArgumentText resolve a ++ fmt)) ∧
    (∀ (pre : List Char) (c : Char) (a : Nat),
      (∀ ch ∈ pre, ch ≠ '%') → (c = 'd' ∨ c = 'b' ∨ c = 'x') →
      stringformat resolve stream (some (pre ++ '%' :: c :: fmt)) 1 (a :: args) =
        .ok (some (pre ++ numberText stream c a 0 ++ fmt))) := by
  refine ⟨fun fuel result => loop_exhausted resolve stream fuel fmt argv args result hargv, ?_,
    ?_, ?_, ?_⟩
  · apply stringformat_eq_loop
    rw [loop_exhausted resolve stream _ fmt argv args [] hargv]
    rfl
  · intro pre c a fuel result hpre hc
    rw [loop_plain_number resolve stream (fuel + 1) pre fmt hpre c hc 1 (by decide) a args result,
      loop_exhausted resolve stream fuel fmt (1 - 1) args _ (by decide)]
  · intro pre a fuel result hpre
    rw [loop_string resolve stream (fuel + 1) pre fmt hpre 1 (by decide) a args result,
      loop_exhausted resolve stream fuel fmt (1 - 1) args _ (by decide)]
  · intro pre c a hpre hc
    apply stringformat_eq_loop
    have hlen : (pre ++ '%' :: c :: fmt).length + 1 = (pre.length + fmt.length + 1) + 2 := by
      simp only [List.length_append, List.length_cons]; omega
    rw [hlen,
      loop_plain_number resolve stream (pre.length + fmt.length + 1 + 1) pre fmt hpre c hc 1
        (by decide) a args [],
      loop_exhausted resolve stream _ fmt (1 - 1) args _ (by decide)]
    simp

/-- Witness for C7: with the zero-padding number formatter,
`stringformat("%d and %d", 7)` is `"7 and %d"`. -/
theorem stringformat_rest_verbatim_when_no_argument_remains_witness :
    functions.stringformat1 (fun _ => none) FastStringStream.padded (some "%d and %d".toList) 7 =
      .ok (some "7 and %d".toList) :=
  (stringformat_rest_verbatim_when_no_argument_remains (fun _ => none) FastStringStream.padded
    " and %d".toList 0 [] (by decide)).2.2.2.2 [] 'd' 7 (by simp) (Or.inl rfl)

/-- In-range requests of `string_getSubString` give the characters from `index`
up to `min (index + length) (len s)`; `index = len s` gives the empty string. -/
theorem string_getSubString_in_range (s : List Char) (index length : Nat) (h : index ≤ s.length) :
    string_getSubString (some s) index length = .ok (some ((s.drop index).take length)) := by
  have h1 : ¬ s.length < index := by omega
  simp only [string_getSubString, string_view_substr, h1, if_false]
  congr 2
  apply List.take_eq_take.2
  simp only [List.length_drop]
  omega

/-- C9 (failing input). `substring("abc", 4, 1)`: the index is past the end of a
valid string, and the call does not return the empty string but leaves through
the `std::out_of_range` exception of `std::string_view::substr`. -/
theorem string_getSubString_index_past_end_throws :
    string_getSubString (some "abc".toList) 4 1 = .error .out_of_range ∧
    string_getSubString (some "abc".toList) 4 1 ≠ .ok (some []) ∧
    string_getCharacter (some "abc".toList) 4 = .ok 0 := by
  decide

/-- Any index above the length of a valid string makes `string_getSubString`
throw. -/
theorem string_getSubString_out_of_range (s : List Char) (index length : Nat)
    (h : s.length < index) :
    string_getSubString (some s) index length = .error .out_of_range := by
  simp only [string_getSubString, string_view_substr, h, if_true]

/-! ## Opcode types without a case in the translator -/

theorem build_other (rt : Runtime) (fresh : RuntimeOpcode) (code : Nat) (dt : BaseType) (p : Int) :
    buildRuntimeOpcodeStatic rt fresh ⟨.OTHER code, dt, p⟩ =
      .ok ({ fresh with
              mParameter := p
              mExecFunc := .exec_NOT_HANDLED
              mOpcodeType := .OTHER code
              mSuccessiveHandledOpcodes := 0 }, 1) := by
  simp [buildRuntimeOpcodeStatic, finishRuntimeOpcode]

/-- C10 (amended). Translating a static opcode whose type the translator has no
case for is not an error: `buildRuntimeOpcodeStatic` returns normally, consuming
one opcode and leaving a runtime opcode that keeps the `exec_NOT_HANDLED`
handler with a successive-handled count of 0, and `buildRuntimeOpcode` reports
`true`. The error "Unhandled opcode" is raised only when that runtime opcode is
executed. -/
theorem unknown_opcode_type_translates_to_not_handled (rt : Runtime) (h : MemoryAccessHandler)
    (fresh : RuntimeOpcode) (code : Nat) (dt : BaseType) (p : Int) (cf : ControlFlow) :
    ∃ runtimeOpcode,
      buildRuntimeOpcodeStatic rt fresh ⟨.OTHER code, dt, p⟩ = .ok (runtimeOpcode, 1) ∧
      buildRuntimeOpcode rt fresh ⟨.OTHER code, dt, p⟩ = .ok (true, runtimeOpcode, 1) ∧
      runtimeOpcode.mExecFunc = .exec_NOT_HANDLED ∧
      runtimeOpcode.mSuccessiveHandledOpcodes = 0 ∧
      runtimeOpcode.mOpcodeType = .OTHER code ∧
      runtimeOpcode.execute h cf = .error .unhandledOpcode := by
  refine ⟨_, build_other rt fresh code dt p, ?_, rfl, rfl, rfl, rfl⟩
  simp only [buildRuntimeOpcode, build_other]

/-- C10 (counterexample). The static opcode of the unknown type with code 200 is
translated without any error being raised. -/
theorem unknown_opcode_type_is_not_a_translator_error :
    (∃ r, buildRuntimeOpcodeStatic Runtime.plain RuntimeOpcode.blank ⟨.OTHER 200, 0, 0⟩ = .ok r) ∧
    (∀ e, buildRuntimeOpcodeStatic Runtime.plain RuntimeOpcode.blank ⟨.OTHER 200, 0, 0⟩ ≠ .error e) ∧
    (∃ r, buildRuntimeOpcode Runtime.plain RuntimeOpcode.blank ⟨.OTHER 200, 0, 0⟩ = .ok (true, r)) := by
  rw [buildRuntimeOpcode, build_other]
  refine ⟨⟨_, rfl⟩, ?_, ⟨_, rfl⟩⟩
  intro e he
  cases he

/-! ## Fuel of the format loop -/

theorem advance_length (fmt fmt2 : List Char) (n : Nat) (h : advance fmt (n + 1) = .ok fmt2) :
    fmt2.length < fmt.length := by
  unfold advance at h
  split at h
  · cases h
    simp only [List.length_drop]
    omega
  · cases h

theorem advance_ne_outOfFuel (fmt : List Char) (n : Nat) : advance fmt n ≠ .error .outOfFuel := by
  unfold advance
  split <;> simp

theorem peek_ne_outOfFuel (fmt : List Char) (k : Nat) : peek fmt k ≠ .error .outOfFuel := by
  unfold peek
  split <;> simp

theorem firstArg_ne_outOfFuel (args : List Nat) : firstArg args ≠ .error .outOfFuel := by
  unfold firstArg
  split <;> simp

theorem isWidth1Directive_ne_outOfFuel (fmt : List Char) (n : Nat) :
    isWidth1Directive fmt n ≠ .error .outOfFuel := by
  unfold isWidth1Directive
  have := peek_ne_outOfFuel fmt
  repeat' split
  all_goals first | (simp; done) | (intro hc; cases hc; simp_all)

theorem isWidth2Directive_ne_outOfFuel (fmt : List Char) (n : Nat) :
    isWidth2Directive fmt n ≠ .error .outOfFuel := by
  unfold isWidth2Directive
  have := peek_ne_outOfFuel fmt
  repeat' split
  all_goals first | (simp; done) | (intro hc; cases hc; simp_all)

theorem recogniseDirective_ne_outOfFuel (resolve : Nat → Option (List Char)) (fmt : List Char)
    (n : Nat) (result : List Char) (argv : Int) (args : List Nat) :
    recogniseDirective resolve fmt n result argv args ≠ .error .outOfFuel := by
  unfold recogniseDirective
  have h1 := peek_ne_outOfFuel fmt
  have h2 := firstArg_ne_outOfFuel args
  have h3 := isWidth1Directive_ne_outOfFuel fmt n
  have h4 := isWidth2Directive_ne_outOfFuel fmt n
  repeat' split
  all_goals first | (simp; done) | (intro hc; cases hc; simp_all)

theorem outputNumber_ne_outOfFuel (stream : FastStringStream) (d : DirectiveState) :
    outputNumber stream d ≠ .error .outOfFuel := by
  unfold outputNumber
  have h2 := firstArg_ne_outOfFuel d.args
  repeat' split
  all_goals first | (simp; done) | (intro hc; cases hc; simp_all)

/-- The loop of `stringformat` never uses up a fuel above the length of the
format that is left. -/
theorem stringformatLoop_fuel (resolve : Nat → Option (List Char)) (stream : FastStringStream)
    (fuel : Nat) : ∀ (fmt : List Char) (argv : Int) (args : List Nat) (result : List Char),
    fmt.length < fuel → stringformatLoop resolve stream fuel fmt argv args result ≠ .error .outOfFuel := by
  induction fuel with
  | zero => intro fmt argv args result h; omega
  | succ fuel ih =>
    intro fmt argv args result hlen
    rw [stringformatLoop]
    have hdrop : (fmt.dropWhile (fun c => c ≠ '%')).length ≤ fmt.length :=
      (List.dropWhile_sublist _).length_le
    split
    · simp
    split
    · simp
    simp only
    split
    · simp
    split
    · split
      · rename_i e he
        intro hc; cases hc
        exact recogniseDirective_ne_outOfFuel _ _ _ _ _ _ he
      · split
        · rename_i e he
          intro hc; cases hc
          exact outputNumber_ne_outOfFuel _ _ he
        · split
          · rename_i e he
            intro hc; cases hc
            exact advance_ne_outOfFuel _ _ he
          · rename_i fmt2 he
            have := advance_length _ _ _ he
            exact ih _ _ _ _ (by omega)
    · split
      · rename_i e he
        intro hc; cases hc
        exact advance_ne_outOfFuel _ _ he
      · rename_i fmt2 he
        have := advance_length _ _ 0 he
        exact ih _ _ _ _ (by omega)

/-! ## The successive-handled count -/

theorem finish_countMatches (runtimeOpcode : RuntimeOpcode) :
    CountMatchesHandler (finishRuntimeOpcode runtimeOpcode).1 := by
  unfold CountMatchesHandler finishRuntimeOpcode
  constructor
  · intro h
    simp only at h
    simp [h]
  · intro h
    simp only at h
    simp [h]

theorem bindSelected_countMatches (runtimeOpcode : RuntimeOpcode)
    (selected : Except TranslateError ExecFunc) (r : RuntimeOpcode × Nat)
    (h : bindSelected runtimeOpcode selected = .ok r) : CountMatchesHandler r.1 := by
  unfold bindSelected at h
  split at h
  · cases h
    exact finish_countMatches _
  · cases h

theorem build_countMatches (rt : Runtime) (fresh : RuntimeOpcode) (opcode : Opcode)
    (r : RuntimeOpcode × Nat) (h : buildRuntimeOpcodeStatic rt fresh opcode = .ok r) :
    CountMatchesHandler r.1 := by
  unfold buildRuntimeOpcodeStatic at h
  simp only at h
  split at h
  all_goals first
    | (cases h; exact finish_countMatches _)
    | exact bindSelected_countMatches _ _ _ h
    | (split at h <;> exact bindSelected_countMatches _ _ _ h)
    | (cases h; exact ⟨fun _ => rfl, fun hne => absurd (by split <;> rfl) hne⟩)
    | skip
  iterate 6
    split at h
    · cases h; exact finish_countMatches _
  cases h

/-- C11. For every static opcode (every opcode type, data type and parameter), every
runtime and every runtime opcode handed out by the buffer: when
`buildRuntimeOpcodeStatic` returns normally, the resulting runtime opcode has a
successive-handled count of 0 if its handler is `exec_NOT_HANDLED`, and of
exactly 1 otherwise. -/
theorem successive_handled_matches_handler (rt : Runtime) (fresh : RuntimeOpcode)
    (opcode : Opcode) (runtimeOpcode : RuntimeOpcode) (consumed : Nat)
    (h : buildRuntimeOpcodeStatic rt fresh opcode = .ok (runtimeOpcode, consumed)) :
    (runtimeOpcode.mExecFunc = .exec_NOT_HANDLED → runtimeOpcode.mSuccessiveHandledOpcodes = 0) ∧
    (runtimeOpcode.mExecFunc ≠ .exec_NOT_HANDLED → runtimeOpcode.mSuccessiveHandledOpcodes = 1) :=
  build_countMatches rt fresh opcode (runtimeOpcode, consumed) h

/-- Witness for C11: `ARITHM_ADD<i32>` is bound to a handler and counts 1, even
when the runtime opcode handed out carried another count. -/
theorem successive_handled_matches_handler_witness :
    buildRuntimeOpcodeStatic Runtime.plain { RuntimeOpcode.blank with mSuccessiveHandledOpcodes := 7 }
        ⟨.ARITHM_ADD, BaseType.INT_32, 0⟩ =
      .ok ({ mExecFunc := .exec_ARITHM_BINARY_ADD .int32, mParameter := 0, mFlags := 0,
             mOpcodeType := .ARITHM_ADD, mSuccessiveHandledOpcodes := 1 }, 1) ∧
    (ExecFunc.exec_ARITHM_BINARY_ADD .int32 ≠ .exec_NOT_HANDLED → (1 : Nat) = 1) :=
  ⟨by decide,
    (successive_handled_matches_handler Runtime.plain
      { RuntimeOpcode.blank with mSuccessiveHandledOpcodes := 7 }
      ⟨.ARITHM_ADD, BaseType.INT_32, 0⟩
      { mExecFunc := .exec_ARITHM_BINARY_ADD .int32, mParameter := 0, mFlags := 0,
        mOpcodeType := .ARITHM_ADD, mSuccessiveHandledOpcodes := 1 } 1 (by decide)).2⟩

/-! ## Control-transfer opcodes -/

theorem and_flag_ne_zero : (0 ||| RuntimeOpcode.FLAG_CALL_IS_BASE_CALL) &&&
    RuntimeOpcode.FLAG_CALL_IS_BASE_CALL ≠ 0 := by decide

theorem castTo_uint32_code (dt : Nat) (h : dt < 256) : castTo .uint32 (dt : Int) = dt := by
  simp [castTo, IntType.bits, IntType.isSigned]
  omega

/-- C12. For every static opcode of type JUMP, JUMP_CONDITIONAL, CALL, RETURN,
EXTERNAL_CALL or EXTERNAL_JUMP, with any data type code (a `uint8`) and any
parameter, translated into a runtime opcode whose flags are clear: translation
succeeds, the runtime opcode keeps the `exec_NOT_HANDLED` handler, its
successive-handled count is 0, and its `CALL_IS_BASE_CALL` flag is set if and
only if the data type of the static opcode is nonzero. -/
theorem control_transfer_opcodes_are_marked (rt : Runtime) (fresh : RuntimeOpcode)
    (op : OpcodeType) (hop : op ∈ controlTransferOpcodes) (dt : BaseType) (hdt : dt < 256)
    (p : Int) (hfresh : fresh.mFlags = 0) :
    ∃ runtimeOpcode,
      buildRuntimeOpcodeStatic rt fresh ⟨op, dt, p⟩ = .ok (runtimeOpcode, 1) ∧
      runtimeOpcode.mExecFunc = .exec_NOT_HANDLED ∧
      runtimeOpcode.mSuccessiveHandledOpcodes = 0 ∧
      runtimeOpcode.mOpcodeType = op ∧
      (runtimeOpcode.isBaseCall ↔ dt ≠ 0) := by
  have hc := castTo_uint32_code dt hdt
  simp only [controlTransferOpcodes, List.mem_cons, List.mem_singleton, List.not_mem_nil,
    or_false] at hop
  by_cases h0 : dt = 0
  · subst h0
    rcases hop with rfl | rfl | rfl | rfl | rfl | rfl <;>
      exact ⟨_, by simp [buildRuntimeOpcodeStatic, castTo_zero]; rfl, rfl, rfl, rfl,
        by simp [RuntimeOpcode.isBaseCall, hfresh]⟩
  · have hne : castTo .uint32 (dt : Int) ≠ 0 := by rw [hc]; exact_mod_cast h0
    rcases hop with rfl | rfl | rfl | rfl | rfl | rfl <;>
      exact ⟨_, by simp [buildRuntimeOpcodeStatic, hne]; rfl, rfl, rfl, rfl,
        by simp only [RuntimeOpcode.isBaseCall, hfresh]; exact ⟨fun _ => h0, fun _ => and_flag_ne_zero⟩⟩

/-- Witness for C12: a `CALL` with data type marker 1 is flagged as a base call,
keeps the not-handled sentinel and counts 0. -/
theorem control_transfer_opcodes_are_marked_witness :
    ∃ runtimeOpcode,
      buildRuntimeOpcodeStatic Runtime.plain RuntimeOpcode.blank ⟨.CALL, 1, 0⟩
        = .ok (runtimeOpcode, 1) ∧
      runtimeOpcode.mExecFunc = .exec_NOT_HANDLED ∧
      runtimeOpcode.mSuccessiveHandledOpcodes = 0 ∧
      runtimeOpcode.mOpcodeType = .CALL ∧
      (runtimeOpcode.isBaseCall ↔ (1 : Nat) ≠ 0) :=
  control_transfer_opcodes_are_marked Runtime.plain RuntimeOpcode.blank .CALL (by decide) 1
    (by decide) 0 rfl

/-! ## Moving the stack pointers -/

theorem zeroCells_outside (n : Nat) : ∀ (buffer : Int → Int) (start i : Int),
    (i < start ∨ start + n ≤ i) → zeroCells buffer start n i = buffer i := by
  induction n with
  | zero => intro buffer start i _; rfl
  | succ n ih =>
    intro buffer start i h
    rw [zeroCells, ih _ _ _ (by push_cast at h; omega)]
    exact setCell_other _ _ _ _ (by push_cast at h; omega)

theorem zeroCells_inside (n : Nat) : ∀ (buffer : Int → Int) (start i : Int),
    start ≤ i → i < start + n → zeroCells buffer start n i = 0 := by
  induction n with
  | zero => intro buffer start i h1 h2; simp at h2; omega
  | succ n ih =>
    intro buffer start i h1 h2
    rw [zeroCells]
    by_cases hi : i = start
    · subst hi
      rw [zeroCells_outside n _ _ _ (Or.inl (by omega)), setCell_same]
    · exact ih _ _ _ (by omega) (by push_cast at h2; omega)

theorem castTo_int16_of_range (n : Int) (h1 : -32768 ≤ n) (h2 : n ≤ 32767) : castTo .int16 n = n := by
  apply castTo_of_inRange
  simp [IntType.InRange, IntType.minValue, IntType.maxValue, IntType.bits, IntType.isSigned]
  omega

/-- The translated `MOVE_STACK` with a parameter that is not negative runs the
zero-filling handler. -/
theorem run_move_stack_positive (rt : Runtime) (h : MemoryAccessHandler) (fresh : RuntimeOpcode)
    (cf : ControlFlow) (dt : BaseType) (p : Int) (hp : 0 ≤ p) :
    runOpcodes rt h fresh [⟨.MOVE_STACK, dt, p⟩] cf =
      .ok { cf with
            mValueStackBuffer :=
              zeroCells cf.mValueStackBuffer cf.mValueStackPtr (castTo .int16 p).toNat
            mValueStackPtr := cf.mValueStackPtr + castTo .int16 p } := by
  simp only [run_one, translateAndExecute, buildRuntimeOpcodeStatic, finishRuntimeOpcode,
    RuntimeOpcode.execute, ge_iff_le, hp, if_true, ExecFunc.call,
    OpcodeExec.exec_MOVE_STACK_positive, RuntimeOpcodeContext.getParameter]

/-- The translated `MOVE_STACK` with a negative parameter only moves the stack
pointer, by the parameter read as `int16`, or by -1 on the fast path. -/
theorem run_move_stack_negative (rt : Runtime) (h : MemoryAccessHandler) (fresh : RuntimeOpcode)
    (cf : ControlFlow) (dt : BaseType) (p : Int) (hp : p < 0) :
    runOpcodes rt h fresh [⟨.MOVE_STACK, dt, p⟩] cf =
      .ok { cf with
            mValueStackPtr := cf.mValueStackPtr + (if p = -1 then -1 else castTo .int16 p) } ∧
    (buildRuntimeOpcodeStatic rt fresh ⟨.MOVE_STACK, dt, p⟩).toOption.map (fun r => r.1.mExecFunc) =
      some (if p = -1 then .exec_MOVE_STACK_m1 else .exec_MOVE_STACK_negative) := by
  have hp' : ¬ (0 ≤ p) := by omega
  by_cases h1 : p = -1
  · subst h1
    constructor
    · simp only [run_one, translateAndExecute, buildRuntimeOpcodeStatic, finishRuntimeOpcode,
        RuntimeOpcode.execute, ge_iff_le, hp', if_false, if_true, ExecFunc.call,
        OpcodeExec.exec_MOVE_STACK_m1, ControlFlow.moveStackPtr]
    · simp [buildRuntimeOpcodeStatic, finishRuntimeOpcode, Except.toOption]
  · constructor
    · simp only [run_one, translateAndExecute, buildRuntimeOpcodeStatic, finishRuntimeOpcode,
        RuntimeOpcode.execute, ge_iff_le, hp', h1, if_false, ExecFunc.call,
        OpcodeExec.exec_MOVE_STACK_negative, ControlFlow.moveStackPtr,
        RuntimeOpcodeContext.getParameter]
    · simp [buildRuntimeOpcodeStatic, finishRuntimeOpcode, Except.toOption, hp', h1]

/-- C13 (amended). For every static `MOVE_STACK` opcode with parameter `n` in
`0..32767` (the non-negative values of the `int16` the handler reads the
parameter as): translating it and executing the bound handler succeeds, sets
each of the `n` cells `[sp, sp + n)` to 0 and advances the stack pointer by
exactly `n`, so that reading any of the `n` new cells returns 0; every other
cell of the value stack, in particular each one below the original stack
pointer, and every other part of the control flow are unchanged. -/
theorem move_stack_positive_zero_fills (rt : Runtime) (h : MemoryAccessHandler)
    (fresh : RuntimeOpcode) (cf : ControlFlow) (dt : BaseType) (n : Int)
    (h0 : 0 ≤ n) (hmax : n ≤ 32767) :
    ∃ cf1, runOpcodes rt h fresh [⟨.MOVE_STACK, dt, n⟩] cf = .ok cf1 ∧
      cf1.mValueStackPtr = cf.mValueStackPtr + n ∧
      (∀ i, cf.mValueStackPtr ≤ i → i < cf.mValueStackPtr + n → cf1.mValueStackBuffer i = 0) ∧
      (∀ k, 1 ≤ k → k ≤ n → cf1.readStack (-k) = 0) ∧
      (∀ i, i < cf.mValueStackPtr ∨ cf.mValueStackPtr + n ≤ i →
        cf1.mValueStackBuffer i = cf.mValueStackBuffer i) ∧
      cf1.mLocalVariablesBuffer = cf.mLocalVariablesBuffer ∧
      cf1.mLocalVariablesSize = cf.mLocalVariablesSize ∧
      cf1.mMemory = cf.mMemory := by
  have hc : castTo .int16 n = n := castTo_int16_of_range n (by omega) hmax
  have hn : ((n.toNat : Nat) : Int) = n := Int.toNat_of_nonneg h0
  refine ⟨_, run_move_stack_positive rt h fresh cf dt n h0, ?_, ?_, ?_, ?_, rfl, rfl, rfl⟩
  · simp only [hc]
  · intro i h1 h2
    simp only [hc]
    exact zeroCells_inside _ _ _ _ h1 (by rw [hn]; exact h2)
  · intro k h1 h2
    simp only [ControlFlow.readStack, hc]
    exact zeroCells_inside _ _ _ _ (by omega) (by rw [hn]; omega)
  · intro i hi
    simp only [hc]
    exact zeroCells_outside _ _ _ _ (by rw [hn]; exact hi)

/-- Witness for C13: `MOVE_STACK +3` on a stack buffer full of 5s, with the stack
pointer at 0, ends with the stack pointer at 3 and the three new cells 0. -/
theorem move_stack_positive_zero_fills_witness :
    ∃ cf1,
      runOpcodes Runtime.plain MemoryAccessHandler.littleEndian RuntimeOpcode.blank
        [⟨.MOVE_STACK, 0, 3⟩]
        { ControlFlow.ofStack [] with mValueStackBuffer := fun _ => 5 } = .ok cf1 ∧
      cf1.mValueStackPtr = 3 ∧
      cf1.readStack (-1) = 0 ∧ cf1.readStack (-2) = 0 ∧ cf1.readStack (-3) = 0 ∧
      cf1.mValueStackBuffer (-1) = 5 := by
  obtain ⟨cf1, hrun, hptr, _, hread, hout, _⟩ :=
    move_stack_positive_zero_fills Runtime.plain MemoryAccessHandler.littleEndian
      RuntimeOpcode.blank { ControlFlow.ofStack [] with mValueStackBuffer := fun _ => 5 } 0 3
      (by decide) (by decide)
  exact ⟨cf1, hrun, by rw [hptr]; rfl, hread 1 (by decide) (by decide),
    hread 2 (by decide) (by decide), hread 3 (by decide) (by decide),
    by rw [hout (-1) (Or.inl (by decide))]⟩

/-- C13 (counterexample). The static opcode `MOVE_STACK` with parameter 32768 is
translated to the zero-filling handler, which reads the parameter as the
`int16` value -32768: on a stack whose pointer is 0 the pointer ends at -32768,
not at 32768, and the cell at the original stack pointer keeps its content. -/
theorem move_stack_32768_moves_backwards :
    ∃ cf1,
      runOpcodes Runtime.plain MemoryAccessHandler.littleEndian RuntimeOpcode.blank
        [⟨.MOVE_STACK, 0, 32768⟩]
        { ControlFlow.ofStack [] with mValueStackBuffer := fun _ => 5 } = .ok cf1 ∧
      cf1.mValueStackPtr = -32768 ∧
      cf1.mValueStackPtr ≠ (ControlFlow.ofStack []).mValueStackPtr + 32768 ∧
      cf1.mValueStackBuffer 0 = 5 := by
  refine ⟨_, run_move_stack_positive _ _ _ _ 0 32768 (by decide), ?_, ?_, ?_⟩
  · decide
  · decide
  · decide

/-- C14. For every `n` in `1..32767`: executing the translated `MOVE_STACK +n`
and then the translated `MOVE_STACK -n` succeeds and restores the stack pointer;
every value-stack cell below the original stack pointer, the local variable
buffer and size, and all other parts of the control flow are as before. The
second opcode is bound to the `-1` fast-path handler when `n = 1` and to the
general negative handler when `n > 1`. -/
theorem move_stack_up_and_down_restores (rt : Runtime) (h : MemoryAccessHandler)
    (fresh : RuntimeOpcode) (cf : ControlFlow) (d1 d2 : BaseType) (n : Int)
    (h1 : 1 ≤ n) (hmax : n ≤ 32767) :
    ∃ cf2,
      runOpcodes rt h fresh [⟨.MOVE_STACK, d1, n⟩, ⟨.MOVE_STACK, d2, -n⟩] cf = .ok cf2 ∧
      cf2.mValueStackPtr = cf.mValueStackPtr ∧
      (∀ i, i < cf.mValueStackPtr → cf2.mValueStackBuffer i = cf.mValueStackBuffer i) ∧
      cf2.mLocalVariablesBuffer = cf.mLocalVariablesBuffer ∧
      cf2.mLocalVariablesSize = cf.mLocalVariablesSize ∧
      cf2.mCurrentLocalVariables = cf.mCurrentLocalVariables ∧
      cf2.mUserVariables = cf.mUserVariables ∧
      cf2.mHostBytes = cf.mHostBytes ∧
      cf2.mMemory = cf.mMemory ∧
      (buildRuntimeOpcodeStatic rt fresh ⟨.MOVE_STACK, d2, -n⟩).toOption.map
          (fun r => r.1.mExecFunc) =
        some (if n = 1 then .exec_MOVE_STACK_m1 else .exec_MOVE_STACK_negative) := by
  have hc : castTo .int16 n = n := castTo_int16_of_range n (by omega) hmax
  have hcn : castTo .int16 (-n) = -n := castTo_int16_of_range (-n) (by omega) (by omega)
  have hn : ((n.toNat : Nat) : Int) = n := Int.toNat_of_nonneg (by omega)
  have hup := run_move_stack_positive rt h fresh cf d1 n (by omega)
  obtain ⟨hdown, hbind⟩ := run_move_stack_negative rt h fresh
    { cf with
      mValueStackBuffer := zeroCells cf.mValueStackBuffer cf.mValueStackPtr (castTo .int16 n).toNat
      mValueStackPtr := cf.mValueStackPtr + castTo .int16 n } d2 (-n) (by omega)
  have hrun := run_append rt h fresh [⟨.MOVE_STACK, d1, n⟩] [⟨.MOVE_STACK, d2, -n⟩] cf _ hup
  rw [hdown] at hrun
  have hmove : (if -n = -1 then (-1 : Int) else castTo .int16 (-n)) = -n := by
    split
    · omega
    · exact hcn
  have hif : (-n = -1) ↔ (n = 1) := by omega
  refine ⟨_, hrun, ?_, ?_, rfl, rfl, rfl, rfl, rfl, rfl, ?_⟩
  · show cf.mValueStackPtr + castTo .int16 n + _ = cf.mValueStackPtr
    rw [hmove, hc]; omega
  · intro i hi
    show zeroCells _ _ _ i = _
    exact zeroCells_outside _ _ _ _ (Or.inl hi)
  · rw [hbind]
    simp only [hif]

/-- Witness for C14: `MOVE_STACK +3` then `MOVE_STACK -3` on the stack `7, 8`
ends with the stack pointer at 2 and the two cells intact. -/
theorem move_stack_up_and_down_restores_witness :
    ∃ cf2,
      runOpcodes Runtime.plain MemoryAccessHandler.littleEndian RuntimeOpcode.blank
        [⟨.MOVE_STACK, 0, 3⟩, ⟨.MOVE_STACK, 0, -3⟩] (ControlFlow.ofStack [7, 8]) = .ok cf2 ∧
      cf2.mValueStackPtr = 2 ∧ cf2.mValueStackBuffer 0 = 7 ∧ cf2.mValueStackBuffer 1 = 8 := by
  obtain ⟨cf2, hrun, hptr, hcells, _⟩ :=
    move_stack_up_and_down_restores Runtime.plain MemoryAccessHandler.littleEndian
      RuntimeOpcode.blank (ControlFlow.ofStack [7, 8]) 0 0 3 (by decide) (by decide)
  exact ⟨cf2, hrun, hptr, by rw [hcells 0 (by decide)]; rfl, by rw [hcells 1 (by decide)]; rfl⟩

/-! ## Moving the local variable stack -/

/-- C15 (amended). For a translated `MOVE_VAR_STACK` with parameter `+n`, `n` in
`0..32767`: the handler succeeds, the `n` local variable cells at indices
`[size, size + n)` become 0, the local variable size grows by `n`, and every
other cell of the buffer is unchanged. For a translated `MOVE_VAR_STACK` with
parameter `-n`, `n` in `1..32768`: the local variable size shrinks by `n` and
no cell of the local variable buffer is modified. In both cases the value stack
and its pointer are unchanged. The bounds are those of the `int16` the handlers
read the parameter as. -/
theorem move_var_stack_grows_and_shrinks (rt : Runtime) (h : MemoryAccessHandler)
    (fresh : RuntimeOpcode) (cf : ControlFlow) (dt : BaseType) (n : Int) :
    (0 ≤ n → n ≤ 32767 →
      ∃ cf1, runOpcodes rt h fresh [⟨.MOVE_VAR_STACK, dt, n⟩] cf = .ok cf1 ∧
        cf1.mLocalVariablesSize = cf.mLocalVariablesSize + n ∧
        (∀ i, cf.mLocalVariablesSize ≤ i → i < cf.mLocalVariablesSize + n →
          cf1.mLocalVariablesBuffer i = 0) ∧
        (∀ i, i < cf.mLocalVariablesSize ∨ cf.mLocalVariablesSize + n ≤ i →
          cf1.mLocalVariablesBuffer i = cf.mLocalVariablesBuffer i) ∧
        cf1.mValueStackBuffer = cf.mValueStackBuffer ∧
        cf1.mValueStackPtr = cf.mValueStackPtr) ∧
    (1 ≤ n → n ≤ 32768 →
      ∃ cf1, runOpcodes rt h fresh [⟨.MOVE_VAR_STACK, dt, -n⟩] cf = .ok cf1 ∧
        cf1.mLocalVariablesSize = cf.mLocalVariablesSize - n ∧
        cf1.mLocalVariablesBuffer = cf.mLocalVariablesBuffer ∧
        cf1.mValueStackBuffer = cf.mValueStackBuffer ∧
        cf1.mValueStackPtr = cf.mValueStackPtr) := by
  constructor
  · intro h0 hmax
    have hc : castTo .int16 n = n := castTo_int16_of_range n (by omega) hmax
    have hn : ((n.toNat : Nat) : Int) = n := Int.toNat_of_nonneg h0
    have hlt : ¬ n < 0 := by omega
    simp only [run_one, translateAndExecute, buildRuntimeOpcodeStatic, finishRuntimeOpcode,
      RuntimeOpcode.execute, ge_iff_le, h0, if_true, ExecFunc.call,
      OpcodeExec.exec_MOVE_VAR_STACK_positive, RuntimeOpcodeContext.getParameter, hc, hlt, if_false]
    refine ⟨_, rfl, rfl, ?_, ?_, rfl, rfl⟩
    · intro i i1 i2
      exact zeroCells_inside _ _ _ _ i1 (by rw [hn]; exact i2)
    · intro i hi
      exact zeroCells_outside _ _ _ _ (by rw [hn]; exact hi)
  · intro h1 hmax
    have hc : castTo .int16 (-n) = -n := castTo_int16_of_range (-n) (by omega) (by omega)
    have hneg : ¬ (0 ≤ -n) := by omega
    simp only [run_one, translateAndExecute, buildRuntimeOpcodeStatic, finishRuntimeOpcode,
      RuntimeOpcode.execute, ge_iff_le, hneg, if_false, ExecFunc.call,
      OpcodeExec.exec_MOVE_VAR_STACK_negative, RuntimeOpcodeContext.getParameter, hc]
    exact ⟨_, rfl, by show cf.mLocalVariablesSize + -n = _; omega, rfl, rfl, rfl⟩

/-- Witness for C15: with a local variable size of 0, `MOVE_VAR_STACK +2` gives
size 2; with a size of 5, `MOVE_VAR_STACK -2` gives size 3. -/
theorem move_var_stack_grows_and_shrinks_witness :
    (∃ cf1,
      runOpcodes Runtime.plain MemoryAccessHandler.littleEndian RuntimeOpcode.blank
        [⟨.MOVE_VAR_STACK, 0, 2⟩] (ControlFlow.ofStack [9]) = .ok cf1 ∧
      cf1.mLocalVariablesSize = 2 ∧ cf1.mValueStackPtr = 1) ∧
    (∃ cf1,
      runOpcodes Runtime.plain MemoryAccessHandler.littleEndian RuntimeOpcode.blank
        [⟨.MOVE_VAR_STACK, 0, -2⟩]
        { ControlFlow.ofStack [9] with mLocalVariablesSize := 5 } = .ok cf1 ∧
      cf1.mLocalVariablesSize = 3 ∧ cf1.mValueStackPtr = 1) := by
  obtain ⟨cf1, hrun, hsize, _, _, _, hptr⟩ :=
    (move_var_stack_grows_and_shrinks Runtime.plain MemoryAccessHandler.littleEndian
      RuntimeOpcode.blank (ControlFlow.ofStack [9]) 0 2).1 (by decide) (by decide)
  obtain ⟨cf2, hrun2, hsize2, _, _, hptr2⟩ :=
    (move_var_stack_grows_and_shrinks Runtime.plain MemoryAccessHandler.littleEndian
      RuntimeOpcode.blank { ControlFlow.ofStack [9] with mLocalVariablesSize := 5 } 0 2).2
      (by decide) (by decide)
  exact ⟨⟨cf1, hrun, by rw [hsize]; rfl, by rw [hptr]; rfl⟩,
    ⟨cf2, hrun2, by rw [hsize2]; rfl, by rw [hptr2]; rfl⟩⟩

/-- C15 (counterexample). The static opcode `MOVE_VAR_STACK` with parameter
-40000 is bound to the shrinking handler, which reads the parameter as the
`int16` value 25536: a local variable size of 50000 becomes 75536, not 10000. -/
theorem move_var_stack_minus_40000_grows :
    (castTo .int16 (-40000) = 25536) ∧
    ∃ cf1,
      runOpcodes Runtime.plain MemoryAccessHandler.littleEndian RuntimeOpcode.blank
        [⟨.MOVE_VAR_STACK, 0, -40000⟩]
        { ControlFlow.ofStack [] with mLocalVariablesSize := 50000 } = .ok cf1 ∧
      cf1.mLocalVariablesSize = 75536 ∧
      cf1.mLocalVariablesSize ≠ 50000 - 40000 := by
  refine ⟨by decide, ?_⟩
  simp only [run_one, translateAndExecute, buildRuntimeOpcodeStatic, finishRuntimeOpcode,
    RuntimeOpcode.execute, ge_iff_le, ExecFunc.call,
    OpcodeExec.exec_MOVE_VAR_STACK_negative, RuntimeOpcodeContext.getParameter,
    if_neg (show ¬ ((0 : Int) ≤ -40000) by decide)]
  exact ⟨_, rfl, by decide, by decide⟩

/-- The growing direction past the `int16` range: `MOVE_VAR_STACK` with parameter
40000 is bound to the zero-filling handler, which reads the count -25536 and
hands `memset` a size that no buffer has. -/
theorem move_var_stack_40000_faults :
    runOpcodes Runtime.plain MemoryAccessHandler.littleEndian RuntimeOpcode.blank
      [⟨.MOVE_VAR_STACK, 0, 40000⟩] (ControlFlow.ofStack []) = .error (.exec .invalidMemset) := by
  rfl

/-! ## Casts and boolean coercion -/

theorem run_cast_value (rt : Runtime) (h : MemoryAccessHandler) (fresh : RuntimeOpcode)
    (cf : ControlFlow) (D : DataType) (hD : D ∈ castTargets) (dt : BaseType) (p : Int)
    (hrt : rt.getCastExecType ⟨.CAST_VALUE, dt, p⟩ = D.code) :
    runOpcodes rt h fresh [⟨.CAST_VALUE, dt, p⟩] cf =
      .ok (cf.writeStack (-1) (castTo D.intType (cf.readStack (-1)))) := by
  simp only [castTargets, List.mem_cons, List.mem_singleton, List.not_mem_nil, or_false] at hD
  rcases hD with rfl | rfl | rfl | rfl | rfl | rfl <;>
    simp [run_one, translateAndExecute, buildRuntimeOpcodeStatic, finishRuntimeOpcode,
      RuntimeOpcode.execute, ExecFunc.call, OpcodeExec.exec_CAST_VALUE, hrt, DataType.code,
      DataType.intType, BaseType.INT_8, BaseType.INT_16, BaseType.INT_32, BaseType.UINT_8,
      BaseType.UINT_16, BaseType.UINT_32]

theorem toCell_castTo_narrow (D : DataType) (hD : D ∈ castTargets) (v : Int) :
    toCell (castTo D.intType v) = castTo D.intType v := by
  apply castTo_of_inRange
  have := castTo_inRange D.intType v
  simp only [castTargets, List.mem_cons, List.mem_singleton, List.not_mem_nil, or_false] at hD
  rcases hD with rfl | rfl | rfl | rfl | rfl | rfl <;>
    simp [DataType.intType, IntType.InRange, IntType.minValue, IntType.maxValue, IntType.bits,
      IntType.isSigned] at this ⊢ <;> omega

theorem castTo_formula (T : IntType) (v : Int) :
    (T.isSigned = false → castTo T v = v % 2 ^ T.bits) ∧
    (T.isSigned = true →
      castTo T v = (v + 2 ^ (T.bits - 1)) % 2 ^ T.bits - 2 ^ (T.bits - 1)) := by
  cases T <;> simp [castTo, IntType.bits, IntType.isSigned] <;> omega

theorem castTo_emod (T : IntType) (v : Int) : castTo T v % 2 ^ T.bits = v % 2 ^ T.bits := by
  cases T <;> simp [castTo, IntType.bits, IntType.isSigned] <;> omega

theorem writeStack_top (cf : ControlFlow) (v : Int) :
    (cf.writeStack (-1) v).top = toCell v := by
  simp [ControlFlow.top, ControlFlow.writeStack, ControlFlow.readStack, setCell]

theorem writeStack_other (cf : ControlFlow) (v : Int) (i : Int) (hi : i ≠ cf.mValueStackPtr - 1) :
    (cf.writeStack (-1) v).mValueStackBuffer i = cf.mValueStackBuffer i := by
  have e : cf.mValueStackPtr + -1 = cf.mValueStackPtr - 1 := by omega
  simp only [ControlFlow.writeStack, e]
  exact setCell_other _ _ _ _ hi

/-- Writing the top cell twice keeps the second value. -/
theorem writeStack_writeStack (cf : ControlFlow) (v w : Int) :
    (cf.writeStack (-1) v).writeStack (-1) w = cf.writeStack (-1) w := by
  simp only [ControlFlow.writeStack]
  congr 1
  funext j
  simp only [setCell]
  split <;> rfl

/-- Writing back what the top cell holds changes nothing. -/
theorem writeStack_self (cf : ControlFlow) (v : Int) (hv : toCell v = cf.top) :
    cf.writeStack (-1) v = cf := by
  cases cf
  simp only [ControlFlow.writeStack, ControlFlow.top, ControlFlow.readStack] at hv ⊢
  congr 1
  funext j
  simp only [setCell]
  split
  · rename_i hj; rw [hv, hj]
  · rfl

/-- C16. For every cast target `T` among `i8, i16, i32, u8, u16, u32` and every
top cell `v`: the translated `CAST_VALUE`, whose cast-exec-type is `T`, succeeds
and replaces the top cell by `v` truncated to the width of `T` and then
sign-extended (signed `T`) or zero-extended (unsigned `T`) to 64 bits, the one
value of type `T` congruent to `v` modulo `2 ^ bits(T)`; the stack pointer and
all other cells are unchanged. -/
theorem cast_value_truncates_and_extends (rt : Runtime) (h : MemoryAccessHandler)
    (fresh : RuntimeOpcode) (cf : ControlFlow) (D : DataType) (hD : D ∈ castTargets)
    (dt : BaseType) (p : Int) (hrt : rt.getCastExecType ⟨.CAST_VALUE, dt, p⟩ = D.code) :
    ∃ cf1, runOpcodes rt h fresh [⟨.CAST_VALUE, dt, p⟩] cf = .ok cf1 ∧
      cf1.mValueStackPtr = cf.mValueStackPtr ∧
      cf1.top = castTo D.intType cf.top ∧
      D.intType.InRange cf1.top ∧
      cf1.top % 2 ^ D.intType.bits = cf.top % 2 ^ D.intType.bits ∧
      (D.intType.isSigned = false → cf1.top = cf.top % 2 ^ D.intType.bits) ∧
      (D.intType.isSigned = true →
        cf1.top = (cf.top + 2 ^ (D.intType.bits - 1)) % 2 ^ D.intType.bits
          - 2 ^ (D.intType.bits - 1)) ∧
      (∀ i, i ≠ cf.mValueStackPtr - 1 → cf1.mValueStackBuffer i = cf.mValueStackBuffer i) := by
  have htop : (cf.writeStack (-1) (castTo D.intType (cf.readStack (-1)))).top
      = castTo D.intType cf.top := by
    rw [writeStack_top, toCell_castTo_narrow D hD]; rfl
  obtain ⟨hu, hs⟩ := castTo_formula D.intType cf.top
  refine ⟨_, run_cast_value rt h fresh cf D hD dt p hrt, rfl, htop, ?_, ?_, ?_, ?_, ?_⟩
  · rw [htop]; exact castTo_inRange _ _
  · rw [htop]; exact castTo_emod _ _
  · intro hsg; rw [htop]; exact hu hsg
  · intro hsg; rw [htop]; exact hs hsg
  · intro i hi
    exact writeStack_other _ _ _ hi

/-- Witness for C16: `push 0xFF; CAST_VALUE<i8>; CAST_VALUE<i32>` leaves -1 on
top of a stack of one cell. -/
theorem cast_value_truncates_and_extends_witness :
    ∃ cf2,
      runOpcodes Runtime.plain MemoryAccessHandler.littleEndian RuntimeOpcode.blank
        [⟨.CAST_VALUE, BaseType.INT_8, 0⟩, ⟨.CAST_VALUE, BaseType.INT_32, 0⟩]
        (ControlFlow.ofStack [0xFF]) = .ok cf2 ∧
      cf2.top = -1 ∧ cf2.mValueStackPtr = 1 := by
  obtain ⟨cf1, hrun1, hptr1, htop1, _⟩ :=
    cast_value_truncates_and_extends Runtime.plain MemoryAccessHandler.littleEndian
      RuntimeOpcode.blank (ControlFlow.ofStack [0xFF]) .i8 (by decide) BaseType.INT_8 0 rfl
  obtain ⟨cf2, hrun2, hptr2, htop2, _⟩ :=
    cast_value_truncates_and_extends Runtime.plain MemoryAccessHandler.littleEndian
      RuntimeOpcode.blank cf1 .i32 (by decide) BaseType.INT_32 0 rfl
  have hrun := run_append Runtime.plain MemoryAccessHandler.littleEndian RuntimeOpcode.blank
    [⟨.CAST_VALUE, BaseType.INT_8, 0⟩] [⟨.CAST_VALUE, BaseType.INT_32, 0⟩] _ cf1 hrun1
  rw [hrun2] at hrun
  refine ⟨cf2, hrun, ?_, ?_⟩
  · rw [htop2, htop1]; decide
  · rw [hptr2, hptr1]; rfl

/-- C17. `CAST_VALUE<T>` is idempotent: for every cast target `T` and every
control flow, executing the translated opcode twice in succession succeeds and
leaves the very control flow that executing it once leaves; and when the top
cell already holds a value representable in `T`, executing it changes nothing
at all. -/
theorem cast_value_is_idempotent (rt : Runtime) (h : MemoryAccessHandler)
    (fresh : RuntimeOpcode) (cf : ControlFlow) (D : DataType) (hD : D ∈ castTargets)
    (dt : BaseType) (p : Int) (hrt : rt.getCastExecType ⟨.CAST_VALUE, dt, p⟩ = D.code) :
    ∃ cf1, runOpcodes rt h fresh [⟨.CAST_VALUE, dt, p⟩] cf = .ok cf1 ∧
      runOpcodes rt h fresh [⟨.CAST_VALUE, dt, p⟩] cf1 = .ok cf1 ∧
      runOpcodes rt h fresh [⟨.CAST_VALUE, dt, p⟩, ⟨.CAST_VALUE, dt, p⟩] cf = .ok cf1 ∧
      (D.intType.InRange cf.top → cf1 = cf) := by
  have hrun1 := run_cast_value rt h fresh cf D hD dt p hrt
  have hrun2 := run_cast_value rt h fresh
    (cf.writeStack (-1) (castTo D.intType (cf.readStack (-1)))) D hD dt p hrt
  have hread : (cf.writeStack (-1) (castTo D.intType (cf.readStack (-1)))).readStack (-1)
      = castTo D.intType (cf.readStack (-1)) := by
    have := writeStack_top cf (castTo D.intType (cf.readStack (-1)))
    rw [toCell_castTo_narrow D hD] at this
    exact this
  rw [hread, castTo_castTo, writeStack_writeStack] at hrun2
  refine ⟨_, hrun1, hrun2, ?_, ?_⟩
  · have := run_append rt h fresh [⟨.CAST_VALUE, dt, p⟩] [⟨.CAST_VALUE, dt, p⟩] cf _ hrun1
    rw [hrun2] at this
    exact this
  · intro hin
    apply writeStack_self
    rw [toCell_castTo_narrow D hD]
    exact castTo_of_inRange _ _ hin

/-- Witness for C17: on the stack `0x1FF`, `CAST_VALUE<u8>` once and twice both
leave 0xFF on top; on the stack `0x7F` it changes nothing. -/
theorem cast_value_is_idempotent_witness :
    (∃ cf1,
      runOpcodes Runtime.plain MemoryAccessHandler.littleEndian RuntimeOpcode.blank
        [⟨.CAST_VALUE, BaseType.UINT_8, 0⟩] (ControlFlow.ofStack [0x1FF]) = .ok cf1 ∧
      runOpcodes Runtime.plain MemoryAccessHandler.littleEndian RuntimeOpcode.blank
        [⟨.CAST_VALUE, BaseType.UINT_8, 0⟩, ⟨.CAST_VALUE, BaseType.UINT_8, 0⟩]
        (ControlFlow.ofStack [0x1FF]) = .ok cf1) ∧
    runOpcodes Runtime.plain MemoryAccessHandler.littleEndian RuntimeOpcode.blank
      [⟨.CAST_VALUE, BaseType.UINT_8, 0⟩] (ControlFlow.ofStack [0x7F])
      = .ok (ControlFlow.ofStack [0x7F]) := by
  obtain ⟨cf1, hrun1, _, hrun2, _⟩ :=
    cast_value_is_idempotent Runtime.plain MemoryAccessHandler.littleEndian
      RuntimeOpcode.blank (ControlFlow.ofStack [0x1FF]) .u8 (by decide) BaseType.UINT_8 0 rfl
  obtain ⟨cf3, hrun3, _, _, hsame⟩ :=
    cast_value_is_idempotent Runtime.plain MemoryAccessHandler.littleEndian
      RuntimeOpcode.blank (ControlFlow.ofStack [0x7F]) .u8 (by decide) BaseType.UINT_8 0 rfl
  refine ⟨⟨cf1, hrun1, hrun2⟩, ?_⟩
  rw [hrun3, hsame (by decide)]

/-- C18. `MAKE_BOOL` maps every nonzero top cell to 1 and the zero cell to 0,
leaves the stack pointer and all other cells unchanged, and is idempotent:
executing it twice leaves the very control flow that executing it once leaves,
for every cell. -/
theorem make_bool_normalises_and_is_idempotent (rt : Runtime) (h : MemoryAccessHandler)
    (fresh : RuntimeOpcode) (cf : ControlFlow) (dt : BaseType) (p : Int) :
    ∃ cf1, runOpcodes rt h fresh [⟨.MAKE_BOOL, dt, p⟩] cf = .ok cf1 ∧
      cf1.top = (if cf.top = 0 then 0 else 1) ∧
      cf1.mValueStackPtr = cf.mValueStackPtr ∧
      (∀ i, i ≠ cf.mValueStackPtr - 1 → cf1.mValueStackBuffer i = cf.mValueStackBuffer i) ∧
      runOpcodes rt h fresh [⟨.MAKE_BOOL, dt, p⟩] cf1 = .ok cf1 ∧
      runOpcodes rt h fresh [⟨.MAKE_BOOL, dt, p⟩, ⟨.MAKE_BOOL, dt, p⟩] cf = .ok cf1 := by
  have hrun : ∀ c : ControlFlow, runOpcodes rt h fresh [⟨.MAKE_BOOL, dt, p⟩] c =
      .ok (c.writeStack (-1) (if c.readStack (-1) ≠ 0 then 1 else 0)) := by
    intro c
    simp only [run_one, translateAndExecute, buildRuntimeOpcodeStatic, finishRuntimeOpcode,
      RuntimeOpcode.execute, ExecFunc.call, OpcodeExec.exec_MAKE_BOOL]
  have hcell : ∀ b : Int, toCell (if b ≠ 0 then 1 else 0) = (if b = 0 then 0 else 1) := by
    intro b
    by_cases hb : b = 0
    · simp [hb]; decide
    · simp [hb]; decide
  have htop : (cf.writeStack (-1) (if cf.readStack (-1) ≠ 0 then 1 else 0)).top
      = (if cf.top = 0 then 0 else 1) := by
    rw [writeStack_top, hcell]; rfl
  have hagain : runOpcodes rt h fresh [⟨.MAKE_BOOL, dt, p⟩]
      (cf.writeStack (-1) (if cf.readStack (-1) ≠ 0 then 1 else 0))
      = .ok (cf.writeStack (-1) (if cf.readStack (-1) ≠ 0 then 1 else 0)) := by
    rw [hrun, writeStack_writeStack]
    congr 2
    have : (cf.writeStack (-1) (if cf.readStack (-1) ≠ 0 then 1 else 0)).readStack (-1)
        = (if cf.top = 0 then 0 else 1) := htop
    rw [this]
    show _ = (if cf.top ≠ 0 then (1 : Int) else 0)
    by_cases hb : cf.top = 0
    · simp [hb]
    · simp [hb]
  refine ⟨_, hrun cf, htop, rfl, fun i hi => writeStack_other _ _ _ hi, hagain, ?_⟩
  have := run_append rt h fresh [⟨.MAKE_BOOL, dt, p⟩] [⟨.MAKE_BOOL, dt, p⟩] cf _ (hrun cf)
  rw [hagain] at this
  exact this

/-! ## Escapes and unrecognised sequences in the format -/

/-- C19. While an argument remains (`argv > 0`), a pass of the loop that meets,
after a run `pre` of characters other than `'%'`, the two characters `%%`
appends a single `'%'`, goes on behind exactly these 2 characters, and consumes
no argument: the argument count and the argument array are passed on as they
are. -/
theorem stringformat_percent_escape (resolve : Nat → Option (List Char))
    (stream : FastStringStream) (fuel : Nat) (pre rest : List Char)
    (hpre : ∀ ch ∈ pre, ch ≠ '%') (argv : Int) (hargv : 0 < argv) (args : List Nat)
    (result : List Char) :
    stringformatLoop resolve stream (fuel + 1) (pre ++ '%' :: '%' :: rest) argv args result =
      stringformatLoop resolve stream fuel rest argv args (result ++ pre ++ ['%']) := by
  rw [loop_at_directive resolve stream fuel pre '%' rest hpre argv hargv]
  simp [recogniseDirective, peek, outputNumber, advance]

/-- Witness for C19: with the zero-padding number formatter,
`stringformat("%%%d", 5)` is `'%'` followed by the decimal rendering of 5. -/
theorem stringformat_percent_escape_witness :
    functions.stringformat1 (fun _ => none) FastStringStream.padded (some "%%%d".toList) 5 =
      .ok (some "%5".toList) :=
  stringformat_eq_loop _ _ "%%%d".toList 1 [5] "%5".toList
    ((stringformat_percent_escape (fun _ => none) FastStringStream.padded 4 [] "%d".toList
      (by simp) 1 (by decide) [5] []).trans rfl)

theorem loop_at_final_percent (resolve : Nat → Option (List Char)) (stream : FastStringStream)
    (fuel : Nat) (pre : List Char) (hpre : ∀ ch ∈ pre, ch ≠ '%')
    (argv : Int) (hargv : 0 < argv) (args : List Nat) (result : List Char) :
    stringformatLoop resolve stream (fuel + 1) (pre ++ ['%']) argv args result =
      stringformatLoop resolve stream fuel [] argv args (result ++ pre ++ ['%']) := by
  rw [stringformatLoop]
  have h1 : ¬ (pre ++ ['%'] = []) := by simp
  have h2 : ¬ argv ≤ 0 := by omega
  simp only [h1, h2, if_false, takeWhile_literal pre [] hpre, dropWhile_literal pre [] hpre]
  simp [advance]

theorem recognise_unrecognised (resolve : Nat → Option (List Char)) (c1 : Char) (tl : List Char)
    (hcase : startsRecognisedDirective (c1 :: tl) = false) (result : List Char) (argv : Int)
    (args : List Nat) :
    recogniseDirective resolve ('%' :: c1 :: tl) (tl.length + 2) result argv args =
      .ok { result := result ++ ['%'], argv := argv, args := args,
            numberOutputCharacter := none, minDigits := 0, charsRead := 0 } := by
  simp only [startsRecognisedDirective, Bool.or_eq_false_iff, decide_eq_false_iff_not,
    Bool.and_eq_false_iff] at hcase
  obtain ⟨⟨⟨⟨⟨hp, hs⟩, hd⟩, hb⟩, hx⟩, hw⟩ := hcase
  have hnum : isNumberCharacter c1 = false := by simp [isNumberCharacter, hd, hb, hx]
  by_cases h0 : c1 = '0'
  · subst h0
    have z1 : ('0' : Char) ≠ '%' := by decide
    have z2 : ('0' : Char) ≠ 's' := by decide
    rcases hw with hw | hw
    · exact absurd hw (by decide)
    · rcases tl with _ | ⟨w, _ | ⟨c, _ | ⟨k, more⟩⟩⟩
      · simp [recogniseDirective, peek, z1, z2, hnum, isWidth1Directive, isWidth2Directive]
      · simp [recogniseDirective, peek, z1, z2, hnum, isWidth1Directive, isWidth2Directive]
      · simp only [Bool.and_eq_false_iff, Bool.or_eq_false_iff, decide_eq_false_iff_not,
          Bool.and_false] at hw
        by_cases hr : '1' ≤ w ∧ w ≤ '9'
        · have hc : isNumberCharacter c = false := by
            rcases hw with hw | hw
            · exact absurd hr (by tauto)
            · simp [isNumberCharacter, hw.1.1.1, hw.1.1.2, hw.1.2]
          simp [recogniseDirective, peek, z1, z2, hnum, isWidth1Directive, isWidth2Directive, hr, hc]
        · simp [recogniseDirective, peek, z1, z2, hnum, isWidth1Directive, isWidth2Directive, hr]
      · simp only [Bool.and_eq_false_iff, Bool.or_eq_false_iff, decide_eq_false_iff_not,
          Bool.and_false] at hw
        by_cases hr : '1' ≤ w ∧ w ≤ '9'
        · have hw' := hw.resolve_left (by tauto)
          have hc : isNumberCharacter c = false := by
            simp [isNumberCharacter, hw'.1.1.1, hw'.1.1.2, hw'.1.2]
          by_cases hv : '0' ≤ c ∧ c ≤ '9'
          · have hk : isNumberCharacter k = false := by
              have hk' := hw'.2.resolve_left (by tauto)
              simp [isNumberCharacter, hk'.1.1, hk'.1.2, hk'.2]
            simp [recogniseDirective, peek, z1, z2, hnum, isWidth1Directive, isWidth2Directive, hr,
              hc, hv, hk]
          · simp [recogniseDirective, peek, z1, z2, hnum, isWidth1Directive, isWidth2Directive, hr,
              hc, hv]
        · simp [recogniseDirective, peek, z1, z2, hnum, isWidth1Directive, isWidth2Directive, hr]
  · simp [recogniseDirective, peek, hp, hs, hnum, isWidth1Directive, isWidth2Directive, h0]

/-- C20. While an argument remains (`argv > 0`), for every `'%'` of the format
whose following characters `tl` do not start one of the recognised directives
(`%%`, `%s`, `%d`, `%b`, `%x`, `%0W` + `d|b|x`, `%0WV` + `d|b|x`), the `'%'` that
ends the format included: the pass of the loop that meets it, after a run `pre`
of other characters, appends that `'%'` verbatim, consumes no argument, and goes
on with the character immediately after the `'%'`. -/
theorem stringformat_unrecognised_percent_is_literal (resolve : Nat → Option (List Char))
    (stream : FastStringStream) (fuel : Nat) (pre tl : List Char)
    (hpre : ∀ ch ∈ pre, ch ≠ '%') (hcase : startsRecognisedDirective tl = false)
    (argv : Int) (hargv : 0 < argv) (args : List Nat) (result : List Char) :
    stringformatLoop resolve stream (fuel + 1) (pre ++ '%' :: tl) argv args result =
      stringformatLoop resolve stream fuel tl argv args (result ++ pre ++ ['%']) := by
  rcases tl with _ | ⟨c1, tl⟩
  · exact loop_at_final_percent resolve stream fuel pre hpre argv hargv args result
  · rw [loop_at_directive resolve stream fuel pre c1 tl hpre argv hargv,
      recognise_unrecognised resolve c1 tl hcase]
    simp [outputNumber, advance]

/-- Witness for C20: with one argument, `stringformat("50% of %q", 9)` copies both
`'%'` characters and consumes nothing. -/
theorem stringformat_unrecognised_percent_is_literal_witness :
    functions.stringformat1 (fun _ => none) FastStringStream.padded (some "50% of %q".toList) 9 =
      .ok (some "50% of %q".toList) :=
  stringformat_eq_loop _ _ "50% of %q".toList 1 [9] "50% of %q".toList
    ((stringformat_unrecognised_percent_is_literal (fun _ => none) FastStringStream.padded 9
      "50".toList " of %q".toList (by decide) (by decide) 1 (by decide) [9] []).trans rfl)

/-- The `'%'` that ends the format is copied as well: with one argument,
`stringformat("100%", 9)` is `"100%"`. -/
theorem stringformat_final_percent :
    functions.stringformat1 (fun _ => none) FastStringStream.padded (some "100%".toList) 9 =
      .ok (some "100%".toList) := by
  decide

/-! ## String arguments, characters and absolute values -/

/-- C21. While an argument remains (`argv > 0`), a pass of the loop that meets
`%s` after a run `pre` of characters other than `'%'` consumes exactly one
argument, takes it as the key into the string table of the runtime, and appends
the characters of the string the key resolves to, or the three characters
`<?>` when it does not resolve; the loop goes on behind the 2 characters with
one argument less. When `%s` consumes the only argument, `stringformat` returns
`pre`, that text and the rest of the format. -/
theorem stringformat_string_directive (resolve : Nat → Option (List Char))
    (stream : FastStringStream) (pre rest : List Char) (hpre : ∀ ch ∈ pre, ch ≠ '%')
    (argv : Int) (hargv : 0 < argv) (key : Nat) (args : List Nat) :
    (∀ fuel result,
      stringformatLoop resolve stream (fuel + 1) (pre ++ '%' :: 's' :: rest) argv (key :: args)
          result =
        stringformatLoop resolve stream fuel rest (argv - 1) args
          (result ++ pre ++ stringArgumentText resolve key)) ∧
    (∀ stored, resolve key = some stored → stringArgumentText resolve key = stored) ∧
    (resolve key = none → stringArgumentText resolve key = ['<', '?', '>']) ∧
    stringformat resolve stream (some (pre ++ '%' :: 's' :: rest)) 1 [key] =
      .ok (some (pre ++ stringArgumentText resolve key ++ rest)) := by
  refine ⟨fun fuel result => loop_string resolve stream fuel pre rest hpre argv hargv key args result,
    ?_, ?_, ?_⟩
  · intro stored hs
    simp [stringArgumentText, hs]
  · intro hn
    simp [stringArgumentText, hn]
  · apply stringformat_eq_loop
    have hlen : (pre ++ '%' :: 's' :: rest).length + 1 = (pre.length + rest.length + 1) + 1 + 1 := by
      simp only [List.length_append, List.length_cons]; omega
    rw [hlen, loop_string resolve stream _ pre rest hpre 1 (by decide) key [] [],
      loop_exhausted resolve stream _ rest (1 - 1) [] _ (by decide)]
    simp

/-- Witness for C21: with the lowercase hexadecimal formatter,
`stringformat("%x-%s", 0xABCD, h)` is `"abcd-X"` when `h` (here 99) resolves to
`"X"`, and `"abcd-<?>"` when it does not resolve. -/
theorem stringformat_string_directive_witness :
    functions.stringformat2 (fun k => if k = 99 then some ['X'] else none) FastStringStream.padded
        (some "%x-%s".toList) 0xABCD 99 = .ok (some "abcd-X".toList) ∧
    functions.stringformat2 (fun _ => none) FastStringStream.padded
        (some "%x-%s".toList) 0xABCD 99 = .ok (some "abcd-<?>".toList) := by
  have h1 := (stringformat_string_directive (fun k => if k = 99 then some ['X'] else none)
    FastStringStream.padded "-".toList [] (by decide) 1 (by decide) 99 []).1 3 "abcd".toList
  have h2 := (stringformat_string_directive (fun _ => none)
    FastStringStream.padded "-".toList [] (by decide) 1 (by decide) 99 []).1 3 "abcd".toList
  constructor
  · apply stringformat_eq_loop
    exact (show _ = stringformatLoop _ _ (3 + 1) ("-".toList ++ '%' :: 's' :: []) 1 [99]
      "abcd".toList from rfl).trans (h1.trans rfl)
  · apply stringformat_eq_loop
    exact (show _ = stringformatLoop _ _ (3 + 1) ("-".toList ++ '%' :: 's' :: []) 1 [99]
      "abcd".toList from rfl).trans (h2.trans rfl)

/-- C22. `string_getCharacter` returns 0 when the string reference is not valid
or when the index is at or past the length of the string, and otherwise the byte
of the string at the index. It never reads outside the string: a read of a
character at or past the length is a fault of the model, and on every string
reference and every index the function returns a byte without that fault. -/
theorem string_getCharacter_guards_the_index (string : StringRef) (index : Nat) :
    (string = none → string_getCharacter string index = .ok 0) ∧
    (∀ s, string = some s → s.length ≤ index → string_getCharacter string index = .ok 0) ∧
    (∀ s, string = some s → ∀ hlt : index < s.length,
      string_getCharacter string index = .ok ((s.get ⟨index, hlt⟩).toNat % 256)) ∧
    (∃ byte, string_getCharacter string index = .ok byte ∧ byte < 256) ∧
    string_getCharacter string index ≠ .error .readOutsideString := by
  have hin : ∀ s : List Char, ∀ hlt : index < s.length,
      string_getCharacter (some s) index = .ok ((s.get ⟨index, hlt⟩).toNat % 256) := by
    intro s hlt
    have hge : ¬ index ≥ s.length := by omega
    simp [string_getCharacter, characterAt, hge, List.getElem?_eq_getElem hlt]
  have hout : ∀ s : List Char, s.length ≤ index → string_getCharacter (some s) index = .ok 0 := by
    intro s hle
    have hge : index ≥ s.length := hle
    simp [string_getCharacter, hge]
  have hok : ∃ byte, string_getCharacter string index = .ok byte ∧ byte < 256 := by
    cases string with
    | none => exact ⟨0, rfl, by decide⟩
    | some s =>
      by_cases hlt : index < s.length
      · exact ⟨_, hin s hlt, Nat.mod_lt _ (by decide)⟩
      · exact ⟨0, hout s (by omega), by decide⟩
  refine ⟨?_, ?_, ?_, hok, ?_⟩
  · intro hnone
    subst hnone
    rfl
  · intro s hs hle
    subst hs
    exact hout s hle
  · intro s hs hlt
    subst hs
    exact hin s hlt
  · obtain ⟨byte, hb, _⟩ := hok
    rw [hb]
    intro hc
    cases hc

/-- Witness for C22: on `"abc"`, index 1 gives the byte of `'b'`, index 3 gives 0,
and the invalid reference gives 0. -/
theorem string_getCharacter_guards_the_index_witness :
    string_getCharacter (some "abc".toList) 1 = .ok 98 ∧
    string_getCharacter (some "abc".toList) 3 = .ok 0 ∧
    string_getCharacter none 3 = .ok 0 := by
  have h1 := (string_getCharacter_guards_the_index (some "abc".toList) 1).2.2.1 "abc".toList rfl
    (by decide)
  have h2 := (string_getCharacter_guards_the_index (some "abc".toList) 3).2.1 "abc".toList rfl
    (by decide)
  have h3 := (string_getCharacter_guards_the_index none 3).1 rfl
  exact ⟨h1.trans (by decide), h2, h3⟩

/-- C23. For each registered `abs`, from `i8` to `u8`, from `i16` to `u16` and from
`i32` to `u32`, and every value `a` of the signed type, the minimum included:
the result is the mathematical absolute value of `a`, and it is a value of the
unsigned return type. -/
theorem absolute_is_the_absolute_value (R T : IntType) (hb : (R, T) ∈ absBindings) (a : Int)
    (ha : T.InRange a) :
    absolute R T a = |a| ∧ R.InRange (absolute R T a) := by
  have habs : ((a.natAbs : Nat) : Int) = |a| := Int.natCast_natAbs a
  simp only [absBindings, List.mem_cons, List.mem_singleton, List.not_mem_nil, or_false,
    Prod.mk.injEq] at hb
  have hcases := abs_cases a
  unfold absolute stdAbs
  rw [habs]
  generalize |a| = m at *
  rcases hb with ⟨rfl, rfl⟩ | ⟨rfl, rfl⟩ | ⟨rfl, rfl⟩ <;>
    simp [castTo, IntType.InRange, IntType.minValue, IntType.maxValue, IntType.bits,
      IntType.isSigned, IntType.promoted] at ha ⊢ <;> omega

/-- Witness for C23: the three minimum values. -/
theorem absolute_is_the_absolute_value_witness :
    absolute .uint8 .int8 (-128) = 128 ∧ absolute .uint16 .int16 (-32768) = 32768 ∧
    absolute .uint32 .int32 (-2147483648) = 2147483648 :=
  ⟨(absolute_is_the_absolute_value .uint8 .int8 (by decide) (-128) (by decide)).1.trans
      (by decide),
    (absolute_is_the_absolute_value .uint16 .int16 (by decide) (-32768) (by decide)).1.trans
      (by decide),
    (absolute_is_the_absolute_value .uint32 .int32 (by decide) (-2147483648) (by decide)).1.trans
      (by decide)⟩

/-! ## Data types the translator accepts -/

theorem select_unknown (f : IntType → ExecFunc) (dt : BaseType) (h : ∀ D : DataType, dt ≠ D.code) :
    SELECT_EXEC_FUNC_BY_DATATYPE f dt = .error .invalidOpcodeDataType := by
  have h1 := h .i8
  have h2 := h .i16
  have h3 := h .i32
  have h4 := h .i64
  have h5 := h .u8
  have h6 := h .u16
  have h7 := h .u32
  have h8 := h .u64
  have h9 := h .int_const
  simp only [DataType.code] at h1 h2 h3 h4 h5 h6 h7 h8 h9
  simp [SELECT_EXEC_FUNC_BY_DATATYPE, h1, h2, h3, h4, h5, h6, h7, h8, h9]

/-- C24. For every static opcode of a type whose handler is keyed by the data type
(`READ_MEMORY`, `WRITE_MEMORY`, the ten binary arithmetic types, the six
comparisons, `ARITHM_NOT`, `ARITHM_BITNOT`), with any parameter: translation
throws "Invalid opcode data type" when the data type is none of the nine base
data types, and returns normally for each of the nine. For every `CAST_VALUE`
opcode: translation throws "Unrecognized cast type" when the cast-exec-type is
none of `i8, i16, i32, u8, u16, u32`, and returns normally for each of the
six. -/
theorem translation_aborts_exactly_on_unknown_types (rt : Runtime) (fresh : RuntimeOpcode)
    (op : OpcodeType) (hop : op ∈ dataTypeKeyedOpcodes) (dt : BaseType) (p : Int) :
    ((∀ D : DataType, dt ≠ D.code) →
      buildRuntimeOpcodeStatic rt fresh ⟨op, dt, p⟩ = .error .invalidOpcodeDataType) ∧
    (∀ D : DataType, ∃ r, buildRuntimeOpcodeStatic rt fresh ⟨op, D.code, p⟩ = .ok r) ∧
    ((∀ D ∈ castTargets, rt.getCastExecType ⟨.CAST_VALUE, dt, p⟩ ≠ D.code) →
      buildRuntimeOpcodeStatic rt fresh ⟨.CAST_VALUE, dt, p⟩ = .error .unrecognizedCastType) ∧
    (∀ D ∈ castTargets, rt.getCastExecType ⟨.CAST_VALUE, dt, p⟩ = D.code →
      ∃ r, buildRuntimeOpcodeStatic rt fresh ⟨.CAST_VALUE, dt, p⟩ = .ok r) := by
  simp only [dataTypeKeyedOpcodes, List.mem_cons, List.mem_singleton, List.not_mem_nil,
    or_false] at hop
  refine ⟨?_, ?_, ?_, ?_⟩
  · intro hdt
    rcases hop with rfl | rfl | rfl | rfl | rfl | rfl | rfl | rfl | rfl | rfl | rfl | rfl | rfl
      | rfl | rfl | rfl | rfl | rfl | rfl | rfl <;>
      simp [buildRuntimeOpcodeStatic, bindSelected, select_unknown _ dt hdt]
  · intro D
    rcases hop with rfl | rfl | rfl | rfl | rfl | rfl | rfl | rfl | rfl | rfl | rfl | rfl | rfl
      | rfl | rfl | rfl | rfl | rfl | rfl | rfl <;>
      first
        | exact ⟨_, by simp only [buildRuntimeOpcodeStatic, bindSelected, select_code]; rfl⟩
        | (by_cases hp : p = 0 <;>
            exact ⟨_, by simp only [buildRuntimeOpcodeStatic, bindSelected, select_code, hp, if_true,
              if_false]; rfl⟩)
  · intro hc
    have h1 := hc .i8 (by decide)
    have h2 := hc .i16 (by decide)
    have h3 := hc .i32 (by decide)
    have h4 := hc .u8 (by decide)
    have h5 := hc .u16 (by decide)
    have h6 := hc .u32 (by decide)
    simp only [DataType.code] at h1 h2 h3 h4 h5 h6
    simp [buildRuntimeOpcodeStatic, h1, h2, h3, h4, h5, h6]
  · intro D hD hrt
    simp only [castTargets, List.mem_cons, List.mem_singleton, List.not_mem_nil, or_false] at hD
    rcases hD with rfl | rfl | rfl | rfl | rfl | rfl <;>
      exact ⟨_, by
        simp [buildRuntimeOpcodeStatic, hrt, DataType.code, BaseType.INT_8, BaseType.INT_16,
          BaseType.INT_32, BaseType.UINT_8, BaseType.UINT_16, BaseType.UINT_32]; rfl⟩

/-- Witness for C24: `ARITHM_ADD` with the data type code `0x20` is refused and with
`i32` accepted; a `CAST_VALUE` whose cast-exec-type is `u64` is refused. -/
theorem translation_aborts_exactly_on_unknown_types_witness :
    buildRuntimeOpcodeStatic Runtime.plain RuntimeOpcode.blank ⟨.ARITHM_ADD, 0x20, 0⟩
      = .error .invalidOpcodeDataType ∧
    (∃ r, buildRuntimeOpcodeStatic Runtime.plain RuntimeOpcode.blank
      ⟨.ARITHM_ADD, BaseType.INT_32, 0⟩ = .ok r) ∧
    buildRuntimeOpcodeStatic Runtime.plain RuntimeOpcode.blank ⟨.CAST_VALUE, BaseType.UINT_64, 0⟩
      = .error .unrecognizedCastType := by
  have h1 := translation_aborts_exactly_on_unknown_types Runtime.plain RuntimeOpcode.blank
    .ARITHM_ADD (by decide) 0x20 0
  have h2 := translation_aborts_exactly_on_unknown_types Runtime.plain RuntimeOpcode.blank
    .ARITHM_ADD (by decide) BaseType.UINT_64 0
  exact ⟨h1.1 (by intro D; cases D <;> decide), h1.2.1 .i32,
    h2.2.2.1 (by decide)⟩

/-! ## Unary negation -/

theorem select_signed_code (f : IntType → ExecFunc) (D : DataType) :
    SELECT_EXEC_FUNC_BY_DATATYPE_SIGNED f D.code = .ok (f D.signedType) := by
  cases D <;> rfl

theorem run_neg (rt : Runtime) (h : MemoryAccessHandler) (fresh : RuntimeOpcode)
    (cf : ControlFlow) (D : DataType) (p : Int) :
    runOpcodes rt h fresh [⟨.ARITHM_NEG, D.code, p⟩] cf =
      .ok (cf.writeStack (-1)
        (castTo D.signedType.promoted (-(castTo D.signedType (cf.readStack (-1)))))) := by
  simp only [run_one, translateAndExecute, buildRuntimeOpcodeStatic, bindSelected,
    select_signed_code, finishRuntimeOpcode, RuntimeOpcode.execute, ExecFunc.call,
    OpcodeExec.exec_ARITHM_UNARY_NEG]

theorem toCell_castTo_signed (D : DataType) (v : Int) :
    toCell (castTo D.signedType.promoted v) = castTo D.signedType.promoted v := by
  apply castTo_of_inRange
  have := castTo_inRange D.signedType.promoted v
  cases D <;>
    simp [DataType.signedType, IntType.promoted, IntType.InRange, IntType.minValue,
      IntType.maxValue, IntType.bits, IntType.isSigned] at this ⊢ <;> omega

theorem neg_exact (D : DataType) (x : Int) (hx : D.signedType.InRange x)
    (hmin : x ≠ D.signedType.promoted.minValue) :
    castTo D.signedType.promoted (-x) = -x := by
  apply castTo_of_inRange
  cases D <;>
    simp [DataType.signedType, IntType.promoted, IntType.InRange, IntType.minValue,
      IntType.maxValue, IntType.bits, IntType.isSigned] at hx hmin ⊢ <;> omega

/-- C26 (amended). For `ARITHM_NEG` the translator forces a signed handler: for
every data type among the nine base types, OR-ing `0x08` into its code gives
the code of the signed data type of the same width (`int_const` keeps its code
and is read as `i64`), so `u8`/`i8` bind
`NEG<i8>`, `u16`/`i16` bind `NEG<i16>`, `u32`/`i32` bind `NEG<i32>`, `u64`/`i64`
and `int_const` bind `NEG<i64>`, and translation never fails. The bound handler
replaces the top cell by the negation of its value read as that signed type,
computed in the promoted type: the exact negation, except that the minimum of
`i32` and of `i64` is left as it is. -/
theorem arithm_neg_binds_signed_handler (rt : Runtime) (h : MemoryAccessHandler)
    (fresh : RuntimeOpcode) (cf : ControlFlow) (D : DataType) (p : Int) :
    (∃ S : DataType, D.code ||| 0x08 = S.code ∧ S.signedType = D.signedType ∧
      S.intType.bits = D.intType.bits ∧ (S = .int_const ∨ S.intType = D.signedType)) ∧
    (∃ runtimeOpcode, buildRuntimeOpcodeStatic rt fresh ⟨.ARITHM_NEG, D.code, p⟩
        = .ok (runtimeOpcode, 1) ∧
      runtimeOpcode.mExecFunc = .exec_ARITHM_UNARY_NEG D.signedType) ∧
    (∃ cf1, runOpcodes rt h fresh [⟨.ARITHM_NEG, D.code, p⟩] cf = .ok cf1 ∧
      cf1.mValueStackPtr = cf.mValueStackPtr ∧
      cf1.top = castTo D.signedType.promoted (-(castTo D.signedType cf.top)) ∧
      (castTo D.signedType cf.top ≠ D.signedType.promoted.minValue →
        cf1.top = -(castTo D.signedType cf.top)) ∧
      (castTo D.signedType cf.top = D.signedType.promoted.minValue →
        cf1.top = castTo D.signedType cf.top) ∧
      (∀ i, i ≠ cf.mValueStackPtr - 1 → cf1.mValueStackBuffer i = cf.mValueStackBuffer i)) := by
  refine ⟨?_, ?_, ?_⟩
  · cases D
    · exact ⟨.i8, by decide, rfl, rfl, by decide⟩
    · exact ⟨.i16, by decide, rfl, rfl, by decide⟩
    · exact ⟨.i32, by decide, rfl, rfl, by decide⟩
    · exact ⟨.i64, by decide, rfl, rfl, by decide⟩
    · exact ⟨.i8, by decide, rfl, rfl, by decide⟩
    · exact ⟨.i16, by decide, rfl, rfl, by decide⟩
    · exact ⟨.i32, by decide, rfl, rfl, by decide⟩
    · exact ⟨.i64, by decide, rfl, rfl, by decide⟩
    · exact ⟨.int_const, by decide, rfl, rfl, by decide⟩
  · exact ⟨_, by simp only [buildRuntimeOpcodeStatic, bindSelected, select_signed_code]; rfl, rfl⟩
  · have htop : (cf.writeStack (-1)
        (castTo D.signedType.promoted (-(castTo D.signedType (cf.readStack (-1)))))).top
        = castTo D.signedType.promoted (-(castTo D.signedType cf.top)) := by
      rw [writeStack_top, toCell_castTo_signed]; rfl
    refine ⟨_, run_neg rt h fresh cf D p, rfl, htop, ?_, ?_, fun i hi => writeStack_other _ _ _ hi⟩
    · intro hne
      rw [htop]
      exact neg_exact D _ (castTo_inRange _ _) hne
    · intro heq
      rw [htop, heq]
      cases D <;> decide

/-- Witness for C26: `NEG` translated for `u8` on a cell holding 200 (read as the
`i8` value -56) leaves 56; translated for `i32` on 5 it leaves -5. -/
theorem arithm_neg_binds_signed_handler_witness :
    (∃ cf1, runOpcodes Runtime.plain MemoryAccessHandler.littleEndian RuntimeOpcode.blank
        [⟨.ARITHM_NEG, BaseType.UINT_8, 0⟩] (ControlFlow.ofStack [200]) = .ok cf1 ∧
      cf1.top = 56) ∧
    (∃ cf1, runOpcodes Runtime.plain MemoryAccessHandler.littleEndian RuntimeOpcode.blank
        [⟨.ARITHM_NEG, BaseType.INT_32, 0⟩] (ControlFlow.ofStack [5]) = .ok cf1 ∧
      cf1.top = -5) := by
  obtain ⟨c1, h1, -, -, h1n, -⟩ := (arithm_neg_binds_signed_handler Runtime.plain
    MemoryAccessHandler.littleEndian RuntimeOpcode.blank (ControlFlow.ofStack [200]) .u8 0).2.2
  obtain ⟨c2, h2, -, -, h2n, -⟩ := (arithm_neg_binds_signed_handler Runtime.plain
    MemoryAccessHandler.littleEndian RuntimeOpcode.blank (ControlFlow.ofStack [5]) .i32 0).2.2
  exact ⟨⟨c1, h1, (h1n (by decide)).trans (by decide)⟩,
    ⟨c2, h2, (h2n (by decide)).trans (by decide)⟩⟩

/-- C26 (counterexample). `ARITHM_NEG` translated for `i32` and run on a top cell
holding -2147483648 leaves -2147483648, which is not the negation
2147483648 of the value read as `i32`. -/
theorem arithm_neg_minimum_is_not_negated :
    castTo .int32 (ControlFlow.ofStack [-2147483648]).top = -2147483648 ∧
    ∃ cf1, runOpcodes Runtime.plain MemoryAccessHandler.littleEndian RuntimeOpcode.blank
        [⟨.ARITHM_NEG, BaseType.INT_32, 0⟩] (ControlFlow.ofStack [-2147483648]) = .ok cf1 ∧
      cf1.top = -2147483648 ∧
      cf1.top ≠ -(castTo .int32 (ControlFlow.ofStack [-2147483648]).top) := by
  refine ⟨by decide, _, run_neg Runtime.plain MemoryAccessHandler.littleEndian
    RuntimeOpcode.blank (ControlFlow.ofStack [-2147483648]) .i32 0, ?_, ?_⟩
  · rw [writeStack_top]; decide
  · rw [writeStack_top]; decide

/-! ## Right shifts -/

theorem mask_of_small (T : IntType) (k : Nat) (hk : k < T.bits) :
    toBits 64 (k : Int) &&& (T.bits - 1) = k := by
  have h64 : toBits 64 (k : Int) = k := by
    have : k < 64 + 1 := by cases T <;> simp [IntType.bits] at hk <;> omega
    simp only [toBits]
    have e : ((k : Int) % 2 ^ 64) = k := by omega
    rw [e]; rfl
  rw [h64]
  cases T
  case int8 | uint8 =>
    show _ &&& (2 ^ 3 - 1) = _
    rw [Nat.and_pow_two_sub_one_eq_mod]; simp [IntType.bits] at hk; omega
  case int16 | uint16 =>
    show _ &&& (2 ^ 4 - 1) = _
    rw [Nat.and_pow_two_sub_one_eq_mod]; simp [IntType.bits] at hk; omega
  case int32 | uint32 =>
    show _ &&& (2 ^ 5 - 1) = _
    rw [Nat.and_pow_two_sub_one_eq_mod]; simp [IntType.bits] at hk; omega
  case int64 | uint64 =>
    show _ &&& (2 ^ 6 - 1) = _
    rw [Nat.and_pow_two_sub_one_eq_mod]; simp [IntType.bits] at hk; omega

/-- In the `w`-bit representation of a value between `-2^m` and `2^m`, every bit
from position `m` on is the sign. -/
theorem toBits_high_bits (w m : Nat) (y : Int) (hlo : -(2 : Int) ^ m ≤ y)
    (hhi : y < (2 : Int) ^ m) (j : Nat) (hj : m ≤ j) (hjw : j < w) :
    (toBits w y).testBit j = decide (y < 0) := by
  have hpow : (2 : Int) ^ m ≤ (2 : Int) ^ j := pow_le_pow_right₀ (by norm_num) hj
  have hpw : (2 : Int) ^ j < (2 : Int) ^ w := pow_lt_pow_right₀ (by norm_num) hjw
  by_cases hneg : y < 0
  · -- the representation is 2^w - (n + 1) with n + 1 = -y
    obtain ⟨n, hn⟩ : ∃ n : Nat, y = -((n : Int) + 1) := ⟨(-y - 1).toNat, by omega⟩
    have hnlt : n < 2 ^ j := by
      have : ((n : Int)) < (2 : Int) ^ j := by omega
      exact_mod_cast this
    have hnw : n < 2 ^ w := by
      have : ((n : Int)) < (2 : Int) ^ w := by omega
      exact_mod_cast this
    have hrep : toBits w y = 2 ^ w - (n + 1) := by
      simp only [toBits]
      have e : y % 2 ^ w = 2 ^ w - ((n : Int) + 1) := by
        rw [hn]
        have h1 : (-((n : Int) + 1)) % 2 ^ w = (-((n : Int) + 1) + 2 ^ w) % 2 ^ w := by
          rw [Int.add_emod_self]
        rw [h1, Int.emod_eq_of_lt (by omega) (by omega)]; ring
      rw [e]
      have hle : n + 1 ≤ 2 ^ w := hnw
      have : ((2 : Int) ^ w - ((n : Int) + 1)) = ((2 ^ w - (n + 1) : Nat) : Int) := by
        push_cast [Nat.cast_sub hle]; ring
      rw [this]; rfl
    rw [hrep, Nat.testBit_two_pow_sub_succ hnw]
    have : n.testBit j = false := Nat.testBit_lt_two_pow hnlt
    simp [hjw, this, hneg]
  · have hy0 : 0 ≤ y := by omega
    obtain ⟨n, hn⟩ : ∃ n : Nat, y = (n : Int) := ⟨y.toNat, by omega⟩
    have hnlt : n < 2 ^ j := by
      have : ((n : Int)) < (2 : Int) ^ j := by omega
      exact_mod_cast this
    have hrep : toBits w y = n := by
      simp only [toBits]
      have e : y % 2 ^ w = (n : Int) := by
        rw [hn]; apply Int.emod_eq_of_lt <;> omega
      rw [e]; rfl
    rw [hrep, Nat.testBit_lt_two_pow hnlt]
    simp [hneg]

theorem shr_bounds (b k : Nat) (hk : k < b) (x : Int) (hlo : -(2 : Int) ^ (b - 1) ≤ x)
    (hhi : x < (2 : Int) ^ (b - 1)) :
    -(2 : Int) ^ (b - 1 - k) ≤ x / 2 ^ k ∧ x / 2 ^ k < (2 : Int) ^ (b - 1 - k) := by
  have hpos : (0 : Int) < 2 ^ k := by positivity
  have hsplit : (2 : Int) ^ (b - 1) = 2 ^ (b - 1 - k) * 2 ^ k := by
    rw [← pow_add]; congr 1; omega
  constructor
  · apply Int.le_ediv_of_mul_le hpos
    rw [neg_mul, ← hsplit]; exact hlo
  · apply Int.ediv_lt_of_lt_mul hpos
    rw [← hsplit]; exact hhi

theorem shr_bounds_unsigned (b k : Nat) (hk : k ≤ b) (x : Int) (hlo : 0 ≤ x)
    (hhi : x < (2 : Int) ^ b) :
    0 ≤ x / 2 ^ k ∧ x / 2 ^ k < (2 : Int) ^ (b - k) := by
  have hpos : (0 : Int) < 2 ^ k := by positivity
  have hsplit : (2 : Int) ^ b = 2 ^ (b - k) * 2 ^ k := by
    rw [← pow_add]; congr 1; omega
  constructor
  · exact Int.ediv_nonneg hlo hpos.le
  · apply Int.ediv_lt_of_lt_mul hpos
    rw [← hsplit]; exact hhi

theorem inRange_pow (T : IntType) (x : Int) (hx : T.InRange x) :
    (T.isSigned = true → -(2 : Int) ^ (T.bits - 1) ≤ x ∧ x < (2 : Int) ^ (T.bits - 1)) ∧
    (T.isSigned = false → 0 ≤ x ∧ x < (2 : Int) ^ T.bits) := by
  cases T <;>
    simp [IntType.InRange, IntType.minValue, IntType.maxValue, IntType.bits,
      IntType.isSigned] at hx ⊢ <;> omega

theorem toBits_toCell (v : Int) : toBits 64 (toCell v) = toBits 64 v := by
  simp only [toBits, toCell]
  have := castTo_emod .int64 v
  simp only [IntType.bits] at this
  rw [this]

theorem bits_le_64 (T : IntType) : 1 ≤ T.bits ∧ T.bits ≤ 64 := by
  cases T <;> simp [IntType.bits]

/-- C25. For every data type `T` (`int_const` read as `u64`), every shift count
`k` with `0 ≤ k < bits(T)` on top and every left operand cell, whose value read
as `T` is `x`: the translated `ARITHM_SHR` succeeds, moves the stack pointer by
-1 and leaves the quotient of `x` by `2^k` rounded down. On a signed `T` the top
cell is exactly that quotient, a negative `x` stays negative, and every bit of
the 64-bit cell from position `bits(T) - 1 - k` on is the sign bit of `x`. On an
unsigned `T` the bit pattern of the cell is that quotient and every bit from
position `bits(T) - k` on is 0. -/
theorem shr_is_arithmetic_on_signed_logical_on_unsigned (rt : Runtime) (h : MemoryAccessHandler)
    (fresh : RuntimeOpcode) (cf : ControlFlow) (D : DataType) (p : Int) (k : Nat)
    (hk : k < D.intType.bits) (hcount : cf.mValueStackBuffer (cf.mValueStackPtr - 1) = (k : Int)) :
    ∃ cf1, runOpcodes rt h fresh [⟨.ARITHM_SHR, D.code, p⟩] cf = .ok cf1 ∧
      cf1.mValueStackPtr = cf.mValueStackPtr - 1 ∧
      cf1.top = toCell (castTo D.intType (cf.mValueStackBuffer (cf.mValueStackPtr - 2)) / 2 ^ k) ∧
      (D.intType.isSigned = true →
        cf1.top = castTo D.intType (cf.mValueStackBuffer (cf.mValueStackPtr - 2)) / 2 ^ k ∧
        (castTo D.intType (cf.mValueStackBuffer (cf.mValueStackPtr - 2)) < 0 → cf1.top < 0) ∧
        ∀ j, D.intType.bits - 1 - k ≤ j → j < 64 →
          (toBits 64 cf1.top).testBit j =
            (toBits D.intType.bits
              (castTo D.intType (cf.mValueStackBuffer (cf.mValueStackPtr - 2)))).testBit
              (D.intType.bits - 1)) ∧
      (D.intType.isSigned = false →
        ((toBits 64 cf1.top : Nat) : Int) =
          castTo D.intType (cf.mValueStackBuffer (cf.mValueStackPtr - 2)) / 2 ^ k ∧
        ∀ j, D.intType.bits - k ≤ j → (toBits 64 cf1.top).testBit j = false) := by
  obtain ⟨cf1, hrun, hptr, htop⟩ := (run_shift rt h fresh cf D p).2
  rw [hcount, mask_of_small _ _ hk] at htop
  have hx := castTo_inRange D.intType (cf.mValueStackBuffer (cf.mValueStackPtr - 2))
  generalize castTo D.intType (cf.mValueStackBuffer (cf.mValueStackPtr - 2)) = x at htop hx ⊢
  have hb := bits_le_64 D.intType
  have hpos : (0 : Int) < 2 ^ k := by positivity
  refine ⟨cf1, hrun, hptr, htop, ?_, ?_⟩
  · intro hs
    obtain ⟨hlo, hhi⟩ := (inRange_pow _ _ hx).1 hs
    obtain ⟨ylo, yhi⟩ := shr_bounds _ k hk x hlo hhi
    have hm63 : (2 : Int) ^ (D.intType.bits - 1 - k) ≤ 2 ^ 63 :=
      pow_le_pow_right₀ (by norm_num) (by omega)
    have hcell : toCell (x / 2 ^ k) = x / 2 ^ k := by
      apply castTo_of_inRange
      simp [IntType.InRange, IntType.minValue, IntType.maxValue, IntType.bits, IntType.isSigned]
      constructor <;> omega
    rw [htop, hcell]
    refine ⟨rfl, ?_, ?_⟩
    · intro hneg
      exact Int.ediv_neg' hneg hpos
    · intro j hj hj64
      rw [toBits_high_bits 64 _ _ ylo yhi j hj hj64,
        toBits_high_bits D.intType.bits _ x hlo hhi _ (le_refl _) (by omega)]
      have : x / 2 ^ k < 0 ↔ x < 0 := by
        constructor
        · intro hq
          by_contra hc
          have := Int.ediv_nonneg (not_lt.mp hc) hpos.le
          omega
        · intro hneg
          exact Int.ediv_neg' hneg hpos
      simp [this]
  · intro hs
    obtain ⟨hlo, hhi⟩ := (inRange_pow _ _ hx).2 hs
    obtain ⟨ylo, yhi⟩ := shr_bounds_unsigned _ k hk.le x hlo hhi
    have hm64 : (2 : Int) ^ (D.intType.bits - k) ≤ 2 ^ 64 :=
      pow_le_pow_right₀ (by norm_num) (by omega)
    have hrep : ((toBits 64 cf1.top : Nat) : Int) = x / 2 ^ k := by
      rw [htop, toBits_toCell]
      simp only [toBits]
      rw [Int.emod_eq_of_lt ylo (by omega)]
      exact Int.toNat_of_nonneg ylo
    refine ⟨hrep, ?_⟩
    intro j hj
    apply Nat.testBit_lt_two_pow
    have h1 : ((toBits 64 cf1.top : Nat) : Int) < (2 : Int) ^ j := by
      rw [hrep]
      exact lt_of_lt_of_le yhi (pow_le_pow_right₀ (by norm_num) hj)
    exact_mod_cast h1

/-- Witness for C25: `SHR` for `i8` of the cell -8 by 1 leaves -4; `SHR` for `u8`
of the cell 248 by 1 leaves 124. -/
theorem shr_is_arithmetic_on_signed_logical_on_unsigned_witness :
    (∃ cf1, runOpcodes Runtime.plain MemoryAccessHandler.littleEndian RuntimeOpcode.blank
        [⟨.ARITHM_SHR, BaseType.INT_8, 0⟩] (ControlFlow.ofStack [-8, 1]) = .ok cf1 ∧
      cf1.top = -4) ∧
    (∃ cf1, runOpcodes Runtime.plain MemoryAccessHandler.littleEndian RuntimeOpcode.blank
        [⟨.ARITHM_SHR, BaseType.UINT_8, 0⟩] (ControlFlow.ofStack [248, 1]) = .ok cf1 ∧
      cf1.top = 124) := by
  obtain ⟨c1, h1, -, h1t, -⟩ := shr_is_arithmetic_on_signed_logical_on_unsigned Runtime.plain
    MemoryAccessHandler.littleEndian RuntimeOpcode.blank (ControlFlow.ofStack [-8, 1]) .i8 0 1
    (by decide) (by decide)
  obtain ⟨c2, h2, -, h2t, -⟩ := shr_is_arithmetic_on_signed_logical_on_unsigned Runtime.plain
    MemoryAccessHandler.littleEndian RuntimeOpcode.blank (ControlFlow.ofStack [248, 1]) .u8 0 1
    (by decide) (by decide)
  exact ⟨⟨c1, h1, h1t.trans (by decide)⟩, ⟨c2, h2, h2t.trans (by decide)⟩⟩

/-! ## Safety of the format interpreter -/

theorem peek_inside (fmt : List Char) (k : Nat) (h : k < fmt.length) :
    peek fmt k = .ok (fmt.get ⟨k, h⟩) := by
  simp [peek, List.getElem?_eq_getElem h]

theorem isWidth1Directive_inside (fmt : List Char) :
    ∃ b, isWidth1Directive fmt fmt.length = .ok b ∧ (b = true → 4 ≤ fmt.length) := by
  unfold isWidth1Directive
  by_cases h4 : 4 ≤ fmt.length
  · rw [if_pos h4, peek_inside fmt 1 (by omega), peek_inside fmt 2 (by omega),
      peek_inside fmt 3 (by omega)]
    simp only
    split
    · split
      · exact ⟨_, rfl, fun _ => h4⟩
      · exact ⟨_, rfl, fun _ => h4⟩
    · exact ⟨_, rfl, fun _ => h4⟩
  · rw [if_neg h4]
    exact ⟨false, rfl, by simp⟩

theorem isWidth2Directive_inside (fmt : List Char) :
    ∃ b, isWidth2Directive fmt fmt.length = .ok b ∧ (b = true → 5 ≤ fmt.length) := by
  unfold isWidth2Directive
  by_cases h5 : 5 ≤ fmt.length
  · rw [if_pos h5, peek_inside fmt 1 (by omega), peek_inside fmt 2 (by omega),
      peek_inside fmt 3 (by omega), peek_inside fmt 4 (by omega)]
    simp only
    split
    · split
      · split
        · exact ⟨_, rfl, fun _ => h5⟩
        · exact ⟨_, rfl, fun _ => h5⟩
      · exact ⟨_, rfl, fun _ => h5⟩
    · exact ⟨_, rfl, fun _ => h5⟩
  · rw [if_neg h5]
    exact ⟨false, rfl, by simp⟩

/-- Recognising a directive inside the format, with an argument left, reads no
character at or past the end and no argument past the array; it consumes an
argument only for `%s`. -/
theorem recogniseDirective_inside (resolve : Nat → Option (List Char)) (fmt : List Char)
    (h2 : 2 ≤ fmt.length) (result : List Char) (argv : Int) (a : Nat) (args : List Nat) :
    ∃ d, recogniseDirective resolve fmt fmt.length result argv (a :: args) = .ok d ∧
      d.charsRead + 1 ≤ fmt.length ∧
      ((d.args = a :: args ∧ d.argv = argv) ∨
        (d.args = args ∧ d.argv = argv - 1 ∧ d.numberOutputCharacter = none)) := by
  unfold recogniseDirective
  rw [peek_inside fmt 1 (by omega)]
  simp only
  split
  · exact ⟨_, rfl, by simpa using h2, Or.inl ⟨rfl, rfl⟩⟩
  split
  · simp only [firstArg]
    exact ⟨_, rfl, by simpa using h2, Or.inr ⟨rfl, rfl, rfl⟩⟩
  split
  · exact ⟨_, rfl, by simpa using h2, Or.inl ⟨rfl, rfl⟩⟩
  obtain ⟨b1, hb1, hlen1⟩ := isWidth1Directive_inside fmt
  rw [hb1]
  cases b1
  · obtain ⟨b2, hb2, hlen2⟩ := isWidth2Directive_inside fmt
    simp only [hb2]
    cases b2
    · exact ⟨_, rfl, by simp; omega, Or.inl ⟨rfl, rfl⟩⟩
    · have h5 := hlen2 rfl
      rw [peek_inside fmt 2 (by omega), peek_inside fmt 3 (by omega), peek_inside fmt 4 (by omega)]
      exact ⟨_, rfl, by simpa using h5, Or.inl ⟨rfl, rfl⟩⟩
  · have h4 := hlen1 rfl
    simp only
    rw [peek_inside fmt 2 (by omega), peek_inside fmt 3 (by omega)]
    exact ⟨_, rfl, by simpa using h4, Or.inl ⟨rfl, rfl⟩⟩

theorem outputNumber_inside (stream : FastStringStream) (d : DirectiveState)
    (h : d.args ≠ [] ∨ d.numberOutputCharacter = none) :
    ∃ d1, outputNumber stream d = .ok d1 ∧ d1.charsRead = d.charsRead ∧
      ((d1.args = d.args ∧ d1.argv = d.argv) ∨
        (d1.args = d.args.tail ∧ d1.argv = d.argv - 1 ∧ d.args ≠ [])) := by
  unfold outputNumber
  cases hc : d.numberOutputCharacter with
  | none => exact ⟨d, rfl, rfl, Or.inl ⟨rfl, rfl⟩⟩
  | some c =>
    have hne : d.args ≠ [] := by
      rcases h with h | h
      · exact h
      · rw [hc] at h; cases h
    cases hargs : d.args with
    | nil => exact absurd hargs hne
    | cons v rest =>
      simp only [firstArg]
      exact ⟨_, rfl, rfl, Or.inr ⟨by simp [hargs], rfl, by simp⟩⟩

/-- With at least `argv` arguments in the array and a fuel above the length of
the format, the loop of `stringformat` ends with a result: no read of the format
at or past its end, no move of the cursor past the end, no read of an argument
past the array. -/
theorem stringformatLoop_total (resolve : Nat → Option (List Char)) (stream : FastStringStream)
    (fuel : Nat) : ∀ (fmt : List Char) (argv : Int) (args : List Nat) (result : List Char),
    fmt.length < fuel → argv ≤ (args.length : Int) →
    ∃ out, stringformatLoop resolve stream fuel fmt argv args result = .ok out := by
  induction fuel with
  | zero => intro fmt argv args result h; omega
  | succ fuel ih =>
    intro fmt argv args result hlen hargs
    rw [stringformatLoop]
    have hdrop : (fmt.dropWhile (fun c => c ≠ '%')).length ≤ fmt.length :=
      (List.dropWhile_sublist _).length_le
    split
    · exact ⟨_, rfl⟩
    split
    · exact ⟨_, rfl⟩
    rename_i hfmt hargv
    simp only
    split
    · exact ⟨_, rfl⟩
    rename_i hfmt1
    obtain ⟨a, rest, hcons⟩ : ∃ a rest, args = a :: rest := by
      cases args with
      | nil => simp at hargs; omega
      | cons a rest => exact ⟨a, rest, rfl⟩
    subst hcons
    split
    · rename_i h2
      obtain ⟨d, hd, hread, hd2⟩ := recogniseDirective_inside resolve _ h2
        (result ++ fmt.takeWhile (fun c => c ≠ '%')) argv a rest
      rw [hd]
      simp only
      have hpre : d.args ≠ [] ∨ d.numberOutputCharacter = none := by
        rcases hd2 with ⟨h, _⟩ | ⟨_, _, h⟩
        · left; rw [h]; simp
        · right; exact h
      obtain ⟨d1, hd1, hch, hd12⟩ := outputNumber_inside stream d hpre
      rw [hd1]
      simp only
      have hadv : advance (fmt.dropWhile (fun c => c ≠ '%')) (d1.charsRead + 1)
          = .ok ((fmt.dropWhile (fun c => c ≠ '%')).drop (d1.charsRead + 1)) := by
        unfold advance
        rw [if_pos (by rw [hch]; exact hread)]
      rw [hadv]
      simp only
      apply ih
      · simp only [List.length_drop]; omega
      · simp only [List.length_cons] at hargs
        have hgoal : d1.argv ≤ (d1.args.length : Int) := by
          rcases hd2 with ⟨ha, hv⟩ | ⟨ha, hv, _⟩ <;> rcases hd12 with ⟨ha1, hv1⟩ | ⟨ha1, hv1, hne⟩
          · rw [ha1, hv1, ha, hv]; simp only [List.length_cons]; exact hargs
          · rw [ha1, hv1, ha, hv]; simp only [List.tail_cons]; push_cast at hargs ⊢; omega
          · rw [ha1, hv1, ha, hv]; push_cast at hargs ⊢; omega
          · rw [ha1, hv1, hv]
            have hl : d.args.tail.length = d.args.length - 1 := List.length_tail _
            rw [hl, ha]
            push_cast at hargs ⊢
            omega
        exact hgoal
    · have hpos : 1 ≤ (fmt.dropWhile (fun c => c ≠ '%')).length := by
        cases hdw : fmt.dropWhile (fun c => c ≠ '%') with
        | nil => exact absurd hdw hfmt1
        | cons x xs => simp
      have hadv : advance (fmt.dropWhile (fun c => c ≠ '%')) 1
          = .ok ((fmt.dropWhile (fun c => c ≠ '%')).drop 1) := by
        unfold advance
        rw [if_pos hpos]
      rw [hadv]
      simp only
      apply ih
      · simp only [List.length_drop]; omega
      · exact hargs

/-- C27. For every format string and every argument array, with the argument
count equal to the length of the array, `stringformat` on a valid format ends
and returns a string. In the model a read of a format character at or past
the end, a move of the cursor past the end, a read of an argument past the array
and a loop that does not end are faults, and none of them occurs. -/
theorem stringformat_is_safe (resolve : Nat → Option (List Char)) (stream : FastStringStream)
    (fmt : List Char) (args : List Nat) :
    ∃ out, stringformat resolve stream (some fmt) (args.length : Int) args = .ok (some out) := by
  obtain ⟨out, hout⟩ := stringformatLoop_total resolve stream (fmt.length + 1) fmt
    (args.length : Int) args [] (by omega) (le_refl _)
  exact ⟨out, stringformat_eq_loop resolve stream fmt _ args out hout⟩

/-! ## Global and external variables -/

theorem readBytes_congr (f g : Nat → Nat) (n : Nat) : ∀ p : Nat,
    (∀ q, p ≤ q → q < p + n → f q = g q) → readBytes f p n = readBytes g p n := by
  induction n with
  | zero => intro p _; rfl
  | succ n ih =>
    intro p hfg
    simp only [readBytes]
    rw [hfg p (le_refl _) (by omega), ih (p + 1) (fun q h1 h2 => hfg q (by omega) (by omega))]

/-- Reading back the bytes just written gives the low `n` bytes of the value. -/
theorem readBytes_writeBytes (n : Nat) : ∀ (bytes : Nat → Nat) (p v : Nat),
    readBytes (writeBytes bytes p n v) p n = v % 256 ^ n := by
  induction n with
  | zero => intro bytes p v; simp [readBytes, Nat.mod_one]
  | succ n ih =>
    intro bytes p v
    simp only [readBytes]
    have h0 : writeBytes bytes p (n + 1) v p = v % 256 := by simp [writeBytes]
    have htail : readBytes (writeBytes bytes p (n + 1) v) (p + 1) n
        = readBytes (writeBytes bytes (p + 1) n (v / 256)) (p + 1) n := by
      apply readBytes_congr
      intro q h1 _
      have : q ≠ p := by omega
      simp [writeBytes, this]
    rw [h0, htail, ih, Nat.mod_mod, pow_succ', Nat.mod_mul]

theorem selectBySize_of_width (f : IntType → ExecFunc) (w : Nat) (current : ExecFunc) :
    (∀ T, unsignedOfWidth w = some T → selectBySize f w current = f T) ∧
    (unsignedOfWidth w = none → selectBySize f w current = current) := by
  by_cases h1 : w = 1
  · subst h1; simp [unsignedOfWidth, selectBySize]
  by_cases h2 : w = 2
  · subst h2; simp [unsignedOfWidth, selectBySize]
  by_cases h4 : w = 4
  · subst h4; simp [unsignedOfWidth, selectBySize]
  by_cases h8 : w = 8
  · subst h8; simp [unsignedOfWidth, selectBySize]
  have hn : unsignedOfWidth w = none := by
    unfold unsignedOfWidth
    split <;> first | rfl | omega
  simp [hn, selectBySize, h1, h2, h4, h8]

theorem unsignedOfWidth_spec (w : Nat) (T : IntType) (h : unsignedOfWidth w = some T) :
    T.isSigned = false ∧ T.bits = 8 * w ∧ T.bits / 8 = w ∧ (w = 1 ∨ w = 2 ∨ w = 4 ∨ w = 8) := by
  unfold unsignedOfWidth at h
  split at h <;> first | (cases h; simp [IntType.isSigned, IntType.bits]) | cases h

/-- What `bindVariableAccess` leaves for a variable of class GLOBAL or EXTERNAL
whose byte width is `w`. -/
theorem bindVariableAccess_wide (rt : Runtime) (ro : RuntimeOpcode) (ty : OpcodeType)
    (dt : BaseType) (p : Int) (w : Nat)
    (hclass : ((castTo .uint32 p).toNat >>> 28 = VariableType.GLOBAL ∧ rt.getSizeOfBaseType dt = w) ∨
      ((castTo .uint32 p).toNat >>> 28 = VariableType.EXTERNAL ∧
        rt.externalBytes (castTo .uint32 p).toNat = w)) :
    ∃ pointer : Nat, ∀ (l u : ExecFunc) (e : IntType → ExecFunc),
      bindVariableAccess rt ro ⟨ty, dt, p⟩ l u e =
        { ro with mParameter := (pointer : Int), mExecFunc := selectBySize e w ro.mExecFunc } := by
  rcases hclass with ⟨hc, hw⟩ | ⟨hc, hw⟩
  · refine ⟨rt.accessGlobalVariableValue (castTo .uint32 p).toNat, fun l u e => ?_⟩
    simp [bindVariableAccess, hc, hw, VariableType.LOCAL, VariableType.USER, VariableType.GLOBAL]
  · refine ⟨rt.externalPointer (castTo .uint32 p).toNat, fun l u e => ?_⟩
    simp [bindVariableAccess, hc, hw, VariableType.LOCAL, VariableType.USER, VariableType.GLOBAL,
      VariableType.EXTERNAL]

/-- The value read back by the getter of width `w` after the setter of the same
width stored `v`. -/
theorem external_roundtrip_value (w : Nat) (T : IntType) (hT : unsignedOfWidth w = some T)
    (bytes : Nat → Nat) (pointer : Nat) (v : Int) :
    castTo T (readBytes (writeBytes bytes pointer (T.bits / 8) (toBits T.bits (castTo T v)))
      pointer (T.bits / 8)) = v % 2 ^ (8 * w) := by
  rw [readBytes_writeBytes]
  unfold unsignedOfWidth at hT
  split at hT <;> first
    | (cases hT; simp [toBits, castTo, IntType.bits, IntType.isSigned]; omega)
    | cases hT

theorem toBits_of_mod (w : Nat) (hw : w ≤ 8) (v : Int) :
    toBits 64 (toCell (v % 2 ^ (8 * w))) = toBits (8 * w) v ∧
    (w < 8 → toCell (v % 2 ^ (8 * w)) = v % 2 ^ (8 * w)) := by
  have hpos : (0 : Int) < 2 ^ (8 * w) := by positivity
  have h0 := Int.emod_nonneg v hpos.ne'
  have h1 := Int.emod_lt_of_pos v hpos
  constructor
  · rw [toBits_toCell]
    simp only [toBits]
    have hle : (2 : Int) ^ (8 * w) ≤ 2 ^ 64 := pow_le_pow_right₀ (by norm_num) (by omega)
    rw [Int.emod_eq_of_lt h0 (by omega)]
  · intro hlt
    apply castTo_of_inRange
    have hle : (2 : Int) ^ (8 * w) ≤ 2 ^ 63 := pow_le_pow_right₀ (by norm_num) (by omega)
    simp [IntType.InRange, IntType.minValue, IntType.maxValue, IntType.bits, IntType.isSigned]
    constructor <;> omega

/-- C28. For a variable of class GLOBAL or EXTERNAL the translator picks the
getter and the setter by the byte width `w` alone: for `w` in {1, 2, 4, 8} it
binds `exec_GET_VARIABLE_VALUE_EXTERNAL` and `exec_SET_VARIABLE_VALUE_EXTERNAL`
at the unsigned type of `8 w` bits, whatever the data type of the opcode, and for
any other width it binds no handler. For every control flow, the translated
`SET_VARIABLE_VALUE` succeeds and leaves the value stack and its pointer as they
were, and a following translated `GET_VARIABLE_VALUE` of the same variable pushes
one cell whose 64-bit pattern is `v mod 2^(8 w)`, `v` being the top-of-stack value
(for `w < 8` the cell is that number itself), changing no other cell. -/
theorem global_and_external_access_is_unsigned_by_width (rt : Runtime) (h : MemoryAccessHandler)
    (fresh : RuntimeOpcode) (cf : ControlFlow) (dt : BaseType) (p : Int) (w : Nat)
    (hclass : ((castTo .uint32 p).toNat >>> 28 = VariableType.GLOBAL ∧ rt.getSizeOfBaseType dt = w) ∨
      ((castTo .uint32 p).toNat >>> 28 = VariableType.EXTERNAL ∧
        rt.externalBytes (castTo .uint32 p).toNat = w)) :
    (∀ T, unsignedOfWidth w = some T →
      T.isSigned = false ∧ T.bits = 8 * w ∧ (w = 1 ∨ w = 2 ∨ w = 4 ∨ w = 8) ∧
      (∃ getter, buildRuntimeOpcodeStatic rt fresh ⟨.GET_VARIABLE_VALUE, dt, p⟩ = .ok (getter, 1) ∧
        getter.mExecFunc = .exec_GET_VARIABLE_VALUE_EXTERNAL T) ∧
      (∃ setter, buildRuntimeOpcodeStatic rt fresh ⟨.SET_VARIABLE_VALUE, dt, p⟩ = .ok (setter, 1) ∧
        setter.mExecFunc = .exec_SET_VARIABLE_VALUE_EXTERNAL T) ∧
      (∃ cf1, runOpcodes rt h fresh [⟨.SET_VARIABLE_VALUE, dt, p⟩] cf = .ok cf1 ∧
        cf1.mValueStackPtr = cf.mValueStackPtr ∧
        cf1.mValueStackBuffer = cf.mValueStackBuffer ∧
        ∃ cf2, runOpcodes rt h fresh [⟨.GET_VARIABLE_VALUE, dt, p⟩] cf1 = .ok cf2 ∧
          cf2.mValueStackPtr = cf.mValueStackPtr + 1 ∧
          toBits 64 cf2.top = toBits (8 * w) cf.top ∧
          (w < 8 → cf2.top = cf.top % 2 ^ (8 * w)) ∧
          (∀ i, i ≠ cf.mValueStackPtr → cf2.mValueStackBuffer i = cf.mValueStackBuffer i))) ∧
    (unsignedOfWidth w = none →
      (∃ getter, buildRuntimeOpcodeStatic rt fresh ⟨.GET_VARIABLE_VALUE, dt, p⟩ = .ok (getter, 1) ∧
        getter.mExecFunc = .exec_NOT_HANDLED) ∧
      (∃ setter, buildRuntimeOpcodeStatic rt fresh ⟨.SET_VARIABLE_VALUE, dt, p⟩ = .ok (setter, 1) ∧
        setter.mExecFunc = .exec_NOT_HANDLED)) := by
  obtain ⟨pointer, hget⟩ := bindVariableAccess_wide rt
    { fresh with mParameter := p, mExecFunc := .exec_NOT_HANDLED, mOpcodeType := .GET_VARIABLE_VALUE }
    .GET_VARIABLE_VALUE dt p w hclass
  obtain ⟨pointer2, hset⟩ := bindVariableAccess_wide rt
    { fresh with mParameter := p, mExecFunc := .exec_NOT_HANDLED, mOpcodeType := .SET_VARIABLE_VALUE }
    .SET_VARIABLE_VALUE dt p w hclass
  have hptr : pointer2 = pointer := by
    rcases hclass with ⟨hc, hw⟩ | ⟨hc, hw⟩
    all_goals
      have a := congrArg RuntimeOpcode.mParameter (hget .exec_NOP .exec_NOP (fun _ => .exec_NOP))
      have b := congrArg RuntimeOpcode.mParameter (hset .exec_NOP .exec_NOP (fun _ => .exec_NOP))
      simp [bindVariableAccess, hc, hw, VariableType.LOCAL, VariableType.USER, VariableType.GLOBAL,
        VariableType.EXTERNAL] at a b
      omega
  subst hptr
  constructor
  · intro T hT
    obtain ⟨hs, hbits, hdiv, hw⟩ := unsignedOfWidth_spec w T hT
    have hselG := (selectBySize_of_width .exec_GET_VARIABLE_VALUE_EXTERNAL w .exec_NOT_HANDLED).1 T hT
    have hselS := (selectBySize_of_width .exec_SET_VARIABLE_VALUE_EXTERNAL w .exec_NOT_HANDLED).1 T hT
    refine ⟨hs, hbits, hw, ?_, ?_, ?_⟩
    · simp only [buildRuntimeOpcodeStatic, hget, hselG]
      exact ⟨_, rfl, rfl⟩
    · simp only [buildRuntimeOpcodeStatic, hset, hselS]
      exact ⟨_, rfl, rfl⟩
    · simp only [run_one, translateAndExecute, buildRuntimeOpcodeStatic, hget, hset, hselG, hselS,
        finishRuntimeOpcode, RuntimeOpcode.execute, ExecFunc.call]
      refine ⟨_, rfl, rfl, rfl, _, rfl, rfl, ?_, ?_, ?_⟩
      · have hv := external_roundtrip_value w T hT cf.mHostBytes (toBits 64 (pointer2 : Int)) cf.top
        have htop : (OpcodeExec.exec_GET_VARIABLE_VALUE_EXTERNAL T
            ⟨OpcodeExec.exec_SET_VARIABLE_VALUE_EXTERNAL T ⟨cf, (pointer2 : Int)⟩, (pointer2 : Int)⟩).top
            = toCell (cf.top % 2 ^ (8 * w)) := by
          rw [← hv]
          simp [OpcodeExec.exec_GET_VARIABLE_VALUE_EXTERNAL, OpcodeExec.exec_SET_VARIABLE_VALUE_EXTERNAL,
            ControlFlow.top, ControlFlow.writeStack, ControlFlow.readStack, ControlFlow.moveStackPtr,
            setCell, RuntimeOpcodeContext.getParameterPointer]
        rw [htop]
        exact (toBits_of_mod w (by omega) cf.top).1
      · intro hlt
        have hv := external_roundtrip_value w T hT cf.mHostBytes (toBits 64 (pointer2 : Int)) cf.top
        have htop : (OpcodeExec.exec_GET_VARIABLE_VALUE_EXTERNAL T
            ⟨OpcodeExec.exec_SET_VARIABLE_VALUE_EXTERNAL T ⟨cf, (pointer2 : Int)⟩, (pointer2 : Int)⟩).top
            = toCell (cf.top % 2 ^ (8 * w)) := by
          rw [← hv]
          simp [OpcodeExec.exec_GET_VARIABLE_VALUE_EXTERNAL, OpcodeExec.exec_SET_VARIABLE_VALUE_EXTERNAL,
            ControlFlow.top, ControlFlow.writeStack, ControlFlow.readStack, ControlFlow.moveStackPtr,
            setCell, RuntimeOpcodeContext.getParameterPointer]
        rw [htop]
        exact (toBits_of_mod w (by omega) cf.top).2 hlt
      · intro i hi
        simp [OpcodeExec.exec_GET_VARIABLE_VALUE_EXTERNAL, OpcodeExec.exec_SET_VARIABLE_VALUE_EXTERNAL,
          ControlFlow.writeStack, ControlFlow.moveStackPtr, setCell, hi]
  · intro hn
    have hselG := (selectBySize_of_width .exec_GET_VARIABLE_VALUE_EXTERNAL w .exec_NOT_HANDLED).2 hn
    have hselS := (selectBySize_of_width .exec_SET_VARIABLE_VALUE_EXTERNAL w .exec_NOT_HANDLED).2 hn
    constructor
    · simp only [buildRuntimeOpcodeStatic, hget, hselG]
      exact ⟨_, rfl, rfl⟩
    · simp only [buildRuntimeOpcodeStatic, hset, hselS]
      exact ⟨_, rfl, rfl⟩

/-- Witness for C28: the global variable with id `0x20000000`, accessed with the
one-byte data type `i8`; storing -1 and reading the variable back pushes 255. -/
theorem global_and_external_access_is_unsigned_by_width_witness :
    ∃ cf1 cf2,
      runOpcodes Runtime.plain MemoryAccessHandler.littleEndian RuntimeOpcode.blank
        [⟨.SET_VARIABLE_VALUE, BaseType.INT_8, 0x20000000⟩] (ControlFlow.ofStack [-1]) = .ok cf1 ∧
      runOpcodes Runtime.plain MemoryAccessHandler.littleEndian RuntimeOpcode.blank
        [⟨.GET_VARIABLE_VALUE, BaseType.INT_8, 0x20000000⟩] cf1 = .ok cf2 ∧
      cf2.top = 255 := by
  obtain ⟨-, -, -, -, -, cf1, h1, -, -, cf2, h2, -, -, htop, -⟩ :=
    (global_and_external_access_is_unsigned_by_width Runtime.plain MemoryAccessHandler.littleEndian
      RuntimeOpcode.blank (ControlFlow.ofStack [-1]) BaseType.INT_8 0x20000000 1
      (Or.inl ⟨by decide, by decide⟩)).1 .uint8 rfl
  exact ⟨cf1, cf2, h1, h2, (htop (by decide)).trans (by decide)⟩

/-! ## Frame of the arithmetic handlers -/

theorem truth_cell (c : Prop) [Decidable c] :
    toCell (if c then 1 else 0) = 0 ∨ toCell (if c then 1 else 0) = 1 := by
  by_cases hc : c
  · right; rw [if_pos hc]; decide
  · left; rw [if_neg hc]; decide

theorem machineDiv_cases (P : IntType) (a b : Int) (hb : b ≠ 0) :
    (∃ q, machineDiv P a b = .ok q) ∨ machineDiv P a b = .error .divideOverflow := by
  unfold machineDiv
  rw [if_neg hb]
  split
  · exact Or.inr rfl
  · exact Or.inl ⟨_, rfl⟩

theorem machineMod_cases (P : IntType) (a b : Int) (hb : b ≠ 0) :
    (∃ r, machineMod P a b = .ok r) ∨ machineMod P a b = .error .divideOverflow := by
  unfold machineMod
  rw [if_neg hb]
  split
  · exact Or.inr rfl
  · exact Or.inl ⟨_, rfl⟩

theorem exec_DIV_shape (T : IntType) (context : RuntimeOpcodeContext) :
    (∃ v, OpcodeExec.exec_ARITHM_BINARY_DIV T context =
        .ok ((context.mControlFlow.moveStackPtr (-1)).writeStack (-1) v)) ∨
    OpcodeExec.exec_ARITHM_BINARY_DIV T context = .error .divideOverflow := by
  unfold OpcodeExec.exec_ARITHM_BINARY_DIV
  simp only
  split
  · exact Or.inl ⟨_, rfl⟩
  · rename_i hne
    rcases machineDiv_cases T.promoted
      (castTo T ((context.mControlFlow.moveStackPtr (-1)).readStack (-1)))
      (castTo T ((context.mControlFlow.moveStackPtr (-1)).readStack 0)) hne with ⟨q, hq⟩ | he
    · rw [hq]; exact Or.inl ⟨_, rfl⟩
    · rw [he]; exact Or.inr rfl

theorem exec_MOD_shape (T : IntType) (context : RuntimeOpcodeContext) :
    (∃ v, OpcodeExec.exec_ARITHM_BINARY_MOD T context =
        .ok ((context.mControlFlow.moveStackPtr (-1)).writeStack (-1) v)) ∨
    OpcodeExec.exec_ARITHM_BINARY_MOD T context = .error .divideOverflow := by
  unfold OpcodeExec.exec_ARITHM_BINARY_MOD
  simp only
  split
  · exact Or.inl ⟨_, rfl⟩
  · rename_i hne
    rcases machineMod_cases T.promoted
      (castTo T ((context.mControlFlow.moveStackPtr (-1)).readStack (-1)))
      (castTo T ((context.mControlFlow.moveStackPtr (-1)).readStack 0)) hne with ⟨q, hq⟩ | he
    · rw [hq]; exact Or.inl ⟨_, rfl⟩
    · rw [he]; exact Or.inr rfl

/-- Every handler of the arithmetic family other than `DIV` and `MOD` returns, and
its result is the control flow with one cell stored on the new top. -/
theorem arithmetic_call_shape (h : MemoryAccessHandler) (f : ExecFunc) (n : Nat)
    (hn : f.operandCount = some n) (cf : ControlFlow) (p : Int) :
    (∃ v, f.call h ⟨cf, p⟩ =
        .ok ((cf.moveStackPtr (-((n : Int) - 1))).writeStack (-1) v) ∧
      (f.isTruthValued = true → toCell v = 0 ∨ toCell v = 1)) ∨
    (f.call h ⟨cf, p⟩ = .error .divideOverflow ∧
      ∃ T, f = .exec_ARITHM_BINARY_DIV T ∨ f = .exec_ARITHM_BINARY_MOD T) := by
  have hm : cf.moveStackPtr (-(((1 : Nat) : Int) - 1)) = cf := by
    simp [ControlFlow.moveStackPtr]
  have hm2 : cf.moveStackPtr (-(((2 : Nat) : Int) - 1)) = cf.moveStackPtr (-1) := by
    simp [ControlFlow.moveStackPtr]
  cases f <;> simp only [ExecFunc.operandCount, Option.some.injEq, reduceCtorEq] at hn <;> subst hn
  case exec_ARITHM_BINARY_DIV T =>
    rw [hm2]
    rcases exec_DIV_shape T ⟨cf, p⟩ with ⟨v, hv⟩ | he
    · exact Or.inl ⟨v, hv, by simp [ExecFunc.isTruthValued]⟩
    · exact Or.inr ⟨he, T, Or.inl rfl⟩
  case exec_ARITHM_BINARY_MOD T =>
    rw [hm2]
    rcases exec_MOD_shape T ⟨cf, p⟩ with ⟨v, hv⟩ | he
    · exact Or.inl ⟨v, hv, by simp [ExecFunc.isTruthValued]⟩
    · exact Or.inr ⟨he, T, Or.inr rfl⟩
  all_goals
    left
    first
      | rw [hm]
      | rw [hm2]
    refine ⟨_, rfl, ?_⟩
    first
      | (intro ht; simp only [ExecFunc.isTruthValued, Bool.false_eq_true] at ht; done)
      | exact fun _ => truth_cell _

theorem frame_result_cell (n : Nat) (cf : ControlFlow) (v : Int) :
    OnlyResultCellChanged n cf ((cf.moveStackPtr (-((n : Int) - 1))).writeStack (-1) v) ∧
    ((cf.moveStackPtr (-((n : Int) - 1))).writeStack (-1) v).top = toCell v := by
  refine ⟨⟨?_, ?_, rfl, rfl, rfl, rfl, rfl, rfl⟩, ?_⟩
  · simp only [ControlFlow.writeStack, ControlFlow.moveStackPtr]; omega
  · intro i hi
    simp only [ControlFlow.writeStack, ControlFlow.moveStackPtr] at hi ⊢
    exact setCell_other _ _ _ _ (by omega)
  · simp [ControlFlow.top, ControlFlow.writeStack, ControlFlow.readStack, ControlFlow.moveStackPtr,
      setCell]

/-- C29. Every binary arithmetic handler, every comparison handler, every unary
handler (`NEG`, `NOT`, `BITNOT`), `CAST_VALUE` and `MAKE_BOOL`, for every `T` and
on every control flow: when the handler returns, it has changed nothing but the
stack pointer (lowered by one for the two-operand handlers, kept by the others)
and the result cell on the new top; every other value-stack cell, the local
variables with their size and frame base, the user variables, the host storage
and the host memory are as before. Every comparison handler and `ARITHM_NOT`
leave 0 or 1 in the result cell. All of these handlers return on every input,
except `DIV` and `MOD`, whose only fault is the overflowing division. -/
theorem arithmetic_handlers_change_only_the_result_cell (h : MemoryAccessHandler) (f : ExecFunc)
    (n : Nat) (hn : f.operandCount = some n) (cf : ControlFlow) (p : Int) :
    (∀ cf1, f.call h ⟨cf, p⟩ = .ok cf1 →
      OnlyResultCellChanged n cf cf1 ∧ (f.isTruthValued = true → cf1.top = 0 ∨ cf1.top = 1)) ∧
    ((∀ T, f ≠ .exec_ARITHM_BINARY_DIV T ∧ f ≠ .exec_ARITHM_BINARY_MOD T) →
      ∃ cf1, f.call h ⟨cf, p⟩ = .ok cf1) ∧
    (∀ e, f.call h ⟨cf, p⟩ = .error e → e = .divideOverflow) := by
  rcases arithmetic_call_shape h f n hn cf p with ⟨v, hv, htruth⟩ | ⟨he, T, hT⟩
  · obtain ⟨hframe, htop⟩ := frame_result_cell n cf v
    refine ⟨?_, fun _ => ⟨_, hv⟩, ?_⟩
    · intro cf1 hc
      rw [hv] at hc
      cases hc
      refine ⟨hframe, fun ht => ?_⟩
      rw [htop]
      exact htruth ht
    · intro e hc
      rw [hv] at hc
      cases hc
  · refine ⟨?_, ?_, ?_⟩
    · intro cf1 hc
      rw [he] at hc
      cases hc
    · intro hne
      rcases hT with hT | hT
      · exact absurd hT (hne T).1
      · exact absurd hT (hne T).2
    · intro e hc
      rw [he] at hc
      cases hc
      rfl

/-- Witness for C29: `CMP_LT` for `i8` on the cells 3 and 5 returns a control flow
that differs from the one before in the stack pointer and the result cell only,
and that cell holds 0 or 1. -/
theorem arithmetic_handlers_change_only_the_result_cell_witness :
    ∃ cf1, (ExecFunc.exec_ARITHM_BINARY_CMP_LT .int8).call MemoryAccessHandler.littleEndian
        ⟨ControlFlow.ofStack [3, 5], 0⟩ = .ok cf1 ∧
      OnlyResultCellChanged 2 (ControlFlow.ofStack [3, 5]) cf1 ∧ (cf1.top = 0 ∨ cf1.top = 1) := by
  have hthm := arithmetic_handlers_change_only_the_result_cell MemoryAccessHandler.littleEndian
    (.exec_ARITHM_BINARY_CMP_LT .int8) 2 rfl (ControlFlow.ofStack [3, 5]) 0
  obtain ⟨cf1, h1⟩ := hthm.2.1 (fun T => ⟨fun hc => (by cases hc), fun hc => (by cases hc)⟩)
  exact ⟨cf1, h1, (hthm.1 cf1 h1).1, (hthm.1 cf1 h1).2 rfl⟩

end lemon
